import Mathlib

/-!
# Parallax Windows CLI: environment installer

A shallow embedding of the environment installation code of `parallax_win_cli`
(`src/parallax/environment/*`, with the pieces of `src/parallax/utils` it calls) and the
properties proved about it.

Conventions of the embedding.

* `std::string` is `String`, `int` is `Int`, `std::vector` is `List`, `std::pair` is `×`.
* Code that touches the machine is written in state-passing style over `State W`.  `W` is the
  system outside the process (files, registry, services, installed packages, the clock); it is
  left abstract and only reached through the primitives of `Sys W`.
* The cooperative stop flag `ExecutionContext::stop_requested_` is an atomic that other threads
  may write.  It is stored next to the world in `Machine W`, and every blocking primitive maps a
  `Machine W` to a `Machine W`, so a primitive may return with the flag changed.
* `State.log` is ghost state: every external command or destructive file operation appends an
  `Event`; nothing ever reads it.
* Logging calls (`info_log`, `error_log`, `LogOperationStart`, `LogOperationResult`) have no
  effect on results and are left out.
* The output decoding of `utils.cpp` works on bytes: there a `std::string` is a list of bytes
  and a `std::wstring` a list of 16-bit code units.  In the installer these functions are
  primitives of `Sys W`.
* `ModelJoinCommand::EscapeForShell` (`src/parallax/cli/commands/model_commands.cpp`) is
  embedded together with the reading of a command line it is meant for, `posix.words`.
-/

namespace parallax

namespace environment

/-! ## Data model (`environment_installer.h`) -/

/-- Environment component type enumeration, in declaration order. -/
inductive EnvironmentComponent
  | kOSVersion
  | kNvidiaGPU
  | kNvidiaDriver
  | kWSL2
  | kVirtualMachinePlatform
  | kWSLInstall
  | kWSL2Kernel
  | kWSL2DefaultVersion
  | kUbuntu
  | kBIOSVirtualization
  | kCudaToolkit
  | kCargo
  | kNinja
  | kPipUpgrade
  | kParallaxProject
  deriving DecidableEq, Repr

/-- Installation status enumeration. -/
inductive InstallationStatus
  | kSuccess
  | kFailed
  | kSkipped
  | kInProgress
  | kWarning
  deriving DecidableEq, Repr

/-- Single component check/installation result. -/
structure ComponentResult where
  component : EnvironmentComponent
  status : InstallationStatus
  message : String
  error_code : Int
  deriving DecidableEq, Repr

/-- Overall environment check and installation result. -/
structure EnvironmentResult where
  component_results : List ComponentResult
  reboot_required : Bool
  overall_message : String
  deriving DecidableEq, Repr

/-- The value of `static_cast<int>(component)`. -/
def EnvironmentComponent.toInt : EnvironmentComponent → Int
  | .kOSVersion => 0
  | .kNvidiaGPU => 1
  | .kNvidiaDriver => 2
  | .kWSL2 => 3
  | .kVirtualMachinePlatform => 4
  | .kWSLInstall => 5
  | .kWSL2Kernel => 6
  | .kWSL2DefaultVersion => 7
  | .kUbuntu => 8
  | .kBIOSVirtualization => 9
  | .kCudaToolkit => 10
  | .kCargo => 11
  | .kNinja => 12
  | .kPipUpgrade => 13
  | .kParallaxProject => 14

/-- Component name conversion function (`ComponentToString`). -/
def ComponentToString : EnvironmentComponent → String
  | .kOSVersion => "OS Version"
  | .kNvidiaGPU => "NVIDIA GPU Hardware"
  | .kNvidiaDriver => "NVIDIA Driver"
  | .kWSL2 => "WSL2 Feature"
  | .kWSLInstall => "WSL Package"
  | .kVirtualMachinePlatform => "Virtual Machine Platform"
  | .kWSL2Kernel => "WSL2 Kernel"
  | .kWSL2DefaultVersion => "WSL2 Default Version"
  | .kUbuntu => "Ubuntu"
  | .kBIOSVirtualization => "BIOS Virtualization"
  | .kCudaToolkit => "CUDA Toolkit"
  | .kCargo => "Rust Cargo"
  | .kNinja => "Ninja Build Tool"
  | .kPipUpgrade => "pip Upgrade"
  | .kParallaxProject => "Parallax Project"

/-- Status name conversion function (`StatusToString`). -/
def StatusToString : InstallationStatus → String
  | .kSuccess => "success"
  | .kFailed => "failed"
  | .kSkipped => "skipped"
  | .kInProgress => "in_progress"
  | .kWarning => "warning"

/-! ## Strings -/

/-- Whether `needle` occurs in the character list, scanning from the left. -/
def findIn (needle : List Char) : List Char → Bool
  | [] => needle.isEmpty
  | c :: cs => needle.isPrefixOf (c :: cs) || findIn needle cs

/-- The test `haystack.find(needle) != std::string::npos`. -/
def strFind (haystack needle : String) : Bool :=
  findIn needle.toList haystack.toList

/-! ## Machine, ghost log and primitives -/

/-- What blocking primitives act on: the outside system and the shared stop flag
(`ExecutionContext::stop_requested_`). -/
structure Machine (W : Type) where
  world : W
  stop_requested_ : Bool

/-- Ghost record of an external command or destructive file operation. -/
inductive Event
  | ExecCommandEx (cmd : String) (timeout : Int)
  | ExecCommandEx2 (cmd : String) (timeout : Int)
  | TerminateProcess
  | WSLProcessExecute (wsl_command : String)
  | DeleteFileA (path : String)
  deriving DecidableEq, Repr

/-- Machine together with the ghost log of events, oldest first. -/
structure State (W : Type) extends Machine W where
  log : List Event

/-- Exit code and captured streams of a finished command. -/
structure ExecResult where
  exit_code : Int
  stdout_output : String
  stderr_output : String
  deriving DecidableEq, Repr

/-- Outcome of the pipe and process creation at the start of `ExecCommandEx2`. -/
inductive StartResult
  | pipe_failed
  | create_failed (last_error : Nat)
  | created
  deriving DecidableEq, Repr

/-- Outcome of `WaitForSingleObject(pi.hProcess, 100)`. -/
inductive WaitResult
  | WAIT_OBJECT_0
  | WAIT_TIMEOUT
  | WAIT_FAILED
  deriving DecidableEq, Repr

/-- Primitives of the outside system.  These are Windows API calls and helpers whose
behaviour is not determined by the sources of the installer; the development is
parametric in them.  Blocking calls act on `Machine W`, quick read-only queries on `W`. -/
structure Sys (W : Type) where
  /-- The function `parallax::utils::IsAdmin()`. -/
  IsAdmin : W → Bool
  /-- The function `parallax::utils::ExecCommandEx(cmd, timeout, out, err, elevate,
  skip_encoding_conversion)`. -/
  ExecCommandEx : String → Int → Bool → Bool → Machine W → ExecResult × Machine W
  /-- The function `parallax::utils::ConvertPowerShellOutputToUtf8`. -/
  ConvertPowerShellOutputToUtf8 : String → String
  /-- The function `parallax::utils::ConvertWslOutputToUtf8(bytes, is_stderr)`. -/
  ConvertWslOutputToUtf8 : String → Bool → String
  /-- The test `GetFileAttributesA(path) != INVALID_FILE_ATTRIBUTES`. -/
  GetFileAttributesA : String → W → Bool
  /-- The call `DeleteFileA(path)`. -/
  DeleteFileA : String → W → W
  /-- The test `RegOpenKeyExA(HKEY_LOCAL_MACHINE, key, 0, KEY_READ, &hKey) == ERROR_SUCCESS`. -/
  RegOpenKeyExA : String → W → Bool
  /-- The test `RegQueryValueExA(hKey, value, ...) == ERROR_SUCCESS` on an opened key. -/
  RegQueryValueExA : String → String → W → Bool
  /-- Whether `OpenSCManager(NULL, NULL, SC_MANAGER_CONNECT)` returns a handle. -/
  OpenSCManager : W → Bool
  /-- Whether `OpenService(hSCManager, name, SERVICE_QUERY_STATUS)` returns a handle. -/
  OpenService : String → W → Bool
  /-- Whether `QueryServiceStatusEx` succeeds and reports `SERVICE_RUNNING`. -/
  QueryServiceRunning : String → W → Bool
  /-- The call `Sleep(milliseconds)`. -/
  Sleep : Nat → Machine W → Machine W
  /-- The call `ConfigManager::GetInstance().GetConfigValue(key)`. -/
  GetConfigValue : String → String
  /-- The constant `parallax::config::KEY_WSL_INSTALLER_URL`. -/
  KEY_WSL_INSTALLER_URL : String
  /-- The constant `parallax::config::KEY_WSL_KERNEL_URL`. -/
  KEY_WSL_KERNEL_URL : String
  /-- Pipe creation and `CreateProcessA` at the start of `ExecCommandEx2`. -/
  StartProcess : String → Machine W → StartResult × Machine W
  /-- The call `WaitForSingleObject(pi.hProcess, 100)`. -/
  WaitForSingleObject : Machine W → WaitResult × Machine W
  /-- The call `GetTickCount()`, a 32-bit millisecond counter. -/
  GetTickCount : W → Nat
  /-- The call `TerminateProcess(pi.hProcess, -1)`. -/
  TerminateProcess : Machine W → Machine W
  /-- Joining the two reader threads: the bytes they collected from stdout and stderr. -/
  JoinReaders : Machine W → (String × String) × Machine W
  /-- The call `GetExitCodeProcess` on the finished process. -/
  GetExitCodeProcess : W → Int
  /-- The call `WSLProcess::Execute(wsl_command)` (real-time output). -/
  WSLProcessExecute : String → Machine W → Int × Machine W

/-- The read-only configuration of `ExecutionContext`, fixed at construction. -/
structure ExecutionContext where
  temp_directory_ : String
  ubuntu_version_ : String
  proxy_url_ : String

/-- Progress callback function type; `none` is an empty `std::function`. -/
abbrev ProgressCallback (W : Type) := Option (String → String → Int → Machine W → Machine W)

/-- Component check callback function type; `none` is an empty `std::function`. -/
abbrev ComponentCheckCallback (W : Type) := Option (ComponentResult → Machine W → Machine W)

variable {W : Type}

/-- The method `ExecutionContext::IsStopRequested`. -/
def State.IsStopRequested (s : State W) : Bool := s.stop_requested_

/-- The method `ExecutionContext::RequestStop`. -/
def State.RequestStop (s : State W) : State W := { s with stop_requested_ := true }

/-- The method `ExecutionContext::ResetStop`. -/
def State.ResetStop (s : State W) : State W := { s with stop_requested_ := false }

/-- The method `ExecutionContext::ReportProgress`: invokes the registered callback if
present, no-op otherwise. -/
def ReportProgress (progress_callback_ : ProgressCallback W) (step message : String)
    (progress_percent : Int) (s : State W) : State W :=
  match progress_callback_ with
  | some f => { s with toMachine := f step message progress_percent s.toMachine }
  | none => s

end environment

/-! ## `utils`: command primitives with their ghost events -/

namespace utils

open environment

variable {W : Type}

/-- Run `ExecCommandEx` and record it in the log. -/
def ExecCommandEx (sys : Sys W) (cmd : String) (timeout : Int) (elevate : Bool)
    (skip_encoding_conversion : Bool) (s : State W) : ExecResult × State W :=
  let r := sys.ExecCommandEx cmd timeout elevate skip_encoding_conversion s.toMachine
  (r.1, { toMachine := r.2, log := s.log ++ [Event.ExecCommandEx cmd timeout] })

/-- Run `DeleteFileA` and record it in the log. -/
def DeleteFileA (sys : Sys W) (path : String) (s : State W) : State W :=
  { s with world := sys.DeleteFileA path s.world, log := s.log ++ [Event.DeleteFileA path] }

/-- WSL command prefix (`GetWSLCommandPrefix`). -/
def GetWSLCommandPrefix (ubuntu_version : String) : String :=
  "wsl -d " ++ ubuntu_version ++ " -u root"

/-- WSL command building utility (`BuildWSLCommand`). -/
def BuildWSLCommand (ubuntu_version command : String) : String :=
  GetWSLCommandPrefix ubuntu_version ++ " bash -c \"" ++ command ++ "\""

/-- File download through PowerShell (`parallax::utils::DownloadFile`). -/
def DownloadFile (sys : Sys W) (url local_path : String) (s : State W) : Bool × State W :=
  let powershell_cmd := "Invoke-WebRequest -Uri \"" ++ url ++ "\" -OutFile \"" ++ local_path ++ "\""
  let r := ExecCommandEx sys ("powershell.exe -Command \"" ++ powershell_cmd ++ "\"") 600 false true s
  if r.1.exit_code = 0 then (sys.GetFileAttributesA local_path r.2.world, r.2)
  else (false, r.2)

end utils

namespace utils

open environment

variable {W : Type}

/-- How the wait loop of `ExecCommandEx2` ended. -/
inductive WaitEnd
  | exited
  | timeout_occurred
  | callback_result
  | wait_error
  deriving DecidableEq, Repr

/-- The wait loop of `ExecCommandEx2` (`while (true)` around `WaitForSingleObject`).  The
tick test is DWORD arithmetic, hence the `% 2 ^ 32`.  The loop is bounded by `fuel`: a
`WAIT_TIMEOUT` lasts 100 ms, so after more than `10 * timeout` of them the tick test must
hold, and running out of fuel is therefore the timeout exit. -/
def ExecCommandEx2.wait (sys : Sys W) (timeout : Int) (startTime : Nat)
    (check_callback : Option (State W → Bool × State W)) : Nat → State W → WaitEnd × State W
  | 0, s => (WaitEnd.timeout_occurred, s)
  | fuel + 1, s =>
    let r := sys.WaitForSingleObject s.toMachine
    let s1 : State W := { s with toMachine := r.2 }
    match r.1 with
    | WaitResult.WAIT_OBJECT_0 => (WaitEnd.exited, s1)
    | WaitResult.WAIT_TIMEOUT =>
      if (((sys.GetTickCount s1.world : Int) - (startTime : Int)) % 2 ^ 32)
          > (timeout * 1000) % 2 ^ 32 then
        (WaitEnd.timeout_occurred, s1)
      else
        match check_callback with
        | some cb =>
          let c := cb s1
          if c.1 then (WaitEnd.callback_result, c.2) else ExecCommandEx2.wait sys timeout startTime check_callback fuel c.2
        | none => ExecCommandEx2.wait sys timeout startTime check_callback fuel s1
    | WaitResult.WAIT_FAILED => (WaitEnd.wait_error, s1)

/-- Execute a command line with a callback polled during the wait (`ExecCommandEx2`).
The output arguments are the caller's fresh empty strings.  Returns `-3` when terminated by
the callback, `-2` on timeout, `-1` when the process could not be started. -/
def ExecCommandEx2 (sys : Sys W) (cmd : String) (timeout : Int)
    (check_callback : Option (State W → Bool × State W)) (_elevate : Bool)
    (skip_encoding_conversion : Bool) (s : State W) : ExecResult × State W :=
  if cmd.isEmpty ∨ timeout ≤ 0 then (⟨-1, "", ""⟩, s)
  else
    let st := sys.StartProcess ("cmd /C " ++ cmd) s.toMachine
    let s1 : State W := { toMachine := st.2, log := s.log ++ [Event.ExecCommandEx2 cmd timeout] }
    match st.1 with
    | StartResult.pipe_failed => (⟨-1, "", ""⟩, s1)
    | StartResult.create_failed last_error =>
      (⟨-1, "", "create process fail: " ++ toString last_error⟩, s1)
    | StartResult.created =>
      let startTime := sys.GetTickCount s1.world
      let w := ExecCommandEx2.wait sys timeout startTime check_callback ((timeout * 10).toNat + 2) s1
      let timeout_occurred := decide (w.1 = WaitEnd.timeout_occurred)
      let callback_result := decide (w.1 = WaitEnd.callback_result)
      let s2 : State W :=
        if timeout_occurred ∨ callback_result then
          { toMachine := sys.TerminateProcess w.2.toMachine, log := w.2.log ++ [Event.TerminateProcess] }
        else w.2
      let j := sys.JoinReaders s2.toMachine
      let s3 : State W := { s2 with toMachine := j.2 }
      let stdout_output := j.1.1
      let stderr_output :=
        if timeout_occurred then "cmd is auto killed, timeout: " ++ toString timeout ++ "\n>" ++ j.1.2
        else if callback_result then "cmd is terminated by callback\n>" ++ j.1.2
        else j.1.2
      let ret : Int :=
        if timeout_occurred then -2
        else if callback_result then -3
        else sys.GetExitCodeProcess s3.world
      if !skip_encoding_conversion then
        (⟨ret, sys.ConvertPowerShellOutputToUtf8 stdout_output,
          sys.ConvertPowerShellOutputToUtf8 stderr_output⟩, s3)
      else (⟨ret, stdout_output, stderr_output⟩, s3)

/-- Run `WSLProcess::Execute` and record it in the log. -/
def WSLProcess.Execute (sys : Sys W) (wsl_command : String) (s : State W) : Int × State W :=
  let r := sys.WSLProcessExecute wsl_command s.toMachine
  (r.1, { toMachine := r.2, log := s.log ++ [Event.WSLProcessExecute wsl_command] })

end utils

namespace environment

variable {W : Type}

/-! ## `CommandExecutor` (`command_executor.cpp`) -/

namespace CommandExecutor

/-- Execute a PowerShell command (`CommandExecutor::ExecutePowerShell`). -/
def ExecutePowerShell (sys : Sys W) (command : String) (timeout_seconds : Int) (s : State W) :
    (Int × String) × State W :=
  if s.IsStopRequested then ((-1, "Operation interrupted by stop request"), s)
  else
    let r := utils.ExecCommandEx sys ("powershell.exe -Command \"" ++ command ++ "\"")
      timeout_seconds false true s
    let exit_code := r.1.exit_code
    let utf8_stdout := sys.ConvertPowerShellOutputToUtf8 r.1.stdout_output
    let utf8_stderr := sys.ConvertPowerShellOutputToUtf8 r.1.stderr_output
    let combined_output :=
      if !utf8_stderr.isEmpty then
        (if !utf8_stdout.isEmpty then utf8_stdout ++ "\n" else utf8_stdout) ++ utf8_stderr
      else utf8_stdout
    if r.2.IsStopRequested then
      ((-1, "Operation interrupted by stop request after command execution"), r.2)
    else ((exit_code, combined_output), r.2)

/-- Execute a WSL command (`CommandExecutor::ExecuteWSL`). -/
def ExecuteWSL (sys : Sys W) (ctx : ExecutionContext) (command : String) (timeout_seconds : Int)
    (s : State W) : (Int × String) × State W :=
  if s.IsStopRequested then ((-1, "Operation interrupted by stop request"), s)
  else
    let wsl_command := utils.BuildWSLCommand ctx.ubuntu_version_ command
    let r := utils.ExecCommandEx sys wsl_command timeout_seconds false true s
    let exit_code := r.1.exit_code
    let stdout_output := r.1.stdout_output
    let stderr_output := r.1.stderr_output
    let utf8_stdout0 := sys.ConvertWslOutputToUtf8 stdout_output false
    let utf8_stderr0 := sys.ConvertWslOutputToUtf8 stderr_output true
    let utf8_stdout := if utf8_stdout0.isEmpty ∧ !stdout_output.isEmpty then stdout_output else utf8_stdout0
    let utf8_stderr := if utf8_stderr0.isEmpty ∧ !stderr_output.isEmpty then stderr_output else utf8_stderr0
    let combined_output :=
      if !utf8_stderr.isEmpty then
        (if !utf8_stdout.isEmpty then utf8_stdout ++ "\n" else utf8_stdout) ++ utf8_stderr
      else utf8_stdout
    if r.2.IsStopRequested then
      ((-1, "Operation interrupted by stop request after command execution"), r.2)
    else ((exit_code, combined_output), r.2)

/-- Check if a Windows feature is enabled (`CommandExecutor::IsWindowsFeatureEnabled`). -/
def IsWindowsFeatureEnabled (sys : Sys W) (feature_name : String) (s : State W) : Bool × State W :=
  let cmd := "Get-WindowsOptionalFeature -Online -FeatureName " ++ feature_name ++
    " | Select-Object -ExpandProperty State"
  let r := ExecutePowerShell sys cmd 300 s
  (decide (r.1.1 = 0) && strFind r.1.2 "Enabled", r.2)

/-- Enable a Windows feature (`CommandExecutor::EnableWindowsFeature`). -/
def EnableWindowsFeature (sys : Sys W) (feature_name : String) (s : State W) : Bool × State W :=
  let cmd := "Enable-WindowsOptionalFeature -Online -FeatureName " ++ feature_name ++ " -NoRestart"
  let r := ExecutePowerShell sys cmd 300 s
  (decide (r.1.1 = 0), r.2)

/-- Download a file from URL to local path (`CommandExecutor::DownloadFile`). -/
def DownloadFile (sys : Sys W) (url local_path : String) (s : State W) : Bool × State W :=
  if s.IsStopRequested then (false, s)
  else
    let r := utils.DownloadFile sys url local_path s
    if r.2.IsStopRequested then
      (false, if sys.GetFileAttributesA local_path r.2.world then utils.DeleteFileA sys local_path r.2
              else r.2)
    else if !r.1 then
      (false, if sys.GetFileAttributesA local_path r.2.world then utils.DeleteFileA sys local_path r.2
              else r.2)
    else (true, r.2)

end CommandExecutor

end environment

namespace environment

variable {W : Type}

/-! ## Components (`base_component.*`, `windows_feature_manager*.cpp`, `software_installer.cpp`) -/

/-- Interface `IEnvironmentComponent`: one checkable and installable dependency.
`GetComponentName` only feeds the log and is left out. -/
structure Component (W : Type) where
  Check : State W → ComponentResult × State W
  Install : State W → ComponentResult × State W
  GetComponentType : EnvironmentComponent

/-- The helper `BaseEnvironmentComponent::CreateSuccessResult`. -/
def CreateSuccessResult (type : EnvironmentComponent) (message : String) : ComponentResult :=
  ⟨type, InstallationStatus.kSuccess, message, 0⟩

/-- The helper `BaseEnvironmentComponent::CreateFailureResult`. -/
def CreateFailureResult (type : EnvironmentComponent) (message : String) (error_code : Int) :
    ComponentResult :=
  ⟨type, InstallationStatus.kFailed, message, error_code⟩

/-- The helper `BaseEnvironmentComponent::CreateSkippedResult`. -/
def CreateSkippedResult (type : EnvironmentComponent) (message : String) : ComponentResult :=
  ⟨type, InstallationStatus.kSkipped, message, 0⟩

/-- The helper `BaseEnvironmentComponent::CreateWarningResult`. -/
def CreateWarningResult (type : EnvironmentComponent) (message : String) : ComponentResult :=
  ⟨type, InstallationStatus.kWarning, message, 0⟩

/-- What an `Install` of a Windows feature manager returns, together with the values its two
locals (`initial_..._enabled`, the state recorded before the attempt, and `..._enabled`, the
last probe answer) hold at the `return`. -/
structure FeatureInstall (W : Type) where
  result : ComponentResult
  initial_feature_enabled : Bool
  feature_enabled : Bool
  state : State W

namespace WSLFeatureManager

/-- Component type of `WSLFeatureManager`. -/
def GetComponentType : EnvironmentComponent := EnvironmentComponent.kWSL2

/-- The method `WSLFeatureManager::Check`. -/
def Check (sys : Sys W) (s : State W) : ComponentResult × State W :=
  let p := CommandExecutor.IsWindowsFeatureEnabled sys "Microsoft-Windows-Subsystem-Linux" s
  let wsl_feature_enabled := p.1
  (if wsl_feature_enabled then
      CreateSkippedResult GetComponentType "WSL Windows feature is already enabled"
    else CreateFailureResult GetComponentType "WSL Windows feature is not enabled" 2, p.2)

/-- The tail of `WSLFeatureManager::Install` from "Verify if feature is enabled" on. -/
def InstallVerify (sys : Sys W) (initial_wsl_feature_enabled : Bool) (s : State W) :
    FeatureInstall W :=
  let p := CommandExecutor.IsWindowsFeatureEnabled sys "Microsoft-Windows-Subsystem-Linux" s
  let wsl_feature_enabled := p.1
  if !wsl_feature_enabled then
    ⟨CreateFailureResult GetComponentType "Failed to enable WSL Windows feature" 2,
      initial_wsl_feature_enabled, wsl_feature_enabled, p.2⟩
  else
    ⟨if !initial_wsl_feature_enabled then
        CreateSuccessResult GetComponentType
          "WSL Windows feature enabled successfully. System reboot required to complete installation."
      else CreateSuccessResult GetComponentType "WSL Windows feature enabled successfully",
      initial_wsl_feature_enabled, wsl_feature_enabled, p.2⟩

/-- The method `WSLFeatureManager::Install`, with the final values of its locals. -/
def InstallRun (sys : Sys W) (s : State W) : FeatureInstall W :=
  let p := CommandExecutor.IsWindowsFeatureEnabled sys "Microsoft-Windows-Subsystem-Linux" s
  let wsl_feature_enabled := p.1
  let initial_wsl_feature_enabled := wsl_feature_enabled
  if wsl_feature_enabled then
    ⟨CreateSkippedResult GetComponentType "WSL Windows feature is already enabled",
      initial_wsl_feature_enabled, wsl_feature_enabled, p.2⟩
  else
    let dism_cmd := "dism.exe /online /enable-feature " ++
      "/featurename:Microsoft-Windows-Subsystem-Linux /all /norestart"
    let d := CommandExecutor.ExecutePowerShell sys dism_cmd 300 p.2
    let dism_exit_code := d.1.1
    let dism_output := d.1.2
    if dism_exit_code ≠ 0 ∧ dism_exit_code ≠ 1 ∧ dism_exit_code ≠ 2 then
      let e := CommandExecutor.EnableWindowsFeature sys "Microsoft-Windows-Subsystem-Linux" d.2
      if !e.1 then
        ⟨CreateFailureResult GetComponentType
            ("Failed to enable WSL Windows feature: " ++ dism_output) 2,
          initial_wsl_feature_enabled, wsl_feature_enabled, e.2⟩
      else InstallVerify sys initial_wsl_feature_enabled e.2
    else InstallVerify sys initial_wsl_feature_enabled d.2

/-- The method `WSLFeatureManager::Install`. -/
def Install (sys : Sys W) (s : State W) : ComponentResult × State W :=
  ((InstallRun sys s).result, (InstallRun sys s).state)

/-- The component built by `std::make_shared<WSLFeatureManager>(context, executor)`. -/
def component (sys : Sys W) : Component W :=
  ⟨Check sys, Install sys, GetComponentType⟩

end WSLFeatureManager

namespace VirtualMachinePlatformManager

/-- Component type of `VirtualMachinePlatformManager`. -/
def GetComponentType : EnvironmentComponent := EnvironmentComponent.kVirtualMachinePlatform

/-- The method `VirtualMachinePlatformManager::Check`. -/
def Check (sys : Sys W) (s : State W) : ComponentResult × State W :=
  let p := CommandExecutor.IsWindowsFeatureEnabled sys "VirtualMachinePlatform" s
  let feature_enabled := p.1
  (if feature_enabled then
      CreateSkippedResult GetComponentType "Virtual Machine Platform is already enabled"
    else CreateFailureResult GetComponentType "Virtual Machine Platform is not enabled" 3, p.2)

/-- The tail of `VirtualMachinePlatformManager::Install` from "Re-check if Windows feature is
enabled" on. -/
def InstallVerify (sys : Sys W) (initial_feature_enabled : Bool) (s : State W) :
    FeatureInstall W :=
  let p := CommandExecutor.IsWindowsFeatureEnabled sys "VirtualMachinePlatform" s
  let feature_enabled := p.1
  if !feature_enabled then
    ⟨CreateFailureResult GetComponentType "Failed to enable Virtual Machine Platform" 3,
      initial_feature_enabled, feature_enabled, p.2⟩
  else
    ⟨if !initial_feature_enabled then
        CreateSuccessResult GetComponentType
          "Virtual Machine Platform enabled successfully. System reboot required to complete installation."
      else CreateSuccessResult GetComponentType "Virtual Machine Platform enabled successfully",
      initial_feature_enabled, feature_enabled, p.2⟩

/-- The method `VirtualMachinePlatformManager::Install`, with the final values of its locals. -/
def InstallRun (sys : Sys W) (s : State W) : FeatureInstall W :=
  let p := CommandExecutor.IsWindowsFeatureEnabled sys "VirtualMachinePlatform" s
  let feature_enabled := p.1
  let initial_feature_enabled := feature_enabled
  if feature_enabled then
    ⟨CreateSkippedResult GetComponentType "Virtual Machine Platform is already enabled",
      initial_feature_enabled, feature_enabled, p.2⟩
  else
    let dism_cmd := "dism.exe /online /enable-feature " ++
      "/featurename:VirtualMachinePlatform " ++ "/all /norestart"
    let d := CommandExecutor.ExecutePowerShell sys dism_cmd 300 p.2
    let dism_exit_code := d.1.1
    let dism_output := d.1.2
    if dism_exit_code = 0 ∨ dism_exit_code = 1 ∨ dism_exit_code = 2 then
      InstallVerify sys initial_feature_enabled d.2
    else
      let e := CommandExecutor.EnableWindowsFeature sys "VirtualMachinePlatform" d.2
      if !e.1 then
        ⟨CreateFailureResult GetComponentType
            ("Failed to enable Virtual Machine Platform: " ++ dism_output) 3,
          initial_feature_enabled, feature_enabled, e.2⟩
      else InstallVerify sys initial_feature_enabled e.2

/-- The method `VirtualMachinePlatformManager::Install`. -/
def Install (sys : Sys W) (s : State W) : ComponentResult × State W :=
  ((InstallRun sys s).result, (InstallRun sys s).state)

/-- The component built by `std::make_shared<VirtualMachinePlatformManager>(context, executor)`. -/
def component (sys : Sys W) : Component W :=
  ⟨Check sys, Install sys, GetComponentType⟩

end VirtualMachinePlatformManager

end environment

namespace environment

variable {W : Type}

namespace WSLPackageInstaller

/-- Component type of `WSLPackageInstaller`. -/
def GetComponentType : EnvironmentComponent := EnvironmentComponent.kWSLInstall

/-- The method `WSLPackageInstaller::IsWSLPackageInstalled`: three detection signals, all
three required. -/
def IsWSLPackageInstalled (sys : Sys W) (w : W) : Bool :=
  let wsl_exe_paths := ["C:\\Windows\\System32\\wsl.exe", "C:\\Windows\\SysWOW64\\wsl.exe"]
  let wsl_exe_exists := wsl_exe_paths.any (fun path => sys.GetFileAttributesA path w)
  let wsl_registry_exists :=
    sys.RegOpenKeyExA "SOFTWARE\\Microsoft\\Windows\\CurrentVersion\\Lxss" w
  let wsl_service_exists := sys.OpenSCManager w && sys.OpenService "wslservice" w
  let detection_count : Nat :=
    (if wsl_exe_exists then 1 else 0) + (if wsl_registry_exists then 1 else 0) +
      (if wsl_service_exists then 1 else 0)
  decide (detection_count ≥ 3)

/-- The loop of `WSLPackageInstaller::WaitForWSLServiceStart`, by remaining seconds. -/
def WaitForWSLServiceStart.loop (sys : Sys W) : Nat → State W → Bool × State W
  | 0, s => (false, s)
  | remaining + 1, s =>
    if sys.OpenSCManager s.world && sys.OpenService "wslservice" s.world &&
        sys.QueryServiceRunning "wslservice" s.world then (true, s)
    else
      let s1 : State W := { s with toMachine := sys.Sleep 1000 s.toMachine }
      if s1.IsStopRequested then (false, s1)
      else WaitForWSLServiceStart.loop sys remaining s1

/-- The method `WSLPackageInstaller::WaitForWSLServiceStart`. -/
def WaitForWSLServiceStart (sys : Sys W) (timeout_seconds : Int) (s : State W) : Bool × State W :=
  WaitForWSLServiceStart.loop sys timeout_seconds.toNat s

/-- The method `WSLPackageInstaller::Check`. -/
def Check (sys : Sys W) (s : State W) : ComponentResult × State W :=
  let wsl_installed := IsWSLPackageInstalled sys s.world
  (if wsl_installed then CreateSkippedResult GetComponentType "WSL package is already installed"
    else CreateFailureResult GetComponentType "WSL package is not installed" 2, s)

/-- The method `WSLPackageInstaller::Install`. -/
def Install (sys : Sys W) (ctx : ExecutionContext) (s : State W) : ComponentResult × State W :=
  let wsl_installed := IsWSLPackageInstalled sys s.world
  let initial_wsl_installed := wsl_installed
  if wsl_installed then
    (CreateSkippedResult GetComponentType "WSL package is already installed", s)
  else
    let wsl_installer_url := sys.GetConfigValue sys.KEY_WSL_INSTALLER_URL
    let local_wsl_path := ctx.temp_directory_ ++ "wsl.x64.msi"
    let dl := CommandExecutor.DownloadFile sys wsl_installer_url local_wsl_path s
    if !dl.1 then
      (CreateFailureResult GetComponentType
        ("Failed to download WSL installer from: " ++ wsl_installer_url) 2, dl.2)
    else
      let install_cmd := "msiexec /i \"" ++ local_wsl_path ++ "\" /quiet /norestart"
      let r := CommandExecutor.ExecutePowerShell sys install_cmd 300 dl.2
      let install_exit_code := r.1.1
      let install_output := r.1.2
      let s2 := utils.DeleteFileA sys local_wsl_path r.2
      if install_exit_code ≠ 0 then
        (CreateFailureResult GetComponentType
          ("Failed to install WSL package: " ++ install_output) 2, s2)
      else
        let s3 := (WaitForWSLServiceStart sys 60 s2).2
        let wsl_installed := IsWSLPackageInstalled sys s3.world
        if !wsl_installed then
          (CreateFailureResult GetComponentType
            "WSL package installation completed but verification failed" 2, s3)
        else
          (if !initial_wsl_installed then
              CreateSuccessResult GetComponentType
                "WSL package installed successfully. System reboot required to complete installation."
            else CreateSuccessResult GetComponentType "WSL package installed successfully", s3)

/-- The component built by `std::make_shared<WSLPackageInstaller>(context, executor)`. -/
def component (sys : Sys W) (ctx : ExecutionContext) : Component W :=
  ⟨Check sys, Install sys ctx, GetComponentType⟩

end WSLPackageInstaller

namespace WSL2KernelInstaller

/-- Component type of `WSL2KernelInstaller`. -/
def GetComponentType : EnvironmentComponent := EnvironmentComponent.kWSL2Kernel

/-- The method `WSL2KernelInstaller::IsWSL2KernelInstalled`. -/
def IsWSL2KernelInstalled (sys : Sys W) (w : W) : Bool :=
  let kernel_paths :=
    ["C:\\Windows\\System32\\lxss\\tools\\kernel", "C:\\Program Files\\WSL\\tools\\kernel",
      "C:\\Windows\\System32\\wsl\\kernel", "C:\\Windows\\System32\\lxss\\kernel",
      "C:\\Program Files\\WSL\\kernel"]
  if kernel_paths.any (fun path => sys.GetFileAttributesA path w) then true
  else if sys.RegOpenKeyExA "SOFTWARE\\Microsoft\\Windows NT\\CurrentVersion\\WSL" w then
    (if sys.RegQueryValueExA "SOFTWARE\\Microsoft\\Windows NT\\CurrentVersion\\WSL"
        "KernelVersion" w then true else false)
  else false

/-- The method `WSL2KernelInstaller::Check`. -/
def Check (sys : Sys W) (s : State W) : ComponentResult × State W :=
  let kernel_installed := IsWSL2KernelInstalled sys s.world
  (if kernel_installed then CreateSkippedResult GetComponentType "WSL2 kernel is already installed"
    else CreateFailureResult GetComponentType "WSL2 kernel is not installed" 12, s)

/-- The method `WSL2KernelInstaller::Install`. -/
def Install (sys : Sys W) (ctx : ExecutionContext) (s : State W) : ComponentResult × State W :=
  if IsWSL2KernelInstalled sys s.world then
    (CreateSkippedResult GetComponentType "WSL2 kernel is already installed", s)
  else
    let kernel_url := sys.GetConfigValue sys.KEY_WSL_KERNEL_URL
    let local_kernel_path := ctx.temp_directory_ ++ "wsl_update_x64.msi"
    let dl := CommandExecutor.DownloadFile sys kernel_url local_kernel_path s
    if !dl.1 then
      (CreateFailureResult GetComponentType
        ("Failed to download WSL2 kernel from: " ++ kernel_url) 12, dl.2)
    else
      let install_cmd := "msiexec /i \"" ++ local_kernel_path ++ "\" /quiet /norestart"
      let r := CommandExecutor.ExecutePowerShell sys install_cmd 300 dl.2
      let install_exit_code := r.1.1
      let install_output := r.1.2
      let s2 := utils.DeleteFileA sys local_kernel_path r.2
      (if install_exit_code = 0 then
          CreateSuccessResult GetComponentType "WSL2 kernel installed successfully"
        else CreateFailureResult GetComponentType
          ("Failed to install WSL2 kernel: " ++ install_output) 12, s2)

/-- The component built by `std::make_shared<WSL2KernelInstaller>(context, executor)`. -/
def component (sys : Sys W) (ctx : ExecutionContext) : Component W :=
  ⟨Check sys, Install sys ctx, GetComponentType⟩

end WSL2KernelInstaller

end environment

namespace environment

variable {W : Type}

/-- Lines read by repeated `std::getline(iss, line)`: split at newlines, no empty line after
a final newline.  The second argument is the line read so far. -/
def getlines : List Char → List Char → List String
  | [], [] => []
  | [], c :: cur => [String.mk (c :: cur)]
  | c :: cs, cur => if c = '\n' then String.mk cur :: getlines cs [] else getlines cs (cur ++ [c])

namespace WSL2DefaultVersionManager

/-- Component type of `WSL2DefaultVersionManager`. -/
def GetComponentType : EnvironmentComponent := EnvironmentComponent.kWSL2DefaultVersion

/-- The method `WSL2DefaultVersionManager::IsWSLPackageInstalled`: two detection signals,
both required. -/
def IsWSLPackageInstalled (sys : Sys W) (w : W) : Bool :=
  let wsl_exe_paths := ["C:\\Windows\\System32\\wsl.exe", "C:\\Windows\\SysWOW64\\wsl.exe"]
  let wsl_exe_exists := wsl_exe_paths.any (fun path => sys.GetFileAttributesA path w)
  let wsl_registry_exists :=
    sys.RegOpenKeyExA "SOFTWARE\\Microsoft\\Windows\\CurrentVersion\\Lxss" w
  wsl_exe_exists && wsl_registry_exists

/-- The method `WSL2DefaultVersionManager::IsWSL2DefaultVersion`. -/
def IsWSL2DefaultVersion (sys : Sys W) (s : State W) : Bool × State W :=
  if !IsWSLPackageInstalled sys s.world then (false, s)
  else
    let r := CommandExecutor.ExecutePowerShell sys "wsl --status" 300 s
    if r.1.1 = 0 ∧ strFind r.1.2 ": 2" then (true, r.2)
    else
      let v := CommandExecutor.ExecutePowerShell sys "wsl --list --verbose" 300 r.2
      if v.1.1 = 0 then
        ((getlines v.1.2.toList []).any (fun line => strFind line "*" && strFind line "2"), v.2)
      else (false, v.2)

/-- The method `WSL2DefaultVersionManager::Check`. -/
def Check (sys : Sys W) (s : State W) : ComponentResult × State W :=
  if !IsWSLPackageInstalled sys s.world then
    (CreateFailureResult GetComponentType
      "Cannot check WSL2 default version: WSL package is not installed" 4, s)
  else
    let d := IsWSL2DefaultVersion sys s
    (if d.1 then CreateSkippedResult GetComponentType "WSL2 is already the default version"
      else CreateFailureResult GetComponentType "WSL2 is not the default version" 4, d.2)

/-- The method `WSL2DefaultVersionManager::Install`. -/
def Install (sys : Sys W) (s : State W) : ComponentResult × State W :=
  if !IsWSLPackageInstalled sys s.world then
    (CreateFailureResult GetComponentType
      "Cannot set WSL2 default version: WSL package is not installed" 4, s)
  else
    let d := IsWSL2DefaultVersion sys s
    if d.1 then (CreateSkippedResult GetComponentType "WSL2 is already the default version", d.2)
    else
      let r := CommandExecutor.ExecutePowerShell sys "wsl --set-default-version 2" 300 d.2
      (if r.1.1 = 0 then CreateSuccessResult GetComponentType "WSL default version set to 2"
        else CreateFailureResult GetComponentType
          ("Failed to set WSL default version: " ++ r.1.2) 4, r.2)

/-- The component built by `std::make_shared<WSL2DefaultVersionManager>(context, executor)`. -/
def component (sys : Sys W) : Component W :=
  ⟨Check sys, Install sys, GetComponentType⟩

end WSL2DefaultVersionManager

namespace UbuntuInstaller

/-- Component type of `UbuntuInstaller`. -/
def GetComponentType : EnvironmentComponent := EnvironmentComponent.kUbuntu

/-- The method `UbuntuInstaller::IsUbuntuInstalled`. -/
def IsUbuntuInstalled (sys : Sys W) (ctx : ExecutionContext) (s : State W) : Bool × State W :=
  if !WSL2DefaultVersionManager.IsWSLPackageInstalled sys s.world then (false, s)
  else
    let r := CommandExecutor.ExecutePowerShell sys "wsl --list --quiet" 300 s
    (decide (r.1.1 = 0) && strFind r.1.2 ctx.ubuntu_version_, r.2)

/-- The method `UbuntuInstaller::CheckUbuntuInstalled` (the polling callback). -/
def CheckUbuntuInstalled (sys : Sys W) (ctx : ExecutionContext) (s : State W) : Bool × State W :=
  let r := CommandExecutor.ExecutePowerShell sys "wsl --list --quiet" 300 s
  (decide (r.1.1 = 0) && strFind r.1.2 ctx.ubuntu_version_, r.2)

/-- The method `UbuntuInstaller::Check`. -/
def Check (sys : Sys W) (ctx : ExecutionContext) (s : State W) : ComponentResult × State W :=
  let p := IsUbuntuInstalled sys ctx s
  (if p.1 then CreateSkippedResult GetComponentType (ctx.ubuntu_version_ ++ " is already installed")
    else CreateFailureResult GetComponentType (ctx.ubuntu_version_ ++ " is not installed") (-1),
    p.2)

/-- The method `UbuntuInstaller::Install`. -/
def Install (sys : Sys W) (ctx : ExecutionContext) (s : State W) : ComponentResult × State W :=
  let p := IsUbuntuInstalled sys ctx s
  if p.1 then
    (CreateSkippedResult GetComponentType (ctx.ubuntu_version_ ++ " is already installed"), p.2)
  else
    let ubuntu_install_timeout : Int := 1200
    let install_cmd := "wsl --install -d " ++ ctx.ubuntu_version_
    let x := utils.ExecCommandEx2 sys ("powershell.exe -Command \"" ++ install_cmd ++ "\"")
      ubuntu_install_timeout (some (CheckUbuntuInstalled sys ctx)) false false p.2
    let install_code := x.1.exit_code
    let c := if install_code = -3 then CheckUbuntuInstalled sys ctx x.2 else (false, x.2)
    if install_code = -3 ∧ c.1 then
      let sd := CommandExecutor.ExecutePowerShell sys "wsl --shutdown" 30 c.2
      (CreateSuccessResult GetComponentType (ctx.ubuntu_version_ ++ " installed successfully"),
        sd.2)
    else if install_code ≠ 0 then
      let utf8_stdout := sys.ConvertPowerShellOutputToUtf8 x.1.stdout_output
      let utf8_stderr := sys.ConvertPowerShellOutputToUtf8 x.1.stderr_output
      let combined_output :=
        if !utf8_stderr.isEmpty then
          (if !utf8_stdout.isEmpty then utf8_stdout ++ "\n" else utf8_stdout) ++ utf8_stderr
        else utf8_stdout
      (CreateFailureResult GetComponentType ("Failed to install Ubuntu: " ++ combined_output)
        install_code, c.2)
    else
      (CreateSuccessResult GetComponentType (ctx.ubuntu_version_ ++ " installed successfully"),
        c.2)

/-- The component built by `std::make_shared<UbuntuInstaller>(context, executor)`. -/
def component (sys : Sys W) (ctx : ExecutionContext) : Component W :=
  ⟨Check sys ctx, Install sys ctx, GetComponentType⟩

end UbuntuInstaller

end environment

namespace environment

variable {W : Type}

namespace CudaToolkitInstaller

/-- Component type of `CudaToolkitInstaller`. -/
def GetComponentType : EnvironmentComponent := EnvironmentComponent.kCudaToolkit

/-- The method `CudaToolkitInstaller::IsCudaToolkitInstalled`. -/
def IsCudaToolkitInstalled (sys : Sys W) (ctx : ExecutionContext) (s : State W) : Bool × State W :=
  let c := CommandExecutor.ExecuteWSL sys ctx
    ("source ~/.bashrc && nvcc --version 2>/dev/null || " ++
      "/usr/local/cuda-12.8/bin/nvcc --version 2>/dev/null || echo 'not " ++ "found'") 300 s
  if c.1.1 = 0 ∧ (strFind c.1.2 "release 12.8" ∨ strFind c.1.2 "release 12.9") then (true, c.2)
  else
    let d := CommandExecutor.ExecuteWSL sys ctx "dpkg -l | grep cuda-toolkit-12" 300 c.2
    if d.1.1 = 0 ∧ !d.1.2.isEmpty then (true, d.2)
    else
      let l := CommandExecutor.ExecuteWSL sys ctx
        ("ls -la /usr/local/cuda-12.8/bin/nvcc 2>/dev/null || ls -la " ++
          "/usr/local/cuda/bin/nvcc 2>/dev/null || echo 'not found'") 300 d.2
      (decide (l.1.1 = 0) && !strFind l.1.2 "not found", l.2)

/-- The method `CudaToolkitInstaller::Check`. -/
def Check (sys : Sys W) (ctx : ExecutionContext) (s : State W) : ComponentResult × State W :=
  let p := IsCudaToolkitInstalled sys ctx s
  (if p.1 then CreateSkippedResult GetComponentType "CUDA Toolkit 12.8 is already installed"
    else CreateFailureResult GetComponentType "CUDA Toolkit 12.8 is not installed" 21, p.2)

/-- The install command sequence of `CudaToolkitInstaller::Install`: step name, command,
timeout seconds, use real-time output. -/
def commands (ctx : ExecutionContext) : List (String × String × Int × Bool) :=
  let proxy_url := ctx.proxy_url_
  let wget_cmd0 := "wget " ++ "https://developer.download.nvidia.com/compute/cuda/repos/wsl-ubuntu/" ++
    "x86_64/cuda-keyring_1.1-1_all.deb"
  let wget_cmd := if !proxy_url.isEmpty then "ALL_PROXY=" ++ proxy_url ++ " " ++ wget_cmd0 else wget_cmd0
  let update_cmd :=
    if proxy_url.isEmpty then "apt-get update"
    else "apt-get -o Acquire::http::proxy=\"" ++ proxy_url ++ "\" -o Acquire::https::proxy=\"" ++
      proxy_url ++ "\" update"
  let install_cmd :=
    if proxy_url.isEmpty then "apt-get -y install cuda-toolkit-12-8"
    else "apt-get -o Acquire::http::proxy=\"" ++ proxy_url ++ "\" -o Acquire::https::proxy=\"" ++
      proxy_url ++ "\" -y install cuda-toolkit-12-8"
  [("download_cuda_keyring", wget_cmd, 300, false),
   ("install_cuda_keyring", "dpkg -i cuda-keyring_1.1-1_all.deb", 60, false),
   ("update_package_list", update_cmd, 300, false),
   ("install_cuda_toolkit", install_cmd, 1200, true),
   ("add_cuda_to_bashrc", "echo 'export PATH=/usr/local/cuda-12.8/bin:$PATH' >> ~/.bashrc", 60,
     false),
   ("add_cuda_lib_to_bashrc",
     "echo 'export " ++ "LD_LIBRARY_PATH=/usr/local/cuda-12.8/" ++ "lib64:$LD_LIBRARY_PATH' >> ~/.bashrc",
     60, false),
   ("add_cuda_to_profile", "echo 'export PATH=/usr/local/cuda-12.8/bin:$PATH' >> /etc/profile", 60,
     false),
   ("add_cuda_lib_to_profile",
     "echo 'export " ++ "LD_LIBRARY_PATH=/usr/local/cuda-12.8/" ++ "lib64:$LD_LIBRARY_PATH' >> /etc/profile",
     60, false),
   ("create_cuda_env_script",
     "echo -e '#!/bin/bash\\nexport " ++ "PATH=/usr/local/cuda-12.8/bin:$PATH\\nexport " ++
       "LD_LIBRARY_PATH=/usr/local/cuda-12.8/lib64:$LD_LIBRARY_PATH' > " ++
       "/etc/profile.d/cuda.sh && chmod +x /etc/profile.d/cuda.sh", 60, false)]

/-- The step loop of `CudaToolkitInstaller::Install`: `some` is the result returned from
inside the loop at the first failing step. -/
def runSteps (sys : Sys W) (ctx : ExecutionContext) :
    List (String × String × Int × Bool) → State W → Option ComponentResult × State W
  | [], s => (none, s)
  | (step_name, cmd, timeout, use_realtime) :: rest, s =>
    let r : Int × State W :=
      if use_realtime then
        utils.WSLProcess.Execute sys (utils.BuildWSLCommand ctx.ubuntu_version_ cmd) s
      else
        let e := CommandExecutor.ExecuteWSL sys ctx cmd timeout s
        (e.1.1, e.2)
    let cmd_exit_code := r.1
    if cmd_exit_code ≠ 0 then
      (some (CreateFailureResult GetComponentType
        ("Failed at step '" ++ step_name ++ "': " ++ cmd) 21), r.2)
    else runSteps sys ctx rest r.2

/-- The method `CudaToolkitInstaller::Install`. -/
def Install (sys : Sys W) (ctx : ExecutionContext) (s : State W) : ComponentResult × State W :=
  let p := IsCudaToolkitInstalled sys ctx s
  if p.1 then (CreateSkippedResult GetComponentType "CUDA Toolkit 12.8 is already installed", p.2)
  else
    let st := runSteps sys ctx (commands ctx) p.2
    match st.1 with
    | some result => (result, st.2)
    | none =>
      let v := IsCudaToolkitInstalled sys ctx st.2
      (if v.1 then CreateSuccessResult GetComponentType "CUDA Toolkit 12.8 installed successfully"
        else CreateFailureResult GetComponentType
          "CUDA Toolkit installation completed but verification failed" 21, v.2)

/-- The component built by `std::make_shared<CudaToolkitInstaller>(context, executor)`. -/
def component (sys : Sys W) (ctx : ExecutionContext) : Component W :=
  ⟨Check sys ctx, Install sys ctx, GetComponentType⟩

end CudaToolkitInstaller

namespace CargoInstaller

/-- Component type of `CargoInstaller`. -/
def GetComponentType : EnvironmentComponent := EnvironmentComponent.kCargo

/-- The method `CargoInstaller::IsCargoInstalled`. -/
def IsCargoInstalled (sys : Sys W) (ctx : ExecutionContext) (s : State W) : Bool × State W :=
  let c := CommandExecutor.ExecuteWSL sys ctx
    ("source ~/.bashrc && cargo --version 2>/dev/null || ~/.cargo/bin/cargo " ++
      "--version 2>/dev/null || echo 'not found'") 300 s
  (decide (c.1.1 = 0) && !strFind c.1.2 "not found" && !c.1.2.isEmpty, c.2)

/-- The method `CargoInstaller::Check`. -/
def Check (sys : Sys W) (ctx : ExecutionContext) (s : State W) : ComponentResult × State W :=
  let p := IsCargoInstalled sys ctx s
  (if p.1 then CreateSkippedResult GetComponentType "Rust Cargo is already installed"
    else CreateFailureResult GetComponentType "Rust Cargo is not installed" 22, p.2)

/-- The method `CargoInstaller::Install`. -/
def Install (sys : Sys W) (ctx : ExecutionContext) (s : State W) : ComponentResult × State W :=
  let p := IsCargoInstalled sys ctx s
  if p.1 then (CreateSkippedResult GetComponentType "Rust Cargo is already installed", p.2)
  else
    let proxy_url := ctx.proxy_url_
    let download_cmd0 := "curl --proto '=https' --tlsv1.2 -sSf https://sh.rustup.rs -o " ++
      "/tmp/rustup.sh"
    let install_cmd0 := "sh /tmp/rustup.sh -y"
    let download_cmd :=
      if !proxy_url.isEmpty then "ALL_PROXY=" ++ proxy_url ++ " " ++ download_cmd0 else download_cmd0
    let install_cmd :=
      if !proxy_url.isEmpty then
        "ALL_PROXY=" ++ proxy_url ++ " HTTPS_PROXY=" ++ proxy_url ++ " HTTP_PROXY=" ++ proxy_url ++
          " " ++ install_cmd0
      else install_cmd0
    let dl := CommandExecutor.ExecuteWSL sys ctx download_cmd 300 p.2
    if dl.1.1 ≠ 0 then
      (CreateFailureResult GetComponentType ("Failed to download rustup script: " ++ dl.1.2) 22,
        dl.2)
    else
      let ins := CommandExecutor.ExecuteWSL sys ctx install_cmd 600 dl.2
      if ins.1.1 ≠ 0 then
        (CreateFailureResult GetComponentType ("Failed to install Rust: " ++ ins.1.2) 22, ins.2)
      else
        let b := CommandExecutor.ExecuteWSL sys ctx
          "echo 'export PATH=$HOME/.cargo/bin:$PATH' >> ~/.bashrc" 30 ins.2
        let pr := CommandExecutor.ExecuteWSL sys ctx
          "echo 'export PATH=$HOME/.cargo/bin:$PATH' >> /etc/profile" 30 b.2
        let v := IsCargoInstalled sys ctx pr.2
        (if v.1 then CreateSuccessResult GetComponentType "Rust Cargo installed successfully"
          else CreateFailureResult GetComponentType
            "Cargo installation completed but verification failed" 22, v.2)

/-- The component built by `std::make_shared<CargoInstaller>(context, executor)`. -/
def component (sys : Sys W) (ctx : ExecutionContext) : Component W :=
  ⟨Check sys ctx, Install sys ctx, GetComponentType⟩

end CargoInstaller

namespace NinjaInstaller

/-- Component type of `NinjaInstaller`. -/
def GetComponentType : EnvironmentComponent := EnvironmentComponent.kNinja

/-- The method `NinjaInstaller::IsNinjaInstalled`. -/
def IsNinjaInstalled (sys : Sys W) (ctx : ExecutionContext) (s : State W) : Bool × State W :=
  let c := CommandExecutor.ExecuteWSL sys ctx "ninja --version" 300 s
  (decide (c.1.1 = 0) && !c.1.2.isEmpty, c.2)

/-- The method `NinjaInstaller::Check`. -/
def Check (sys : Sys W) (ctx : ExecutionContext) (s : State W) : ComponentResult × State W :=
  let p := IsNinjaInstalled sys ctx s
  (if p.1 then CreateSkippedResult GetComponentType "Ninja build tool is already installed"
    else CreateFailureResult GetComponentType "Ninja build tool is not installed" 23, p.2)

/-- The method `NinjaInstaller::Install`. -/
def Install (sys : Sys W) (ctx : ExecutionContext) (s : State W) : ComponentResult × State W :=
  let p := IsNinjaInstalled sys ctx s
  if p.1 then (CreateSkippedResult GetComponentType "Ninja build tool is already installed", p.2)
  else
    let proxy_url := ctx.proxy_url_
    let install_cmd :=
      if proxy_url.isEmpty then "apt-get install -y ninja-build"
      else "apt-get -o Acquire::http::proxy=\"" ++ proxy_url ++ "\" -o Acquire::https::proxy=\"" ++
        proxy_url ++ "\" install -y ninja-build"
    let ins := CommandExecutor.ExecuteWSL sys ctx install_cmd 300 p.2
    if ins.1.1 ≠ 0 then
      (CreateFailureResult GetComponentType ("Failed to install Ninja: " ++ ins.1.2) 23, ins.2)
    else
      let v := IsNinjaInstalled sys ctx ins.2
      (if v.1 then CreateSuccessResult GetComponentType "Ninja build tool installed successfully"
        else CreateFailureResult GetComponentType
          "Ninja installation completed but verification failed" 23, v.2)

/-- The component built by `std::make_shared<NinjaInstaller>(context, executor)`. -/
def component (sys : Sys W) (ctx : ExecutionContext) : Component W :=
  ⟨Check sys ctx, Install sys ctx, GetComponentType⟩

end NinjaInstaller

end environment

namespace environment

variable {W : Type}

/-! ## Components whose `Check` is not among the sources (`system_checker.h`,
`software_installer.h`) -/

/-- A checker class of `system_checker.h`.  Its `Check` and `GetComponentType` are defined in
a file that is not part of the sources, so they are parameters. -/
structure ExternalChecker (W : Type) where
  Check : State W → ComponentResult × State W
  GetComponentType : EnvironmentComponent

/-- A checker as a component: `ComponentResult Install() override { return Check(); }`. -/
def ExternalChecker.component (c : ExternalChecker W) : Component W :=
  ⟨c.Check, c.Check, c.GetComponentType⟩

/-- The six component classes that are declared in the headers and defined outside the
sources. -/
structure External (W : Type) where
  OSVersionChecker : ExternalChecker W
  NvidiaGPUChecker : ExternalChecker W
  NvidiaDriverChecker : ExternalChecker W
  BIOSVirtualizationChecker : ExternalChecker W
  PipUpgradeManager : Component W
  ParallaxProjectInstaller : Component W

/-! ## `ComponentFactory` (`environment_installer.cpp`) -/

namespace ComponentFactory

/-- The factory method `ComponentFactory::CreateComponent`; `none` is `nullptr`. -/
def CreateComponent (sys : Sys W) (ctx : ExecutionContext) (ext : External W) :
    EnvironmentComponent → Option (Component W)
  | .kOSVersion => some ext.OSVersionChecker.component
  | .kNvidiaGPU => some ext.NvidiaGPUChecker.component
  | .kNvidiaDriver => some ext.NvidiaDriverChecker.component
  | .kWSL2 => some (WSLFeatureManager.component sys)
  | .kVirtualMachinePlatform => some (VirtualMachinePlatformManager.component sys)
  | .kWSLInstall => some (WSLPackageInstaller.component sys ctx)
  | .kWSL2Kernel => some (WSL2KernelInstaller.component sys ctx)
  | .kWSL2DefaultVersion => some (WSL2DefaultVersionManager.component sys)
  | .kUbuntu => some (UbuntuInstaller.component sys ctx)
  | .kBIOSVirtualization => some ext.BIOSVirtualizationChecker.component
  | .kCudaToolkit => some (CudaToolkitInstaller.component sys ctx)
  | .kCargo => some (CargoInstaller.component sys ctx)
  | .kNinja => some (NinjaInstaller.component sys ctx)
  | .kPipUpgrade => some ext.PipUpgradeManager
  | .kParallaxProject => some ext.ParallaxProjectInstaller

/-- The list `ComponentFactory::GetAllComponents()`. -/
def GetAllComponents : List EnvironmentComponent :=
  [.kOSVersion, .kNvidiaGPU, .kNvidiaDriver, .kWSL2, .kVirtualMachinePlatform, .kWSLInstall,
   .kBIOSVirtualization, .kWSL2Kernel, .kWSL2DefaultVersion, .kUbuntu, .kCudaToolkit, .kCargo,
   .kNinja, .kPipUpgrade, .kParallaxProject]

/-- The list `ComponentFactory::GetSystemComponents()`. -/
def GetSystemComponents : List EnvironmentComponent :=
  [.kOSVersion, .kNvidiaGPU, .kNvidiaDriver]

/-- The list `ComponentFactory::GetWindowsFeatureComponents()`. -/
def GetWindowsFeatureComponents : List EnvironmentComponent :=
  [.kWSL2, .kVirtualMachinePlatform, .kWSLInstall, .kWSL2Kernel, .kWSL2DefaultVersion,
   .kBIOSVirtualization, .kUbuntu]

/-- The list `ComponentFactory::GetSoftwareComponents()`. -/
def GetSoftwareComponents : List EnvironmentComponent :=
  [.kCudaToolkit, .kCargo, .kNinja, .kPipUpgrade, .kParallaxProject]

end ComponentFactory

/-! ## `EnvironmentInstaller` (`environment_installer.cpp`) -/

/-- The members of `EnvironmentInstaller` the workflows read: the primitives behind
`CheckAdminPrivileges` and the map `components_` (`none`: no entry for the key). -/
structure EnvironmentInstaller (W : Type) where
  sys : Sys W
  components_ : EnvironmentComponent → Option (Component W)

namespace EnvironmentInstaller

/-- The method `EnvironmentInstaller::InitializeComponents`: one map entry per component type
for which the factory returns an instance. -/
def InitializeComponents (sys : Sys W) (ctx : ExecutionContext) (ext : External W) :
    EnvironmentComponent → Option (Component W) :=
  ComponentFactory.GetAllComponents.foldl
    (fun components_ component_type =>
      match ComponentFactory.CreateComponent sys ctx ext component_type with
      | some component => fun k => if k = component_type then some component else components_ k
      | none => components_)
    (fun _ => none)

/-- The constructor `EnvironmentInstaller::EnvironmentInstaller()`. -/
def new (sys : Sys W) (ctx : ExecutionContext) (ext : External W) : EnvironmentInstaller W :=
  ⟨sys, InitializeComponents sys ctx ext⟩

/-- The method `EnvironmentInstaller::CheckAdminPrivileges`. -/
def CheckAdminPrivileges (inst : EnvironmentInstaller W) (s : State W) : Bool :=
  inst.sys.IsAdmin s.world

/-- The lookup in `component_progress_` of `GetProgressPercentForComponent` (every component
type has an entry, so the fallback `50` is never taken). -/
def GetProgressPercentForComponent : EnvironmentComponent → Int
  | .kOSVersion => 5
  | .kNvidiaGPU => 8
  | .kNvidiaDriver => 10
  | .kWSL2 => 15
  | .kVirtualMachinePlatform => 20
  | .kWSLInstall => 25
  | .kBIOSVirtualization => 30
  | .kWSL2Kernel => 35
  | .kWSL2DefaultVersion => 40
  | .kUbuntu => 45
  | .kCudaToolkit => 60
  | .kCargo => 70
  | .kNinja => 80
  | .kPipUpgrade => 90
  | .kParallaxProject => 95

/-- The method `EnvironmentInstaller::ReportComponentProgress`. -/
def ReportComponentProgress (progress_callback_ : ProgressCallback W)
    (component : EnvironmentComponent) (operation : String) (s : State W) : State W :=
  let progress_id := "op_" ++ operation ++ "_" ++ toString component.toInt
  let message := operation ++ " " ++ ComponentToString component ++ "..."
  ReportProgress progress_callback_ progress_id message (GetProgressPercentForComponent component) s

/-- What `ExecuteComponentOperation` returns, with the state in which the component's
`Check` or `Install` was entered and the state at the return. -/
structure OpRun (W : Type) where
  result : ComponentResult
  invoked_at : State W
  state : State W

/-- The method `EnvironmentInstaller::ExecuteComponentOperation`. -/
def ExecuteComponentOperation (progress_callback_ : ProgressCallback W) (component : Component W)
    (perform_installation : Bool) (callback : ComponentCheckCallback W) (s : State W) : OpRun W :=
  let s1 := ReportComponentProgress progress_callback_ component.GetComponentType
    (if perform_installation then "Installing" else "Checking") s
  let r := if perform_installation then component.Install s1 else component.Check s1
  let s2 : State W :=
    match callback with
    | some f => { r.2 with toMachine := f r.1 r.2.toMachine }
    | none => r.2
  ⟨r.1, s1, s2⟩

/-- The method `EnvironmentInstaller::CheckIfRebootRequired`. -/
def CheckIfRebootRequired (result : ComponentResult) : Bool :=
  decide (result.status = InstallationStatus.kSuccess) && strFind result.message "reboot"

end EnvironmentInstaller

end environment

namespace environment

variable {W : Type}

namespace EnvironmentInstaller

/-- The pointer search of `ProcessVirtualizationResults`: positions of the last Virtual
Machine Platform result and of the last BIOS Virtualization result (`none` is `nullptr`).
The second argument is the position of the head of the list. -/
def ProcessVirtualizationResults.scan :
    List ComponentResult → Nat → Option Nat × Option Nat → Option Nat × Option Nat
  | [], _, found => found
  | result :: rest, i, (vm_result, bios_result) =>
    if result.component = EnvironmentComponent.kVirtualMachinePlatform then
      ProcessVirtualizationResults.scan rest (i + 1) (some i, bios_result)
    else if result.component = EnvironmentComponent.kBIOSVirtualization then
      ProcessVirtualizationResults.scan rest (i + 1) (vm_result, some i)
    else ProcessVirtualizationResults.scan rest (i + 1) (vm_result, bios_result)

/-- The method `EnvironmentInstaller::ProcessVirtualizationResults`; the vector is updated in
place through `vm_result`, here by `List.set` at its position. -/
def ProcessVirtualizationResults (results : List ComponentResult) : List ComponentResult :=
  match ProcessVirtualizationResults.scan results 0 (none, none) with
  | (some vm_result, some bios_result) =>
    match results.get? vm_result, results.get? bios_result with
    | some vm, some bios =>
      if vm.status = InstallationStatus.kSkipped ∧ bios.status = InstallationStatus.kSuccess then
        results.set vm_result
          { vm with message := "Virtual Machine Platform is enabled and BIOS virtualization " ++
              "is working properly" }
      else if vm.status = InstallationStatus.kSkipped ∧ bios.status = InstallationStatus.kFailed then
        results.set vm_result
          { vm with
            status := InstallationStatus.kFailed
            message := "Virtual Machine Platform is enabled in Windows, but " ++ bios.message
            error_code := bios.error_code }
      else results
    | _, _ => results
  | _ => results

/-- The loop of `ProcessRebootRequirements`: the flag and the reasons collected so far. -/
def ProcessRebootRequirements.scan :
    List ComponentResult → Bool × List String → Bool × List String
  | [], acc => acc
  | comp_result :: rest, (reboot_required, reboot_reasons) =>
    if CheckIfRebootRequired comp_result then
      ProcessRebootRequirements.scan rest
        (true, reboot_reasons ++ [ComponentToString comp_result.component])
    else ProcessRebootRequirements.scan rest (reboot_required, reboot_reasons)

/-- The message loop of `ProcessRebootRequirements`: the reasons separated by `", "`; the
second argument is whether the reason at the head is the first one. -/
def ProcessRebootRequirements.join : List String → Bool → String
  | [], _ => ""
  | reason :: rest, first =>
    (if first then "" else ", ") ++ reason ++ ProcessRebootRequirements.join rest false

/-- The method `EnvironmentInstaller::ProcessRebootRequirements`. -/
def ProcessRebootRequirements (result : EnvironmentResult) : EnvironmentResult :=
  let found := ProcessRebootRequirements.scan result.component_results (result.reboot_required, [])
  if found.1 then
    { result with
      reboot_required := true
      overall_message := "Installation completed (" ++ ProcessRebootRequirements.join found.2 true ++
        "). System reboot required before continuing." }
  else { result with reboot_required := found.1 }

/-- Ghost record of one component operation run by a workflow. -/
structure OpRecord (W : Type) where
  /-- The key of `components_` the loop was at. -/
  component_type : EnvironmentComponent
  perform_installation : Bool
  /-- The state in which the component's `Check` or `Install` was entered. -/
  invoked_at : State W
  result : ComponentResult
  /-- The state when `ExecuteComponentOperation` returned. -/
  returned_at : State W

/-- The install loops go on after this operation: its result is not `Failed` and the stop flag
is clear when it returns. -/
def OpRecord.Continues (o : OpRecord W) : Prop :=
  o.result.status ≠ InstallationStatus.kFailed ∧ o.returned_at.IsStopRequested = false

/-- A workflow in progress or finished: the local `result`, the machine state, and two ghost
lists: the component operations run so far and the values handed to the component callback. -/
structure Run (W : Type) where
  result : EnvironmentResult
  state : State W
  ops : List (OpRecord W)
  callbacks : List ComponentResult

/-- How a loop was left: `next` by running to its end, `ret` by a `return result;` in its
body. -/
inductive Flow (α : Type)
  | next (a : α)
  | ret (a : α)

/-- The ghost record of the operation `o` run for the key `component_type`. -/
def OpRun.record (o : OpRun W) (component_type : EnvironmentComponent)
    (perform_installation : Bool) : OpRecord W :=
  ⟨component_type, perform_installation, o.invoked_at, o.result, o.state⟩

/-- The run after one more component operation `o` for the key `component_type`:
`result.component_results.push_back(comp_result)`, and the ghost lists extended. -/
def Run.push (a : Run W) (component_type : EnvironmentComponent) (perform_installation : Bool)
    (callback : ComponentCheckCallback W) (o : OpRun W) : Run W :=
  { result := { a.result with component_results := a.result.component_results ++ [o.result] }
    state := o.state
    ops := a.ops ++ [o.record component_type perform_installation]
    callbacks := if callback.isSome then a.callbacks ++ [o.result] else a.callbacks }

/-- Whether a component type is one of the three critical ones of `CheckEnvironment`
(the local `is_critical`). -/
def IsCritical (component_type : EnvironmentComponent) : Prop :=
  component_type = EnvironmentComponent.kOSVersion ∨
  component_type = EnvironmentComponent.kNvidiaGPU ∨
  component_type = EnvironmentComponent.kNvidiaDriver

instance IsCritical.decidable (component_type : EnvironmentComponent) :
    Decidable (IsCritical component_type) := by
  unfold IsCritical
  infer_instance

/-- The record `o` is that of running, from some state, the operation of the component
registered for its key. -/
def OpRecord.RunBy (inst : EnvironmentInstaller W) (progress_callback_ : ProgressCallback W)
    (callback : ComponentCheckCallback W) (o : OpRecord W) : Prop :=
  ∃ (component : Component W) (s : State W),
    inst.components_ o.component_type = some component ∧
    o = (ExecuteComponentOperation progress_callback_ component o.perform_installation callback
      s).record o.component_type o.perform_installation

/-- The loop "Step 2: Check all components in order" of `CheckEnvironment`. -/
def CheckEnvironment.walk (inst : EnvironmentInstaller W) (progress_callback_ : ProgressCallback W)
    (component_callback : ComponentCheckCallback W) :
    List EnvironmentComponent → Run W → Flow (Run W)
  | [], a => Flow.next a
  | component_type :: rest, a =>
    match inst.components_ component_type with
    | none => CheckEnvironment.walk inst progress_callback_ component_callback rest a
    | some component =>
      let comp_result :=
        ExecuteComponentOperation progress_callback_ component false component_callback a.state
      let a1 := a.push component_type false component_callback comp_result
      if comp_result.result.status = InstallationStatus.kFailed then
        let is_critical :=
          component_type = EnvironmentComponent.kOSVersion ∨
          component_type = EnvironmentComponent.kNvidiaGPU ∨
          component_type = EnvironmentComponent.kNvidiaDriver
        if is_critical then
          Flow.ret { a1 with
            result := { a1.result with
              overall_message := "Critical component failure: " ++ comp_result.result.message } }
        else CheckEnvironment.walk inst progress_callback_ component_callback rest a1
      else CheckEnvironment.walk inst progress_callback_ component_callback rest a1

/-- The method `EnvironmentInstaller::CheckEnvironment`.  `progress_callback_` is the callback
currently registered in the context. -/
def CheckEnvironment (inst : EnvironmentInstaller W) (progress_callback_ : ProgressCallback W)
    (component_callback : ComponentCheckCallback W) (s : State W) : Run W :=
  let s0 := ReportProgress progress_callback_ "check_environment" "Starting environment check..." 0 s
  if !inst.CheckAdminPrivileges s0 then
    let admin_result : ComponentResult :=
      ⟨EnvironmentComponent.kOSVersion, InstallationStatus.kFailed,
        "Administrator privileges required", 1⟩
    let s1 : State W :=
      match component_callback with
      | some f => { s0 with toMachine := f admin_result s0.toMachine }
      | none => s0
    { result := ⟨[admin_result], false, "Administrator privileges required"⟩
      state := s1
      ops := []
      callbacks := if component_callback.isSome then [admin_result] else [] }
  else
    match CheckEnvironment.walk inst progress_callback_ component_callback
        ComponentFactory.GetAllComponents ⟨⟨[], false, ""⟩, s0, [], []⟩ with
    | Flow.ret a => a
    | Flow.next a =>
      let component_results := ProcessVirtualizationResults a.result.component_results
      let s1 := ReportProgress progress_callback_ "check_complete" "Environment check completed" 100
        a.state
      let all_success :=
        component_results.all (fun comp_result => decide (comp_result.status ≠ InstallationStatus.kFailed))
      { a with
        result :=
          { component_results := component_results
            reboot_required := a.result.reboot_required
            overall_message :=
              if all_success then "All required components are properly configured"
              else "Some components need attention" }
        state := s1 }

/-- One phase loop of `InstallEnvironment`.  The three loops of the source differ only in the
operation (`Check` in phase 1, `Install` in phases 2 and 3) and in the text put before the
message of a failed result, which are the parameters `perform_installation` and `heading`. -/
def InstallEnvironment.phase (inst : EnvironmentInstaller W) (progress_callback : ProgressCallback W)
    (perform_installation : Bool) (heading : String) :
    List EnvironmentComponent → Run W → Flow (Run W)
  | [], a => Flow.next a
  | component_type :: rest, a =>
    match inst.components_ component_type with
    | none => InstallEnvironment.phase inst progress_callback perform_installation heading rest a
    | some component =>
      let comp_result :=
        ExecuteComponentOperation progress_callback component perform_installation none a.state
      let a1 := a.push component_type perform_installation none comp_result
      if comp_result.result.status = InstallationStatus.kFailed then
        Flow.ret { a1 with
          result := { a1.result with overall_message := heading ++ comp_result.result.message } }
      else if a1.state.IsStopRequested then
        Flow.ret { a1 with
          result := { a1.result with
            overall_message := "Installation interrupted by stop request" } }
      else InstallEnvironment.phase inst progress_callback perform_installation heading rest a1

/-- The method `EnvironmentInstaller::InstallEnvironment`. -/
def InstallEnvironment (inst : EnvironmentInstaller W) (progress_callback : ProgressCallback W)
    (s : State W) : Run W :=
  let s0 := ReportProgress progress_callback "install_start" "Starting environment installation..." 0
    s.ResetStop
  if !inst.CheckAdminPrivileges s0 then
    let admin_result : ComponentResult :=
      ⟨EnvironmentComponent.kOSVersion, InstallationStatus.kFailed,
        "Administrator privileges required", 1⟩
    { result := ⟨[admin_result], false, "Administrator privileges required"⟩
      state := s0
      ops := []
      callbacks := [] }
  else
    match InstallEnvironment.phase inst progress_callback false "System requirement not met: "
        ComponentFactory.GetSystemComponents ⟨⟨[], false, ""⟩, s0, [], []⟩ with
    | Flow.ret a => a
    | Flow.next a1 =>
      let s1 := ReportProgress progress_callback "phase2_start"
        "Phase 2: Installing Windows features..." 15 a1.state
      match InstallEnvironment.phase inst progress_callback true
          "Windows feature installation failed: " ComponentFactory.GetWindowsFeatureComponents
          { a1 with state := s1 } with
      | Flow.ret a => a
      | Flow.next a2 =>
        let result := ProcessRebootRequirements a2.result
        if result.reboot_required then { a2 with result := result }
        else
          let s2 := ReportProgress progress_callback "phase3_start"
            "Phase 3: Installing software components..." 60 a2.state
          match InstallEnvironment.phase inst progress_callback true
              "Software installation failed: " ComponentFactory.GetSoftwareComponents
              { a2 with result := result, state := s2 } with
          | Flow.ret a => a
          | Flow.next a3 =>
            let s3 := ReportProgress progress_callback "install_complete" "Installation completed"
              100 a3.state
            let all_success :=
              a3.result.component_results.all
                (fun comp_result => decide (comp_result.status ≠ InstallationStatus.kFailed))
            { a3 with
              result := { a3.result with
                overall_message :=
                  if all_success then "All components installed successfully"
                  else "Some components failed to install" }
              state := s3 }

end EnvironmentInstaller

end environment

namespace environment

variable {W : Type}

/-! ## Vocabulary of the component properties -/

/-- The nine installable components whose `Check` and `Install` are defined in the sources,
as the factory builds them. -/
def installableComponents (sys : Sys W) (ctx : ExecutionContext) : List (Component W) :=
  [WSLFeatureManager.component sys, VirtualMachinePlatformManager.component sys,
   WSLPackageInstaller.component sys ctx, WSL2KernelInstaller.component sys ctx,
   WSL2DefaultVersionManager.component sys, UbuntuInstaller.component sys ctx,
   CudaToolkitInstaller.component sys ctx, CargoInstaller.component sys ctx,
   NinjaInstaller.component sys ctx]

/-- The command lines, as handed to `ExecCommandEx`, by which the nine components detect
their dependency: the feature state queries, the `wsl` status and list queries, and the
version and package queries run inside the distribution. -/
def detectionCommands (ctx : ExecutionContext) : List String :=
  ["powershell.exe -Command \"" ++ ("Get-WindowsOptionalFeature -Online -FeatureName " ++
      "Microsoft-Windows-Subsystem-Linux" ++ " | Select-Object -ExpandProperty State") ++ "\"",
   "powershell.exe -Command \"" ++ ("Get-WindowsOptionalFeature -Online -FeatureName " ++
      "VirtualMachinePlatform" ++ " | Select-Object -ExpandProperty State") ++ "\"",
   "powershell.exe -Command \"" ++ "wsl --status" ++ "\"",
   "powershell.exe -Command \"" ++ "wsl --list --verbose" ++ "\"",
   "powershell.exe -Command \"" ++ "wsl --list --quiet" ++ "\"",
   utils.BuildWSLCommand ctx.ubuntu_version_
     ("source ~/.bashrc && nvcc --version 2>/dev/null || " ++
       "/usr/local/cuda-12.8/bin/nvcc --version 2>/dev/null || echo 'not " ++ "found'"),
   utils.BuildWSLCommand ctx.ubuntu_version_ "dpkg -l | grep cuda-toolkit-12",
   utils.BuildWSLCommand ctx.ubuntu_version_
     ("ls -la /usr/local/cuda-12.8/bin/nvcc 2>/dev/null || ls -la " ++
       "/usr/local/cuda/bin/nvcc 2>/dev/null || echo 'not found'"),
   utils.BuildWSLCommand ctx.ubuntu_version_
     ("source ~/.bashrc && cargo --version 2>/dev/null || ~/.cargo/bin/cargo " ++
       "--version 2>/dev/null || echo 'not found'"),
   utils.BuildWSLCommand ctx.ubuntu_version_ "ninja --version"]

/-- Between `s` and `s'` the log grew only by runs of `ExecCommandEx` on command lines of
`cmds`: no other command, no other kind of process, no file deletion. -/
def OnlyRuns (cmds : List String) (s s' : State W) : Prop :=
  ∃ events : List Event, s'.log = s.log ++ events ∧
    ∀ e ∈ events, ∃ cmd ∈ cmds, ∃ timeout : Int, e = Event.ExecCommandEx cmd timeout

/-- What the idempotence properties need of a component: where `Check` reports `Skipped`,
`Install` does exactly what `Check` does; `Install` reports `Skipped` only where `Check`
does; the `Skipped` result is the same in every state; and `Check` runs detection commands
only. -/
structure Component.SkipsWhenSatisfied (ctx : ExecutionContext) (c : Component W) : Prop where
  install_of_check : ∀ s, (c.Check s).1.status = InstallationStatus.kSkipped →
    c.Install s = c.Check s
  check_of_install : ∀ s, (c.Install s).1.status = InstallationStatus.kSkipped →
    (c.Check s).1.status = InstallationStatus.kSkipped
  skipped_unique : ∀ s s', (c.Check s).1.status = InstallationStatus.kSkipped →
    (c.Check s').1.status = InstallationStatus.kSkipped → (c.Check s).1 = (c.Check s').1
  check_onlyRuns : ∀ s, OnlyRuns (detectionCommands ctx) s (c.Check s).2

/-- The installable components whose `Check` asks the command executor.  The WSL package and
WSL2 kernel installers are not among them: their `Check` looks at files, registry keys and
services only. -/
def executorProbedComponents (sys : Sys W) (ctx : ExecutionContext) : List (Component W) :=
  [WSLFeatureManager.component sys, VirtualMachinePlatformManager.component sys,
   WSL2DefaultVersionManager.component sys, UbuntuInstaller.component sys ctx,
   CudaToolkitInstaller.component sys ctx, CargoInstaller.component sys ctx,
   NinjaInstaller.component sys ctx]

/-- The nine installable components, each with the answer of the probe its `Check` reports
on: the probe method the source calls in `Check`, run in the state `Check` is entered in. -/
def probedComponents (sys : Sys W) (ctx : ExecutionContext) :
    List (Component W × (State W → Bool)) :=
  [(WSLFeatureManager.component sys,
      fun s => (CommandExecutor.IsWindowsFeatureEnabled sys "Microsoft-Windows-Subsystem-Linux" s).1),
   (VirtualMachinePlatformManager.component sys,
      fun s => (CommandExecutor.IsWindowsFeatureEnabled sys "VirtualMachinePlatform" s).1),
   (WSLPackageInstaller.component sys ctx,
      fun s => WSLPackageInstaller.IsWSLPackageInstalled sys s.world),
   (WSL2KernelInstaller.component sys ctx,
      fun s => WSL2KernelInstaller.IsWSL2KernelInstalled sys s.world),
   (WSL2DefaultVersionManager.component sys,
      fun s => WSL2DefaultVersionManager.IsWSLPackageInstalled sys s.world &&
        (WSL2DefaultVersionManager.IsWSL2DefaultVersion sys s).1),
   (UbuntuInstaller.component sys ctx, fun s => (UbuntuInstaller.IsUbuntuInstalled sys ctx s).1),
   (CudaToolkitInstaller.component sys ctx,
      fun s => (CudaToolkitInstaller.IsCudaToolkitInstalled sys ctx s).1),
   (CargoInstaller.component sys ctx, fun s => (CargoInstaller.IsCargoInstalled sys ctx s).1),
   (NinjaInstaller.component sys ctx, fun s => (NinjaInstaller.IsNinjaInstalled sys ctx s).1)]

/-- The key types of `l` for which the installer has a component: the ones a loop over `l`
runs an operation for. -/
def EnvironmentInstaller.registered (inst : EnvironmentInstaller W)
    (l : List EnvironmentComponent) : List EnvironmentComponent :=
  l.filter (fun component_type => (inst.components_ component_type).isSome)

/-- The three phase lists in the order `InstallEnvironment` walks them. -/
def EnvironmentInstaller.installOrder : List EnvironmentComponent :=
  ComponentFactory.GetSystemComponents ++ ComponentFactory.GetWindowsFeatureComponents ++
    ComponentFactory.GetSoftwareComponents

/-- One pass of the step loop of `CudaToolkitInstaller::Install`: the exit code of the command
of the step (`cmd_exit_code`) and the state it leaves. -/
def CudaToolkitInstaller.runStep (sys : Sys W) (ctx : ExecutionContext)
    (step : String × String × Int × Bool) (s : State W) : Int × State W :=
  if step.2.2.2 then
    utils.WSLProcess.Execute sys (utils.BuildWSLCommand ctx.ubuntu_version_ step.2.1) s
  else
    let e := CommandExecutor.ExecuteWSL sys ctx step.2.1 step.2.2.1 s
    (e.1.1, e.2)

/-- The state after the steps `steps` were run one after the other from `s`. -/
def CudaToolkitInstaller.stateAfter (sys : Sys W) (ctx : ExecutionContext)
    (steps : List (String × String × Int × Bool)) (s : State W) : State W :=
  steps.foldl (fun st step => (CudaToolkitInstaller.runStep sys ctx step st).2) s

end environment

/-! ## Output decoding (`utils.cpp`)

A `std::string` of raw output is a list of bytes, a `std::wstring` a list of 16-bit code
units. -/

namespace utils

/-- The inner loop of `FindUtf8StartPosition` (over `j`), from the byte at `utf8_candidate`
on: the value of `printable_count` when the loop is left. -/
def FindUtf8StartPosition.count : List Nat → Nat → Nat
  | [], printable_count => printable_count
  | byte :: rest, printable_count =>
    if printable_count < 10 then
      if byte ≥ 32 ∧ byte ≤ 126 then FindUtf8StartPosition.count rest (printable_count + 1)
      else if byte = 0 then 0
      else if byte ≥ 0xC0 ∧ byte ≤ 0xF7 then
        FindUtf8StartPosition.count rest (printable_count + 1)
      else printable_count
    else printable_count

/-- The outer loop of `FindUtf8StartPosition` (over `i`); the list is the input from position
`i` on.  Leaving the loop at its end is the final `return len`. -/
def FindUtf8StartPosition.loop (len : Nat) : List Nat → Nat → Nat
  | [], _ => len
  | byte :: rest, i =>
    if i < len - 4 then
      if byte = 0x0D ∧ rest.get? 0 = some 0x00 ∧ rest.get? 1 = some 0x0A ∧
          rest.get? 2 = some 0x00 then
        if FindUtf8StartPosition.count (rest.drop 3) 0 ≥ 5 then i + 4
        else FindUtf8StartPosition.loop len rest (i + 1)
      else FindUtf8StartPosition.loop len rest (i + 1)
    else len

/-- The function `FindUtf8StartPosition`; `none` is `std::string::npos`. -/
def FindUtf8StartPosition (mixed_output : List Nat) : Option Nat :=
  let len := mixed_output.length
  if len < 4 then none
  else some (FindUtf8StartPosition.loop len mixed_output 0)

/-- The loop of `ConvertUtf16LeToWString` over byte pairs; `wchar_t` has 16 bits. -/
def ConvertUtf16LeToWString.loop : List Nat → List Nat
  | low_byte :: high_byte :: rest =>
    let utf16_char := ((high_byte <<< 8) ||| low_byte) % 2 ^ 16
    if utf16_char = 0 then []
    else if utf16_char ≥ 32 ∨ utf16_char = 10 ∨ utf16_char = 13 ∨ utf16_char = 9 then
      utf16_char :: ConvertUtf16LeToWString.loop rest
    else ConvertUtf16LeToWString.loop rest
  | _ => []

/-- The function `ConvertUtf16LeToWString`. -/
def ConvertUtf16LeToWString (utf16_bytes : List Nat) : List Nat :=
  if utf16_bytes.isEmpty then []
  else
    let byte_count :=
      if utf16_bytes.length % 2 ≠ 0 then utf16_bytes.length - 1 else utf16_bytes.length
    if byte_count = 0 then []
    else ConvertUtf16LeToWString.loop (utf16_bytes.take byte_count)

/-- The candidate count of the standard-output branch of `ConvertWslOutputToUtf8`, over the
first `check_bytes` bytes taken in pairs. -/
def ConvertWslOutputToUtf8.candidates : List Nat → Nat
  | low :: high :: rest =>
    (if high = 0 ∧ low ≥ 32 ∧ low ≤ 126 then 1 else 0) + ConvertWslOutputToUtf8.candidates rest
  | _ => 0

/-- The function `ConvertWslOutputToUtf8`.  `UnicodeToUtf8` wraps `WideCharToMultiByte` and is
a parameter. -/
def ConvertWslOutputToUtf8 (UnicodeToUtf8 : List Nat → List Nat) (wsl_output : List Nat)
    (is_stderr : Bool) : List Nat :=
  if wsl_output.isEmpty then []
  else if is_stderr then
    match FindUtf8StartPosition wsl_output with
    | some utf8_start => wsl_output.drop utf8_start
    | none =>
      let utf16_text := ConvertUtf16LeToWString wsl_output
      if !utf16_text.isEmpty then UnicodeToUtf8 utf16_text else wsl_output
  else
    let byte_count := wsl_output.length
    let looks_like_utf16 :=
      if byte_count ≥ 4 ∧ byte_count % 2 = 0 then
        let check_bytes := if byte_count < 20 then byte_count else 20
        decide (ConvertWslOutputToUtf8.candidates (wsl_output.take check_bytes) > 2)
      else false
    if looks_like_utf16 then
      let utf16_text := ConvertUtf16LeToWString wsl_output
      if !utf16_text.isEmpty then UnicodeToUtf8 utf16_text else wsl_output
    else wsl_output

/-- The UTF-16LE encoding of a text of ASCII characters, given by their codes: each code
followed by a zero byte.  This is the input the decoding property is about, not a function of
the program. -/
def Utf16LeOfAscii (text : List Nat) : List Nat :=
  text.flatMap (fun c => [c, 0])

end utils

/-! ## `ModelJoinCommand` (`cli/commands/model_commands.cpp`) -/

namespace commands

namespace ModelJoinCommand

/-- The characters `EscapeForShell` looks for, in the order of its `find` calls: space, tab,
newline, double quote, single quote, `&`, `|`, `;`, `<`, `>`, `(`, `)`, `$`, backtick, `*`,
`?`, `[`, `]`, and the two braces. -/
def specialCharacters : List Char :=
  [' ', '\t', '\n', Char.ofNat 34, Char.ofNat 39, '&', '|', ';', '<', '>', '(', ')', '$',
    Char.ofNat 96, '*', '?', '[', ']', Char.ofNat 123, Char.ofNat 125]

/-- The loop of `EscapeForShell` over the characters of `arg`, appending to `escaped`. -/
def EscapeForShell.loop : List Char → List Char → List Char
  | [], escaped => escaped
  | c :: rest, escaped =>
    if c = Char.ofNat 39 then EscapeForShell.loop rest (escaped ++ "'\"'\"'".toList)
    else EscapeForShell.loop rest (escaped ++ [c])

/-- The method `ModelJoinCommand::EscapeForShell`. -/
def EscapeForShell (arg : String) : String :=
  if specialCharacters.any (fun c => decide (c ∈ arg.toList)) then
    String.mk (EscapeForShell.loop arg.toList "'".toList ++ "'".toList)
  else arg

/-- The method `ModelJoinCommand::BuildJoinCommand`, for the arguments of the context. -/
def BuildJoinCommand (args : List String) : String :=
  args.foldl (fun command_stream arg => command_stream ++ " " ++ EscapeForShell arg)
    "parallax join"

end ModelJoinCommand

end commands

/-! ## Reference semantics: quoting in the POSIX shell

The program does not contain a shell; this is the reading of a command line that the
property of `EscapeForShell` refers to (Shell Command Language, section 2.2 "Quoting"),
restricted to quoting and the splitting into words at blanks. -/

namespace posix

/-- Where the reader of a command line stands: outside quotes, inside single quotes, inside
double quotes. -/
inductive Quoting
  | unquoted
  | single
  | double
  deriving DecidableEq, Repr

/-- Reading a command line into words.  `word` is the word in progress (`none` between
words), `done` the finished words.
* Outside quotes a backslash keeps the next character as it is (and a backslash-newline pair
  is removed), a single or double quote opens a quoted part, a blank ends the word.
* Inside single quotes every character up to the next single quote is kept.
* Inside double quotes a backslash keeps a following `$`, backtick, double quote or
  backslash (a backslash-newline pair is removed) and is itself kept before any other
  character; the next unescaped double quote ends the part.
The result is `none` when a quote is left open. -/
def words.read : List Char → Quoting → Option (List Char) → List String → Option (List String)
  | [], Quoting.unquoted, none, done => some done
  | [], Quoting.unquoted, some word, done => some (done ++ [String.mk word])
  | [], _, _, _ => none
  | c :: rest, Quoting.unquoted, word, done =>
    if c = '\\' then
      match rest with
      | [] => words.read [] Quoting.unquoted (some (word.getD [] ++ [c])) done
      | d :: rest2 =>
        if d = '\n' then words.read rest2 Quoting.unquoted word done
        else words.read rest2 Quoting.unquoted (some (word.getD [] ++ [d])) done
    else if c = Char.ofNat 39 then words.read rest Quoting.single (some (word.getD [])) done
    else if c = Char.ofNat 34 then words.read rest Quoting.double (some (word.getD [])) done
    else if c = ' ' ∨ c = '\t' ∨ c = '\n' then
      match word with
      | none => words.read rest Quoting.unquoted none done
      | some w => words.read rest Quoting.unquoted none (done ++ [String.mk w])
    else words.read rest Quoting.unquoted (some (word.getD [] ++ [c])) done
  | c :: rest, Quoting.single, word, done =>
    if c = Char.ofNat 39 then words.read rest Quoting.unquoted word done
    else words.read rest Quoting.single (some (word.getD [] ++ [c])) done
  | c :: rest, Quoting.double, word, done =>
    if c = Char.ofNat 34 then words.read rest Quoting.unquoted word done
    else if c = '\\' then
      match rest with
      | [] => none
      | d :: rest2 =>
        if d = '\n' then words.read rest2 Quoting.double word done
        else if d = '$' ∨ d = Char.ofNat 96 ∨ d = Char.ofNat 34 ∨ d = '\\' then
          words.read rest2 Quoting.double (some (word.getD [] ++ [d])) done
        else words.read rest2 Quoting.double (some (word.getD [] ++ [c, d])) done
    else words.read rest Quoting.double (some (word.getD [] ++ [c])) done

/-- The words of a command line. -/
def words (line : String) : Option (List String) :=
  words.read line.toList Quoting.unquoted none []

end posix

/-! # Concrete systems

A small machine on which the workflows can be evaluated. -/

namespace Demo

open environment

/-- The state of the demonstration machine. -/
structure World where
  /-- Whether the process runs elevated. -/
  admin : Bool
  /-- Whether downloads succeed. -/
  online : Bool
  /-- Whether `dism.exe` is able to enable features on this machine. -/
  dism_works : Bool
  /-- Whether a successful `msiexec` puts the WSL2 kernel where the installer looks for it. -/
  msiexec_installs : Bool
  /-- The optional Windows features that are enabled. -/
  features : List String
  /-- The files that exist. -/
  files : List String
  /-- The registry keys that exist. -/
  registry : List String
  /-- The services that are registered. -/
  services : List String
  /-- What `wsl --status` prints. -/
  wsl_status : String
  /-- What `wsl --list --quiet` prints. -/
  distros : String
  deriving DecidableEq, Repr

/-- The commands the demonstration machine understands.
* `Get-WindowsOptionalFeature` prints `Enabled` or `Disabled` for the feature it names.
* `dism.exe` enables the feature it names and exits with 1 (reboot needed) where `dism.exe`
  works, and exits with 5 otherwise.
* `Invoke-WebRequest` creates the installer file it names when the machine is online and
  exits with 1 otherwise.
* `msiexec` exits with 0, and puts the kernel in place only where `msiexec_installs`.
* `wsl --status` and `wsl --list --quiet` print the recorded texts.
* Every other command exits with 1 and prints nothing. -/
def ExecCommandEx (cmd : String) (_timeout : Int) (_elevate _skip : Bool)
    (m : Machine World) : ExecResult × Machine World :=
  if strFind cmd "Get-WindowsOptionalFeature" then
    (⟨0, if m.world.features.any (fun f => strFind cmd f) then "Enabled" else "Disabled", ""⟩, m)
  else if strFind cmd "dism.exe" then
    if m.world.dism_works then
      (⟨1, "The operation completed successfully.", ""⟩,
        { m with world := { m.world with
            features := ["Microsoft-Windows-Subsystem-Linux", "VirtualMachinePlatform"].filter
              (fun f => strFind cmd f) ++ m.world.features } })
    else (⟨5, "", "Access is denied."⟩, m)
  else if strFind cmd "Invoke-WebRequest" then
    if m.world.online then
      (⟨0, "", ""⟩,
        { m with world := { m.world with
            files := ["C:\\Temp\\wsl.x64.msi", "C:\\Temp\\wsl_update_x64.msi"].filter
              (fun f => strFind cmd f) ++ m.world.files } })
    else (⟨1, "", "The remote name could not be resolved"⟩, m)
  else if strFind cmd "msiexec" then
    if m.world.msiexec_installs then
      (⟨0, "", ""⟩,
        { m with world := { m.world with
            files := "C:\\Windows\\System32\\lxss\\tools\\kernel" :: m.world.files } })
    else (⟨0, "", ""⟩, m)
  else if strFind cmd "wsl --status" then (⟨0, m.world.wsl_status, ""⟩, m)
  else if strFind cmd "wsl --list --quiet" then (⟨0, m.world.distros, ""⟩, m)
  else (⟨1, "", ""⟩, m)

/-- The primitives of the demonstration machine.  Text is already UTF-8; processes started by
`ExecCommandEx2` cannot be created; `WSLProcess` commands fail. -/
def sys : Sys World where
  IsAdmin := fun w => w.admin
  ExecCommandEx := ExecCommandEx
  ConvertPowerShellOutputToUtf8 := fun t => t
  ConvertWslOutputToUtf8 := fun t _ => t
  GetFileAttributesA := fun path w => decide (path ∈ w.files)
  DeleteFileA := fun path w => { w with files := w.files.filter (fun f => f != path) }
  RegOpenKeyExA := fun key w => decide (key ∈ w.registry)
  RegQueryValueExA := fun _ _ _ => false
  OpenSCManager := fun _ => true
  OpenService := fun name w => decide (name ∈ w.services)
  QueryServiceRunning := fun name w => decide (name ∈ w.services)
  Sleep := fun _ m => m
  GetConfigValue := fun _ => "https://example.invalid/package.msi"
  KEY_WSL_INSTALLER_URL := "wsl_installer_url"
  KEY_WSL_KERNEL_URL := "wsl_kernel_url"
  StartProcess := fun _ m => (StartResult.create_failed 2, m)
  WaitForSingleObject := fun m => (WaitResult.WAIT_OBJECT_0, m)
  GetTickCount := fun _ => 0
  TerminateProcess := fun m => m
  JoinReaders := fun m => (("", ""), m)
  GetExitCodeProcess := fun _ => 0
  WSLProcessExecute := fun _ m => (1, m)

/-- The context of the demonstration machine. -/
def ctx : ExecutionContext := ⟨"C:\\Temp\\", "Ubuntu-24.04", ""⟩

/-- A checker that always reports its dependency as satisfied. -/
def passing (type : EnvironmentComponent) : ExternalChecker World :=
  ⟨fun s => (CreateSkippedResult type "ok", s), type⟩

/-- A checker that always reports its dependency as missing. -/
def failing (type : EnvironmentComponent) (message : String) (error_code : Int) :
    ExternalChecker World :=
  ⟨fun s => (CreateFailureResult type message error_code, s), type⟩

/-- External components that are all satisfied. -/
def ext : External World where
  OSVersionChecker := passing EnvironmentComponent.kOSVersion
  NvidiaGPUChecker := passing EnvironmentComponent.kNvidiaGPU
  NvidiaDriverChecker := passing EnvironmentComponent.kNvidiaDriver
  BIOSVirtualizationChecker := passing EnvironmentComponent.kBIOSVirtualization
  PipUpgradeManager := (passing EnvironmentComponent.kPipUpgrade).component
  ParallaxProjectInstaller := (passing EnvironmentComponent.kParallaxProject).component

/-- External components of a machine without an NVIDIA GPU. -/
def extNoGPU : External World :=
  { ext with
    NvidiaGPUChecker := failing EnvironmentComponent.kNvidiaGPU "No NVIDIA GPU detected" 5 }

/-- A fresh machine: offline, nothing enabled or installed. -/
def freshWorld : World :=
  { admin := true, online := false, dism_works := true, msiexec_installs := true,
    features := [], files := [], registry := [], services := [], wsl_status := "",
    distros := "" }

/-- An elevated process on a fresh machine, stop flag clear, empty log. -/
def fresh : State World := ⟨⟨freshWorld, false⟩, []⟩

/-- A process without administrator privileges on a fresh machine. -/
def freshNoAdmin : State World := ⟨⟨{ freshWorld with admin := false }, false⟩, []⟩

/-- An elevated process on a fresh machine with the stop flag set. -/
def freshStopped : State World := ⟨⟨freshWorld, true⟩, []⟩

/-- A machine on which everything but the WSL feature is in place: Virtual Machine Platform
enabled, WSL package and kernel installed, WSL2 the default version, the distribution
registered. -/
def preparedWorld : World :=
  { admin := true, online := true, dism_works := true, msiexec_installs := true,
    features := ["VirtualMachinePlatform"],
    files := ["C:\\Windows\\System32\\wsl.exe", "C:\\Windows\\System32\\lxss\\tools\\kernel"],
    registry := ["SOFTWARE\\Microsoft\\Windows\\CurrentVersion\\Lxss"],
    services := ["wslservice"], wsl_status := "Default Version: 2",
    distros := "Ubuntu-24.04\n" }

/-- An elevated process on the prepared machine. -/
def prepared : State World := ⟨⟨preparedWorld, false⟩, []⟩

/-- The prepared machine with the WSL feature enabled as well. -/
def ready : State World :=
  ⟨⟨{ preparedWorld with
      features := ["Microsoft-Windows-Subsystem-Linux", "VirtualMachinePlatform"] }, false⟩, []⟩

/-- The prepared machine without a WSL2 kernel, on which `msiexec` reports success without
putting a kernel where the installer looks for it. -/
def kernelMissing : State World :=
  ⟨⟨{ preparedWorld with
      msiexec_installs := false, files := ["C:\\Windows\\System32\\wsl.exe"] }, false⟩, []⟩

/-- The fresh machine with the stop flag clear, on which `dism.exe` is denied. -/
def lockedDown : State World := ⟨⟨{ freshWorld with dism_works := false }, false⟩, []⟩

/-- The prepared machine without the `wslservice` service: `wsl.exe` and the `Lxss` registry
key are there. -/
def noService : State World := ⟨⟨{ preparedWorld with services := [] }, false⟩, []⟩

/-- The ready machine with the stop flag set. -/
def readyStopped : State World := { ready with stop_requested_ := true }

/-- A progress callback through which the user asks to stop when the progress step `at_step`
is announced. -/
def stopAt (at_step : String) : ProgressCallback World :=
  some (fun step _ _ m => if step = at_step then { m with stop_requested_ := true } else m)

/-- A machine like `sys` whose distribution has the toolchain: every command run through
`bash` inside WSL exits with 0 and prints a CUDA 12.8 version line. -/
def toolchainSys : Sys World :=
  { sys with
    ExecCommandEx := fun cmd timeout elevate skip m =>
      if strFind cmd " bash -c " then (⟨0, "Cuda compilation tools, release 12.8", ""⟩, m)
      else ExecCommandEx cmd timeout elevate skip m }

/-- The fresh, offline machine on which an installer file of an earlier attempt is left in
the temporary directory. -/
def staleDownload : State World :=
  ⟨⟨{ freshWorld with files := ["C:\\Temp\\wsl.x64.msi"] }, false⟩, []⟩

/-- A machine like `sys` inside whose distribution `rustup` installs cargo while the shell
start-up files cannot be written: the download and the installer exit with 0, appending to
`~/.bashrc` or to `/etc/profile` exits with 1, and `cargo --version` prints a version once
the installer has run (recorded as the file `~/.cargo/bin/cargo`). -/
def readOnlyProfileSys : Sys World :=
  { sys with
    ExecCommandEx := fun cmd timeout elevate skip m =>
      if strFind cmd "cargo --version" then
        if "~/.cargo/bin/cargo" ∈ m.world.files then (⟨0, "cargo 1.80.0", ""⟩, m)
        else (⟨0, "not found", ""⟩, m)
      else if strFind cmd "curl " then (⟨0, "", ""⟩, m)
      else if strFind cmd "sh /tmp/rustup.sh" then
        (⟨0, "", ""⟩,
          { m with world := { m.world with files := "~/.cargo/bin/cargo" :: m.world.files } })
      else if strFind cmd "echo 'export PATH=$HOME/.cargo/bin" then
        (⟨1, "", "Read-only file system"⟩, m)
      else ExecCommandEx cmd timeout elevate skip m }

/-- The prepared machine without a registered distribution. -/
def noDistro : State World := ⟨⟨{ preparedWorld with distros := "" }, false⟩, []⟩

/-- A machine like `sys` on which a process started by `ExecCommandEx2` is created and has
exited with code 0 by the first wait, without changing the machine. -/
def quickExitSys : Sys World :=
  { sys with StartProcess := fun _ m => (StartResult.created, m) }

/-- The bytes of a raw output text, one character per byte. -/
def bytes (output : String) : List Nat := output.toList.map Char.toNat

/-- The raw output text of a list of bytes, one character per byte. -/
def text (output : List Nat) : String := String.mk (output.map Char.ofNat)

/-- A machine like `sys` whose WSL output is decoded by `utils.ConvertWslOutputToUtf8` (code
units become single bytes) and on which every command run through `bash` inside WSL exits
with 1 and prints "bad" on standard error in UTF-16LE. -/
def utf16StderrSys : Sys World :=
  { sys with
    ConvertWslOutputToUtf8 := fun wsl_output is_stderr =>
      text (utils.ConvertWslOutputToUtf8 (fun wstr => wstr) (bytes wsl_output) is_stderr)
    ExecCommandEx := fun cmd timeout elevate skip m =>
      if strFind cmd " bash -c " then (⟨1, "", "b\x00a\x00d\x00"⟩, m)
      else ExecCommandEx cmd timeout elevate skip m }

/-- A machine like `sys` on which another process holds the files of the temporary directory
open: `DeleteFileA` fails with a sharing violation and leaves the file where it is. -/
def heldOpenSys : Sys World :=
  { sys with DeleteFileA := fun _ w => w }

/-- A result callback that writes down the message of every result it is handed, as an entry
of the file list of the machine. -/
def recordResult : ComponentResult → Machine World → Machine World :=
  fun result m =>
    { m with world := { m.world with files := m.world.files ++ ["callback: " ++ result.message] } }

end Demo

/-! # Properties -/

namespace environment

variable {W : Type}

namespace EnvironmentInstaller

theorem CheckEnvironment.walk_cons_none (inst : EnvironmentInstaller W)
    (progress_callback_ : ProgressCallback W) (component_callback : ComponentCheckCallback W)
    (t : EnvironmentComponent) (rest : List EnvironmentComponent) (a : Run W)
    (hc : inst.components_ t = none) :
    CheckEnvironment.walk inst progress_callback_ component_callback (t :: rest) a
      = CheckEnvironment.walk inst progress_callback_ component_callback rest a := by
  simp [CheckEnvironment.walk, hc]

theorem CheckEnvironment.walk_cons_some (inst : EnvironmentInstaller W)
    (progress_callback_ : ProgressCallback W) (component_callback : ComponentCheckCallback W)
    (t : EnvironmentComponent) (rest : List EnvironmentComponent) (a : Run W)
    (component : Component W) (hc : inst.components_ t = some component) :
    CheckEnvironment.walk inst progress_callback_ component_callback (t :: rest) a
      = if (ExecuteComponentOperation progress_callback_ component false component_callback
            a.state).result.status = InstallationStatus.kFailed ∧ IsCritical t then
          Flow.ret
            { a.push t false component_callback (ExecuteComponentOperation progress_callback_
                component false component_callback a.state) with
              result :=
                { (a.push t false component_callback (ExecuteComponentOperation
                    progress_callback_ component false component_callback a.state)).result with
                  overall_message := "Critical component failure: " ++
                    (ExecuteComponentOperation progress_callback_ component false
                      component_callback a.state).result.message } }
        else
          CheckEnvironment.walk inst progress_callback_ component_callback rest
            (a.push t false component_callback (ExecuteComponentOperation progress_callback_
              component false component_callback a.state)) := by
  unfold IsCritical
  by_cases hs : (ExecuteComponentOperation progress_callback_ component false
      component_callback a.state).result.status = InstallationStatus.kFailed
  · by_cases hcrit : t = EnvironmentComponent.kOSVersion ∨
        t = EnvironmentComponent.kNvidiaGPU ∨ t = EnvironmentComponent.kNvidiaDriver
    · simp only [CheckEnvironment.walk, hc, hs, hcrit, if_true, and_self]
    · simp only [CheckEnvironment.walk, hc, hs, hcrit, if_true, if_false, and_false]
  · simp only [CheckEnvironment.walk, hc, hs, if_false, false_and]

/-- What the check loop does to a run.  Left by its end: it ran checks of components of the
list, none a failed critical one.  Left by `return`: the last check is a failed critical one,
the checks before it belong to components earlier in the list, and the overall message is
set. -/
theorem CheckEnvironment.walk_spec (inst : EnvironmentInstaller W)
    (progress_callback_ : ProgressCallback W) (component_callback : ComponentCheckCallback W) :
    ∀ (l : List EnvironmentComponent) (a : Run W),
      (∀ r, CheckEnvironment.walk inst progress_callback_ component_callback l a = Flow.next r →
        ∃ new, r.ops = a.ops ++ new ∧
          r.result.component_results = a.result.component_results ++ new.map (·.result) ∧
          r.result.reboot_required = a.result.reboot_required ∧
          r.result.overall_message = a.result.overall_message ∧
          ∀ o ∈ new, o.component_type ∈ l ∧ o.perform_installation = false ∧
            ¬ (IsCritical o.component_type ∧ o.result.status = InstallationStatus.kFailed)) ∧
      (∀ r, CheckEnvironment.walk inst progress_callback_ component_callback l a = Flow.ret r →
        ∃ pre o l1 l2, r.ops = a.ops ++ pre ++ [o] ∧
          r.result.component_results =
            a.result.component_results ++ pre.map (·.result) ++ [o.result] ∧
          r.result.reboot_required = a.result.reboot_required ∧
          l = l1 ++ o.component_type :: l2 ∧
          (∀ p ∈ pre, p.component_type ∈ l1 ∧ p.perform_installation = false ∧
            ¬ (IsCritical p.component_type ∧ p.result.status = InstallationStatus.kFailed)) ∧
          o.perform_installation = false ∧
          IsCritical o.component_type ∧ o.result.status = InstallationStatus.kFailed ∧
          r.state = o.returned_at ∧
          r.result.overall_message = "Critical component failure: " ++ o.result.message) := by
  intro l
  induction l with
  | nil =>
    intro a
    refine ⟨?_, ?_⟩
    · intro r h
      simp only [CheckEnvironment.walk, Flow.next.injEq] at h
      subst h
      exact ⟨[], by simp⟩
    · intro r h
      simp [CheckEnvironment.walk] at h
  | cons t rest ih =>
    intro a
    cases hc : inst.components_ t with
    | none =>
      rw [CheckEnvironment.walk_cons_none _ _ _ _ _ _ hc]
      obtain ⟨ih1, ih2⟩ := ih a
      refine ⟨?_, ?_⟩
      · intro r h
        obtain ⟨new, h1, h2, h3, h4, h5⟩ := ih1 r h
        exact ⟨new, h1, h2, h3, h4, fun o ho => ⟨List.mem_cons_of_mem _ (h5 o ho).1, (h5 o ho).2⟩⟩
      · intro r h
        obtain ⟨pre, o, l1, l2, h1, h2, h3, h4, h5, h6⟩ := ih2 r h
        refine ⟨pre, o, t :: l1, l2, h1, h2, h3, by simp [h4], ?_, h6⟩
        intro p hp
        exact ⟨List.mem_cons_of_mem _ (h5 p hp).1, (h5 p hp).2⟩
    | some component =>
      rw [CheckEnvironment.walk_cons_some _ _ _ _ _ _ _ hc]
      generalize ExecuteComponentOperation progress_callback_ component false component_callback
        a.state = x
      obtain ⟨ih1, ih2⟩ := ih (a.push t false component_callback x)
      by_cases hf : x.result.status = InstallationStatus.kFailed ∧ IsCritical t
      · rw [if_pos hf]
        refine ⟨fun r h => by simp at h, ?_⟩
        intro r h
        simp only [Flow.ret.injEq] at h
        subst h
        exact ⟨[], x.record t false, [], rest, by simp [Run.push], by simp [Run.push, OpRun.record],
          by simp [Run.push], by simp [OpRun.record], by simp, rfl, hf.2, hf.1, rfl, rfl⟩
      · rw [if_neg hf]
        have hx : (x.record t false).component_type = t ∧
            (x.record t false).perform_installation = false ∧
            ¬ (IsCritical (x.record t false).component_type ∧
              (x.record t false).result.status = InstallationStatus.kFailed) :=
          ⟨rfl, rfl, fun h => hf ⟨h.2, h.1⟩⟩
        refine ⟨?_, ?_⟩
        · intro r h
          obtain ⟨new, h1, h2, h3, h4, h5⟩ := ih1 r h
          refine ⟨x.record t false :: new, ?_, ?_, h3, h4, ?_⟩
          · simpa [Run.push] using h1
          · simpa [Run.push, OpRun.record] using h2
          · intro o ho
            rcases List.mem_cons.1 ho with ho | ho
            · subst ho
              exact ⟨by simp [hx.1], hx.2⟩
            · exact ⟨List.mem_cons_of_mem _ (h5 o ho).1, (h5 o ho).2⟩
        · intro r h
          obtain ⟨pre, o, l1, l2, h1, h2, h3, h4, h5, h6⟩ := ih2 r h
          refine ⟨x.record t false :: pre, o, t :: l1, l2, ?_, ?_, h3, by simp [h4], ?_, h6⟩
          · simpa [Run.push] using h1
          · simpa [Run.push, OpRun.record] using h2
          · intro p hp
            rcases List.mem_cons.1 hp with hp | hp
            · subst hp
              exact ⟨by simp [hx.1], hx.2⟩
            · exact ⟨List.mem_cons_of_mem _ (h5 p hp).1, (h5 p hp).2⟩

theorem InstallEnvironment.phase_cons_none (inst : EnvironmentInstaller W)
    (progress_callback : ProgressCallback W) (perform_installation : Bool) (heading : String)
    (t : EnvironmentComponent) (rest : List EnvironmentComponent) (a : Run W)
    (hc : inst.components_ t = none) :
    InstallEnvironment.phase inst progress_callback perform_installation heading (t :: rest) a
      = InstallEnvironment.phase inst progress_callback perform_installation heading rest a := by
  simp [InstallEnvironment.phase, hc]

theorem InstallEnvironment.phase_cons_some (inst : EnvironmentInstaller W)
    (progress_callback : ProgressCallback W) (perform_installation : Bool) (heading : String)
    (t : EnvironmentComponent) (rest : List EnvironmentComponent) (a : Run W)
    (component : Component W) (hc : inst.components_ t = some component) :
    InstallEnvironment.phase inst progress_callback perform_installation heading (t :: rest) a
      = if (ExecuteComponentOperation progress_callback component perform_installation none
            a.state).result.status = InstallationStatus.kFailed then
          Flow.ret
            { a.push t perform_installation none (ExecuteComponentOperation progress_callback
                component perform_installation none a.state) with
              result :=
                { (a.push t perform_installation none (ExecuteComponentOperation
                    progress_callback component perform_installation none a.state)).result with
                  overall_message := heading ++
                    (ExecuteComponentOperation progress_callback component perform_installation
                      none a.state).result.message } }
        else if (ExecuteComponentOperation progress_callback component perform_installation none
            a.state).state.IsStopRequested = true then
          Flow.ret
            { a.push t perform_installation none (ExecuteComponentOperation progress_callback
                component perform_installation none a.state) with
              result :=
                { (a.push t perform_installation none (ExecuteComponentOperation
                    progress_callback component perform_installation none a.state)).result with
                  overall_message := "Installation interrupted by stop request" } }
        else
          InstallEnvironment.phase inst progress_callback perform_installation heading rest
            (a.push t perform_installation none (ExecuteComponentOperation progress_callback
              component perform_installation none a.state)) := by
  simp only [InstallEnvironment.phase, hc, Run.push]

/-- What a phase loop of `InstallEnvironment` does to a run.  Left by its end: it ran
operations of components of the list, none failed and the stop flag was clear after each.
Left by `return`: the last operation failed, or did not fail and left the stop flag set; the
operations before it did neither. -/
theorem InstallEnvironment.phase_spec (inst : EnvironmentInstaller W)
    (progress_callback : ProgressCallback W) (perform_installation : Bool) (heading : String) :
    ∀ (l : List EnvironmentComponent) (a : Run W),
      (∀ r, InstallEnvironment.phase inst progress_callback perform_installation heading l a
          = Flow.next r →
        ∃ new, r.ops = a.ops ++ new ∧
          r.result.component_results = a.result.component_results ++ new.map (·.result) ∧
          r.result.reboot_required = a.result.reboot_required ∧
          r.result.overall_message = a.result.overall_message ∧
          ∀ o ∈ new, o.component_type ∈ l ∧ o.perform_installation = perform_installation ∧
            o.result.status ≠ InstallationStatus.kFailed ∧
            o.returned_at.IsStopRequested = false) ∧
      (∀ r, InstallEnvironment.phase inst progress_callback perform_installation heading l a
          = Flow.ret r →
        ∃ pre o l1 l2, r.ops = a.ops ++ pre ++ [o] ∧
          r.result.component_results =
            a.result.component_results ++ pre.map (·.result) ++ [o.result] ∧
          r.result.reboot_required = a.result.reboot_required ∧
          l = l1 ++ o.component_type :: l2 ∧
          (∀ p ∈ pre, p.component_type ∈ l1 ∧ p.perform_installation = perform_installation ∧
            p.result.status ≠ InstallationStatus.kFailed ∧
            p.returned_at.IsStopRequested = false) ∧
          o.perform_installation = perform_installation ∧
          r.state = o.returned_at ∧
          ((o.result.status = InstallationStatus.kFailed ∧
              r.result.overall_message = heading ++ o.result.message) ∨
            (o.result.status ≠ InstallationStatus.kFailed ∧
              o.returned_at.IsStopRequested = true ∧
              r.result.overall_message = "Installation interrupted by stop request"))) := by
  intro l
  induction l with
  | nil =>
    intro a
    refine ⟨?_, ?_⟩
    · intro r h
      simp only [InstallEnvironment.phase, Flow.next.injEq] at h
      subst h
      exact ⟨[], by simp⟩
    · intro r h
      simp [InstallEnvironment.phase] at h
  | cons t rest ih =>
    intro a
    cases hc : inst.components_ t with
    | none =>
      rw [InstallEnvironment.phase_cons_none _ _ _ _ _ _ _ hc]
      obtain ⟨ih1, ih2⟩ := ih a
      refine ⟨?_, ?_⟩
      · intro r h
        obtain ⟨new, h1, h2, h3, h4, h5⟩ := ih1 r h
        exact ⟨new, h1, h2, h3, h4, fun o ho => ⟨List.mem_cons_of_mem _ (h5 o ho).1, (h5 o ho).2⟩⟩
      · intro r h
        obtain ⟨pre, o, l1, l2, h1, h2, h3, h4, h5, h6⟩ := ih2 r h
        refine ⟨pre, o, t :: l1, l2, h1, h2, h3, by simp [h4], ?_, h6⟩
        intro p hp
        exact ⟨List.mem_cons_of_mem _ (h5 p hp).1, (h5 p hp).2⟩
    | some component =>
      rw [InstallEnvironment.phase_cons_some _ _ _ _ _ _ _ _ hc]
      generalize ExecuteComponentOperation progress_callback component perform_installation none
        a.state = x
      obtain ⟨ih1, ih2⟩ := ih (a.push t perform_installation none x)
      by_cases hf : x.result.status = InstallationStatus.kFailed
      · rw [if_pos hf]
        refine ⟨fun r h => by simp at h, ?_⟩
        intro r h
        simp only [Flow.ret.injEq] at h
        subst h
        exact ⟨[], x.record t perform_installation, [], rest, by simp [Run.push],
          by simp [Run.push, OpRun.record], by simp [Run.push], by simp [OpRun.record], by simp,
          rfl, rfl, Or.inl ⟨hf, rfl⟩⟩
      · rw [if_neg hf]
        by_cases hs : x.state.IsStopRequested = true
        · rw [if_pos hs]
          refine ⟨fun r h => by simp at h, ?_⟩
          intro r h
          simp only [Flow.ret.injEq] at h
          subst h
          exact ⟨[], x.record t perform_installation, [], rest, by simp [Run.push],
            by simp [Run.push, OpRun.record], by simp [Run.push], by simp [OpRun.record], by simp,
            rfl, rfl, Or.inr ⟨hf, hs, rfl⟩⟩
        · rw [if_neg hs]
          have hx : (x.record t perform_installation).component_type = t ∧
              (x.record t perform_installation).perform_installation = perform_installation ∧
              (x.record t perform_installation).result.status ≠ InstallationStatus.kFailed ∧
              (x.record t perform_installation).returned_at.IsStopRequested = false :=
            ⟨rfl, rfl, hf, by simpa [OpRun.record] using hs⟩
          refine ⟨?_, ?_⟩
          · intro r h
            obtain ⟨new, h1, h2, h3, h4, h5⟩ := ih1 r h
            refine ⟨x.record t perform_installation :: new, ?_, ?_, h3, h4, ?_⟩
            · simpa [Run.push] using h1
            · simpa [Run.push, OpRun.record] using h2
            · intro o ho
              rcases List.mem_cons.1 ho with ho | ho
              · subst ho
                exact ⟨by simp [hx.1], hx.2⟩
              · exact ⟨List.mem_cons_of_mem _ (h5 o ho).1, (h5 o ho).2⟩
          · intro r h
            obtain ⟨pre, o, l1, l2, h1, h2, h3, h4, h5, h6⟩ := ih2 r h
            refine ⟨x.record t perform_installation :: pre, o, t :: l1, l2, ?_, ?_, h3,
              by simp [h4], ?_, h6⟩
            · simpa [Run.push] using h1
            · simpa [Run.push, OpRun.record] using h2
            · intro p hp
              rcases List.mem_cons.1 hp with hp | hp
              · subst hp
                exact ⟨by simp [hx.1], hx.2⟩
              · exact ⟨List.mem_cons_of_mem _ (h5 p hp).1, (h5 p hp).2⟩

theorem ComponentFactory.GetAllComponents_nodup : ComponentFactory.GetAllComponents.Nodup := by
  decide

theorem List.indexOf_le_of_mem_left {α : Type} [DecidableEq α] {l l1 l2 : List α} {x y : α}
    (hn : l.Nodup) (h : l = l1 ++ x :: l2) (hy : y ∈ l1) : l.indexOf y ≤ l.indexOf x := by
  subst h
  have hx : x ∉ l1 := by
    intro hx
    have := (List.nodup_append.1 hn).2.2
    exact this hx (List.mem_cons_self _ _)
  rw [List.indexOf_append_of_mem hy, List.indexOf_append_of_not_mem hx, List.indexOf_cons_self]
  exact le_of_lt (by simpa using List.indexOf_lt_length.2 hy)

/-- C1: in every run of `CheckEnvironment`, if the `Check` of the OS Version, NVIDIA GPU or
NVIDIA Driver component returns status `Failed`, the walk stops at that component: the
operation is the last one run, its result is the last element of the returned sequence (which
holds exactly the results of the operations run, all of them checks), no component later in
`GetAllComponents()` order is checked, and the overall message is
"Critical component failure: " followed by the result message.  (Without administrator
privileges no component is checked at all, so the premise cannot hold.) -/
theorem CheckEnvironment_critical_failure_stops (inst : EnvironmentInstaller W)
    (progress_callback_ : ProgressCallback W) (component_callback : ComponentCheckCallback W)
    (s : State W) (op : OpRecord W)
    (hop : op ∈ (CheckEnvironment inst progress_callback_ component_callback s).ops)
    (hcrit : op.component_type = EnvironmentComponent.kOSVersion ∨
      op.component_type = EnvironmentComponent.kNvidiaGPU ∨
      op.component_type = EnvironmentComponent.kNvidiaDriver)
    (hfail : op.result.status = InstallationStatus.kFailed) :
    (CheckEnvironment inst progress_callback_ component_callback s).ops.getLast? = some op ∧
    (CheckEnvironment inst progress_callback_ component_callback s).result.component_results.getLast?
      = some op.result ∧
    (CheckEnvironment inst progress_callback_ component_callback s).result.component_results
      = (CheckEnvironment inst progress_callback_ component_callback s).ops.map (·.result) ∧
    (∀ op' ∈ (CheckEnvironment inst progress_callback_ component_callback s).ops,
      op'.perform_installation = false ∧
      ComponentFactory.GetAllComponents.indexOf op'.component_type
        ≤ ComponentFactory.GetAllComponents.indexOf op.component_type) ∧
    (CheckEnvironment inst progress_callback_ component_callback s).result.overall_message
      = "Critical component failure: " ++ op.result.message := by
  unfold CheckEnvironment at hop ⊢
  by_cases hadmin : inst.CheckAdminPrivileges
      (ReportProgress progress_callback_ "check_environment" "Starting environment check..." 0 s)
      = true
  · simp only [hadmin, Bool.not_true, Bool.false_eq_true, if_false] at hop ⊢
    obtain ⟨hnext, hret⟩ := CheckEnvironment.walk_spec inst progress_callback_ component_callback
      ComponentFactory.GetAllComponents
      ⟨⟨[], false, ""⟩,
        ReportProgress progress_callback_ "check_environment" "Starting environment check..." 0 s,
        [], []⟩
    cases hw : CheckEnvironment.walk inst progress_callback_ component_callback
        ComponentFactory.GetAllComponents
        ⟨⟨[], false, ""⟩,
          ReportProgress progress_callback_ "check_environment" "Starting environment check..." 0 s,
          [], []⟩ with
    | next r =>
      rw [hw] at hop
      obtain ⟨new, h1, -, -, -, h5⟩ := hnext r hw
      simp only [List.nil_append] at h1
      simp only [h1] at hop
      exact absurd ⟨hcrit, hfail⟩ (h5 op hop).2.2
    | ret r =>
      rw [hw] at hop
      simp only at hop ⊢
      obtain ⟨pre, o, l1, l2, h1, h2, -, h4, h5, h6, -, -, -, h10⟩ := hret r hw
      simp only [List.nil_append] at h1 h2
      have hoo : op = o := by
        rw [h1] at hop
        rcases List.mem_append.1 hop with hp | hp
        · exact absurd ⟨hcrit, hfail⟩ (h5 op hp).2.2
        · simpa using hp
      subst hoo
      refine ⟨by rw [h1, List.getLast?_concat], by rw [h2, List.getLast?_concat],
        by rw [h1, h2]; simp, ?_, h10⟩
      intro op' hop'
      rw [h1] at hop'
      rcases List.mem_append.1 hop' with hp | hp
      · exact ⟨(h5 op' hp).2.1,
          List.indexOf_le_of_mem_left ComponentFactory.GetAllComponents_nodup h4 (h5 op' hp).1⟩
      · have : op' = op := by simpa using hp
        subst this
        exact ⟨h6, le_refl _⟩
  · simp only [Bool.not_eq_true] at hadmin
    simp [hadmin] at hop

/-- Witness for C1: on the demonstration machine without an NVIDIA GPU the GPU check is a
failed critical operation of the run, and the run ends with it. -/
theorem CheckEnvironment_critical_failure_stops_witness :
    (⟨EnvironmentComponent.kNvidiaGPU, false, Demo.fresh,
        CreateFailureResult EnvironmentComponent.kNvidiaGPU "No NVIDIA GPU detected" 5,
        Demo.fresh⟩ : OpRecord Demo.World)
      ∈ (CheckEnvironment (new Demo.sys Demo.ctx Demo.extNoGPU) none none Demo.fresh).ops ∧
    (CheckEnvironment (new Demo.sys Demo.ctx Demo.extNoGPU) none none
        Demo.fresh).result.component_results.getLast?
      = some (CreateFailureResult EnvironmentComponent.kNvidiaGPU "No NVIDIA GPU detected" 5) ∧
    (CheckEnvironment (new Demo.sys Demo.ctx Demo.extNoGPU) none none
        Demo.fresh).result.overall_message
      = "Critical component failure: " ++ "No NVIDIA GPU detected" :=
  have hop : (⟨EnvironmentComponent.kNvidiaGPU, false, Demo.fresh,
        CreateFailureResult EnvironmentComponent.kNvidiaGPU "No NVIDIA GPU detected" 5,
        Demo.fresh⟩ : OpRecord Demo.World)
      ∈ (CheckEnvironment (new Demo.sys Demo.ctx Demo.extNoGPU) none none Demo.fresh).ops :=
    List.mem_cons_of_mem _ (List.mem_cons_self _ _)
  have h := CheckEnvironment_critical_failure_stops (new Demo.sys Demo.ctx Demo.extNoGPU) none
    none Demo.fresh _ hop (Or.inr (Or.inl rfl)) rfl
  ⟨hop, h.2.1, h.2.2.2.2⟩

theorem ReportProgress_log (progress_callback_ : ProgressCallback W) (step message : String)
    (progress_percent : Int) (s : State W) :
    (ReportProgress progress_callback_ step message progress_percent s).log = s.log := by
  cases progress_callback_ <;> rfl

/-- C5: if `IsAdmin()` answers false when the workflow asks, `CheckEnvironment` and
`InstallEnvironment` each return a report with exactly one component result (status `Failed`,
message "Administrator privileges required", error code 1), overall message
"Administrator privileges required" and `reboot_required = false`; no component operation is
run and nothing is added to the log of external commands. -/
theorem no_admin_single_failure (inst : EnvironmentInstaller W)
    (progress_callback_ progress_callback : ProgressCallback W)
    (component_callback : ComponentCheckCallback W) (s : State W)
    (hcheck : inst.sys.IsAdmin (ReportProgress progress_callback_ "check_environment"
      "Starting environment check..." 0 s).world = false)
    (hinstall : inst.sys.IsAdmin (ReportProgress progress_callback "install_start"
      "Starting environment installation..." 0 s.ResetStop).world = false) :
    ((CheckEnvironment inst progress_callback_ component_callback s).result
        = ⟨[⟨EnvironmentComponent.kOSVersion, InstallationStatus.kFailed,
              "Administrator privileges required", 1⟩],
            false, "Administrator privileges required"⟩ ∧
      (CheckEnvironment inst progress_callback_ component_callback s).ops = [] ∧
      (CheckEnvironment inst progress_callback_ component_callback s).state.log = s.log) ∧
    ((InstallEnvironment inst progress_callback s).result
        = ⟨[⟨EnvironmentComponent.kOSVersion, InstallationStatus.kFailed,
              "Administrator privileges required", 1⟩],
            false, "Administrator privileges required"⟩ ∧
      (InstallEnvironment inst progress_callback s).ops = [] ∧
      (InstallEnvironment inst progress_callback s).state.log = s.log) := by
  refine ⟨?_, ?_⟩
  · unfold CheckEnvironment
    simp only [CheckAdminPrivileges, hcheck, Bool.not_false, if_true, true_and]
    cases component_callback with
    | none => exact ReportProgress_log _ _ _ _ _
    | some f => exact ReportProgress_log _ _ _ _ _
  · unfold InstallEnvironment
    simp only [CheckAdminPrivileges, hinstall, Bool.not_false, if_true, true_and]
    exact ReportProgress_log _ _ _ _ _

/-- Witness for C5: a process without administrator privileges on the demonstration machine. -/
theorem no_admin_single_failure_witness :
    Demo.sys.IsAdmin Demo.freshNoAdmin.world = false ∧
    (CheckEnvironment (new Demo.sys Demo.ctx Demo.ext) none none Demo.freshNoAdmin).result
      = ⟨[⟨EnvironmentComponent.kOSVersion, InstallationStatus.kFailed,
            "Administrator privileges required", 1⟩],
          false, "Administrator privileges required"⟩ ∧
    (InstallEnvironment (new Demo.sys Demo.ctx Demo.ext) none Demo.freshNoAdmin).ops = [] :=
  ⟨rfl,
    (no_admin_single_failure (new Demo.sys Demo.ctx Demo.ext) none none none Demo.freshNoAdmin
      rfl rfl).1.1,
    (no_admin_single_failure (new Demo.sys Demo.ctx Demo.ext) none none none Demo.freshNoAdmin
      rfl rfl).2.2.1⟩

theorem ProcessRebootRequirements.scan_flag :
    ∀ (l : List ComponentResult) (acc : Bool × List String),
      (ProcessRebootRequirements.scan l acc).1 = (acc.1 || l.any CheckIfRebootRequired) := by
  intro l
  induction l with
  | nil => intro acc; simp [ProcessRebootRequirements.scan]
  | cons r rest ih =>
    intro acc
    obtain ⟨b, rs⟩ := acc
    by_cases h : CheckIfRebootRequired r = true
    · simp [ProcessRebootRequirements.scan, h, ih]
    · simp only [Bool.not_eq_true] at h
      simp [ProcessRebootRequirements.scan, h, ih]

theorem ProcessRebootRequirements_reboot_required (result : EnvironmentResult) :
    (ProcessRebootRequirements result).reboot_required
      = (result.reboot_required || result.component_results.any CheckIfRebootRequired) := by
  unfold ProcessRebootRequirements
  simp only [ProcessRebootRequirements.scan_flag]
  split
  · rename_i h
    simpa using h
  · rfl

theorem ProcessRebootRequirements_component_results (result : EnvironmentResult) :
    (ProcessRebootRequirements result).component_results = result.component_results := by
  unfold ProcessRebootRequirements
  by_cases h : (ProcessRebootRequirements.scan result.component_results
      (result.reboot_required, [])).1 = true
  · simp only [h, if_true]
  · simp [h]

/-- The shape of a run of `InstallEnvironment` that passed the privilege gate.  Its operations
are checks of system components, then installs of Windows-feature components, then installs of
software components; the results are exactly theirs; every operation but the last lets the
loops go on; the reboot flag is set exactly when the feature phase ran to its end and some
result before the software phase asks for a reboot, and then no software component is run. -/
theorem InstallEnvironment_shape (inst : EnvironmentInstaller W)
    (progress_callback : ProgressCallback W) (s : State W)
    (hadmin : inst.CheckAdminPrivileges (ReportProgress progress_callback "install_start"
      "Starting environment installation..." 0 s.ResetStop) = true) :
    ∃ ops1 ops2 ops3 : List (OpRecord W),
      (InstallEnvironment inst progress_callback s).ops = ops1 ++ ops2 ++ ops3 ∧
      (InstallEnvironment inst progress_callback s).result.component_results
        = (InstallEnvironment inst progress_callback s).ops.map (·.result) ∧
      (∀ o ∈ ops1, o.component_type ∈ ComponentFactory.GetSystemComponents ∧
        o.perform_installation = false) ∧
      (∀ o ∈ ops2, o.component_type ∈ ComponentFactory.GetWindowsFeatureComponents ∧
        o.perform_installation = true) ∧
      (∀ o ∈ ops3, o.component_type ∈ ComponentFactory.GetSoftwareComponents ∧
        o.perform_installation = true) ∧
      (∀ o ∈ (InstallEnvironment inst progress_callback s).ops.dropLast, o.Continues) ∧
      ((InstallEnvironment inst progress_callback s).result.reboot_required = true →
        (∃ o ∈ ops1 ++ ops2, CheckIfRebootRequired o.result = true) ∧ ops3 = [] ∧
        ∀ o ∈ (InstallEnvironment inst progress_callback s).ops, o.Continues) ∧
      ((InstallEnvironment inst progress_callback s).result.reboot_required = false →
        (ops3 ≠ [] ∨ ∀ o ∈ (InstallEnvironment inst progress_callback s).ops, o.Continues) →
        ∀ o ∈ ops1 ++ ops2, CheckIfRebootRequired o.result = false) := by
  unfold InstallEnvironment
  simp only [hadmin, Bool.not_true, Bool.false_eq_true, if_false]
  generalize ReportProgress progress_callback "install_start"
    "Starting environment installation..." 0 s.ResetStop = s0
  obtain ⟨n1, r1⟩ := InstallEnvironment.phase_spec inst progress_callback false
    "System requirement not met: " ComponentFactory.GetSystemComponents ⟨⟨[], false, ""⟩, s0, [], []⟩
  cases hp1 : InstallEnvironment.phase inst progress_callback false
      "System requirement not met: " ComponentFactory.GetSystemComponents
      ⟨⟨[], false, ""⟩, s0, [], []⟩ with
  | ret r =>
    obtain ⟨pre, o, l1, l2, h1, h2, h3, h4, h5, h6, -, h8⟩ := r1 r hp1
    simp only [List.nil_append] at h1 h2 h3
    have hbad : ¬ o.Continues := by
      rcases h8 with h8 | h8
      · exact fun h => h.1 h8.1
      · exact fun h => by
          have h2 := h.2
          rw [h8.2.1] at h2
          exact Bool.noConfusion h2
    refine ⟨pre ++ [o], [], [], by simp [h1], by simp [h1, h2], ?_, by simp, by simp, ?_, ?_, ?_⟩
    · intro p hp
      rcases List.mem_append.1 hp with hp | hp
      · exact ⟨by rw [h4]; exact List.mem_append_left _ (h5 p hp).1, (h5 p hp).2.1⟩
      · have : p = o := by simpa using hp
        subst this
        exact ⟨by rw [h4]; simp, h6⟩
    · intro p hp
      simp only [h1, List.dropLast_concat] at hp
      exact (h5 p hp).2.2
    · intro hr
      simp [h3] at hr
    · intro _ hor
      rcases hor with hor | hor
      · exact absurd rfl hor
      · exact absurd (hor o (by simp [h1])) hbad
  | next a1 =>
    obtain ⟨ops1, h1, h2, h3, -, h5⟩ := n1 a1 hp1
    simp only [List.nil_append] at h1 h2 h3
    simp only
    generalize ReportProgress progress_callback "phase2_start"
      "Phase 2: Installing Windows features..." 15 a1.state = s1
    obtain ⟨n2, r2⟩ := InstallEnvironment.phase_spec inst progress_callback true
      "Windows feature installation failed: " ComponentFactory.GetWindowsFeatureComponents
      { a1 with state := s1 }
    cases hp2 : InstallEnvironment.phase inst progress_callback true
        "Windows feature installation failed: " ComponentFactory.GetWindowsFeatureComponents
        { a1 with state := s1 } with
    | ret r =>
      obtain ⟨pre, o, l1, l2, k1, k2, k3, k4, k5, k6, -, k8⟩ := r2 r hp2
      simp only [h1, h2, h3] at k1 k2 k3
      have hbad : ¬ o.Continues := by
        rcases k8 with k8 | k8
        · exact fun h => h.1 k8.1
        · exact fun h => by
            have h2 := h.2
            rw [k8.2.1] at h2
            exact Bool.noConfusion h2
      refine ⟨ops1, pre ++ [o], [], by simp [k1], by simp [k1, k2],
        fun p hp => ⟨(h5 p hp).1, (h5 p hp).2.1⟩, ?_, by simp, ?_, ?_, ?_⟩
      · intro p hp
        rcases List.mem_append.1 hp with hp | hp
        · exact ⟨by rw [k4]; exact List.mem_append_left _ (k5 p hp).1, (k5 p hp).2.1⟩
        · have : p = o := by simpa using hp
          subst this
          exact ⟨by rw [k4]; simp, k6⟩
      · intro p hp
        simp only [k1, List.dropLast_concat] at hp
        rcases List.mem_append.1 hp with hp | hp
        · exact (h5 p hp).2.2
        · exact (k5 p hp).2.2
      · intro hr
        simp [k3] at hr
      · intro _ hor
        rcases hor with hor | hor
        · exact absurd rfl hor
        · exact absurd (hor o (by simp [k1])) hbad
    | next a2 =>
      obtain ⟨ops2, k1, k2, k3, -, k5⟩ := n2 a2 hp2
      simp only [h1, h2, h3] at k1 k2 k3
      have hres : a2.result.component_results = (ops1 ++ ops2).map (·.result) := by
        rw [k2]; simp
      have hany : (ProcessRebootRequirements a2.result).reboot_required
          = ((ops1 ++ ops2).map (·.result)).any CheckIfRebootRequired := by
        rw [ProcessRebootRequirements_reboot_required, k3, hres]; simp
      have hcont12 : ∀ o ∈ ops1 ++ ops2, o.Continues := by
        intro p hp
        rcases List.mem_append.1 hp with hp | hp
        · exact (h5 p hp).2.2
        · exact (k5 p hp).2.2
      simp only
      by_cases hrb : (ProcessRebootRequirements a2.result).reboot_required = true
      · simp only [hrb, if_true]
        refine ⟨ops1, ops2, [], by simp [k1], ?_, fun p hp => ⟨(h5 p hp).1, (h5 p hp).2.1⟩,
          fun p hp => ⟨(k5 p hp).1, (k5 p hp).2.1⟩, by simp, ?_, ?_, ?_⟩
        · rw [ProcessRebootRequirements_component_results, hres, k1]
        · intro p hp
          exact hcont12 p (by rw [k1] at hp; exact List.mem_of_mem_dropLast hp)
        · intro _
          refine ⟨?_, rfl, fun p hp => hcont12 p (by rw [k1] at hp; exact hp)⟩
          rw [hany, List.any_eq_true] at hrb
          obtain ⟨r, hr, hc⟩ := hrb
          obtain ⟨o, ho, rfl⟩ := List.mem_map.1 hr
          exact ⟨o, ho, hc⟩
        · intro hr
          simp [hrb] at hr
      · simp only [hrb, Bool.false_eq_true, if_false]
        simp only [Bool.not_eq_true] at hrb
        have hnone : ∀ o ∈ ops1 ++ ops2, CheckIfRebootRequired o.result = false := by
          intro p hp
          rw [hany] at hrb
          have := List.any_eq_false.1 hrb p.result (List.mem_map.2 ⟨p, hp, rfl⟩)
          simpa using this
        generalize ReportProgress progress_callback "phase3_start"
          "Phase 3: Installing software components..." 60 a2.state = s2
        obtain ⟨n3, r3⟩ := InstallEnvironment.phase_spec inst progress_callback true
          "Software installation failed: " ComponentFactory.GetSoftwareComponents
          { a2 with result := ProcessRebootRequirements a2.result, state := s2 }
        cases hp3 : InstallEnvironment.phase inst progress_callback true
            "Software installation failed: " ComponentFactory.GetSoftwareComponents
            { a2 with result := ProcessRebootRequirements a2.result, state := s2 } with
        | ret r =>
          obtain ⟨pre, o, l1, l2, m1, m2, m3, m4, m5, m6, -, -⟩ := r3 r hp3
          simp only [k1, ProcessRebootRequirements_component_results, hres, hrb] at m1 m2 m3
          refine ⟨ops1, ops2, pre ++ [o], by simp [m1], by simp [m1, m2],
            fun p hp => ⟨(h5 p hp).1, (h5 p hp).2.1⟩, fun p hp => ⟨(k5 p hp).1, (k5 p hp).2.1⟩,
            ?_, ?_, ?_, fun _ _ => hnone⟩
          · intro p hp
            rcases List.mem_append.1 hp with hp | hp
            · exact ⟨by rw [m4]; exact List.mem_append_left _ (m5 p hp).1, (m5 p hp).2.1⟩
            · have : p = o := by simpa using hp
              subst this
              exact ⟨by rw [m4]; simp, m6⟩
          · intro p hp
            simp only [m1, List.dropLast_concat] at hp
            rcases List.mem_append.1 hp with hp | hp
            · exact hcont12 p hp
            · exact (m5 p hp).2.2
          · intro hr
            simp [m3] at hr
        | next a3 =>
          obtain ⟨ops3, m1, m2, m3, -, m5⟩ := n3 a3 hp3
          simp only [k1, ProcessRebootRequirements_component_results, hres, hrb] at m1 m2 m3
          refine ⟨ops1, ops2, ops3, by simp [m1], by simp [m1, m2],
            fun p hp => ⟨(h5 p hp).1, (h5 p hp).2.1⟩, fun p hp => ⟨(k5 p hp).1, (k5 p hp).2.1⟩,
            fun p hp => ⟨(m5 p hp).1, (m5 p hp).2.1⟩, ?_, ?_, fun _ _ => hnone⟩
          · intro p hp
            have hp' := List.mem_of_mem_dropLast hp
            simp only [m1] at hp'
            rcases List.mem_append.1 hp' with hp' | hp'
            · exact hcont12 p hp'
            · exact (m5 p hp').2.2
          · intro hr
            simp [m3] at hr

theorem ComponentFactory.system_not_feature (t : EnvironmentComponent)
    (h1 : t ∈ ComponentFactory.GetSystemComponents)
    (h2 : t ∈ ComponentFactory.GetWindowsFeatureComponents) : False := by
  cases t <;> simp [ComponentFactory.GetSystemComponents,
    ComponentFactory.GetWindowsFeatureComponents] at h1 h2

theorem ComponentFactory.system_not_software (t : EnvironmentComponent)
    (h1 : t ∈ ComponentFactory.GetSystemComponents)
    (h2 : t ∈ ComponentFactory.GetSoftwareComponents) : False := by
  cases t <;> simp [ComponentFactory.GetSystemComponents,
    ComponentFactory.GetSoftwareComponents] at h1 h2

theorem ComponentFactory.feature_not_software (t : EnvironmentComponent)
    (h1 : t ∈ ComponentFactory.GetWindowsFeatureComponents)
    (h2 : t ∈ ComponentFactory.GetSoftwareComponents) : False := by
  cases t <;> simp [ComponentFactory.GetWindowsFeatureComponents,
    ComponentFactory.GetSoftwareComponents] at h1 h2

theorem List.eq_getLast_of_not_mem_dropLast {α : Type} {l : List α} {x : α} (hx : x ∈ l)
    (hd : x ∉ l.dropLast) : l.getLast? = some x := by
  have hne : l ≠ [] := List.ne_nil_of_mem hx
  have hl := List.dropLast_append_getLast hne
  rw [← hl] at hx
  rcases List.mem_append.1 hx with h | h
  · exact absurd h hd
  · have hxe : x = l.getLast hne := by simpa using h
    rw [List.getLast?_eq_getLast l hne, hxe]

/-- A failed operation of an install run is its last operation. -/
theorem InstallEnvironment_failed_is_last (inst : EnvironmentInstaller W)
    (progress_callback : ProgressCallback W) (s : State W) (op : OpRecord W)
    (hop : op ∈ (InstallEnvironment inst progress_callback s).ops)
    (hstop : ¬ op.Continues) :
    (InstallEnvironment inst progress_callback s).ops.getLast? = some op := by
  by_cases hadmin : inst.CheckAdminPrivileges (ReportProgress progress_callback "install_start"
      "Starting environment installation..." 0 s.ResetStop) = true
  · obtain ⟨ops1, ops2, ops3, -, -, -, -, -, h6, -, -⟩ :=
      InstallEnvironment_shape inst progress_callback s hadmin
    exact List.eq_getLast_of_not_mem_dropLast hop (fun h => hstop (h6 op h))
  · simp only [Bool.not_eq_true] at hadmin
    simp [InstallEnvironment, hadmin] at hop

/-- C2: in every run of `InstallEnvironment`, a component operation that returns status
`Failed` (operations are checks in the system phase and installs in the Windows-feature and
software phases) is the last operation of the run.  Hence no result before the last has status `Failed`, the
result sequence holds at most one `Failed` result, the result of a failed operation is its
last element; and if a system-phase component fails, every operation of the run is a check
of a system component and the results are exactly theirs, so no Windows-feature and no
software component is run or appears in the result. -/
theorem InstallEnvironment_failure_ends_run (inst : EnvironmentInstaller W)
    (progress_callback : ProgressCallback W) (s : State W) :
    (∀ r ∈ (InstallEnvironment inst progress_callback s).result.component_results.dropLast,
      r.status ≠ InstallationStatus.kFailed) ∧
    (InstallEnvironment inst progress_callback s).result.component_results.countP
      (fun r => decide (r.status = InstallationStatus.kFailed)) ≤ 1 ∧
    (∀ op ∈ (InstallEnvironment inst progress_callback s).ops,
      op.result.status = InstallationStatus.kFailed →
      (InstallEnvironment inst progress_callback s).ops.getLast? = some op ∧
      (InstallEnvironment inst progress_callback s).result.component_results.getLast?
        = some op.result) ∧
    (∀ op ∈ (InstallEnvironment inst progress_callback s).ops,
      op.component_type ∈ ComponentFactory.GetSystemComponents →
      op.result.status = InstallationStatus.kFailed →
      (InstallEnvironment inst progress_callback s).result.component_results
        = (InstallEnvironment inst progress_callback s).ops.map (·.result) ∧
      ∀ op' ∈ (InstallEnvironment inst progress_callback s).ops,
        op'.component_type ∈ ComponentFactory.GetSystemComponents ∧
        op'.perform_installation = false) ∧
    (∀ op ∈ (InstallEnvironment inst progress_callback s).ops,
      (op.component_type ∈ ComponentFactory.GetSystemComponents ∧
        op.perform_installation = false) ∨
      (op.component_type ∈ ComponentFactory.GetWindowsFeatureComponents ∧
        op.perform_installation = true) ∨
      (op.component_type ∈ ComponentFactory.GetSoftwareComponents ∧
        op.perform_installation = true)) := by
  by_cases hadmin : inst.CheckAdminPrivileges (ReportProgress progress_callback "install_start"
      "Starting environment installation..." 0 s.ResetStop) = true
  · obtain ⟨ops1, ops2, ops3, h1, h2, h3, h4, h5, h6, -, -⟩ :=
      InstallEnvironment_shape inst progress_callback s hadmin
    have hlast : ∀ op ∈ (InstallEnvironment inst progress_callback s).ops,
        op.result.status = InstallationStatus.kFailed →
        (InstallEnvironment inst progress_callback s).ops.getLast? = some op :=
      fun op hop hf => InstallEnvironment_failed_is_last inst progress_callback s op hop
        (fun h => h.1 hf)
    have hdrop : ∀ r ∈ (InstallEnvironment inst progress_callback s).result.component_results.dropLast,
        r.status ≠ InstallationStatus.kFailed := by
      intro r hr
      rw [h2, ← List.map_dropLast] at hr
      obtain ⟨o, ho, rfl⟩ := List.mem_map.1 hr
      exact (h6 o ho).1
    refine ⟨hdrop, ?_, ?_, ?_, ?_⟩
    rotate_left 3
    · intro op hop
      rw [h1] at hop
      rcases List.mem_append.1 hop with hop | hop
      · rcases List.mem_append.1 hop with hop | hop
        · exact Or.inl (h3 op hop)
        · exact Or.inr (Or.inl (h4 op hop))
      · exact Or.inr (Or.inr (h5 op hop))
    · by_cases hne : (InstallEnvironment inst progress_callback s).result.component_results = []
      · rw [hne]; simp
      · rw [← List.dropLast_append_getLast hne, List.countP_append, List.countP_singleton]
        have h0 : List.countP (fun r => decide (r.status = InstallationStatus.kFailed))
            (InstallEnvironment inst progress_callback s).result.component_results.dropLast = 0 := by
          rw [List.countP_eq_zero]
          intro r hr
          simpa using hdrop r hr
        rw [h0]
        split <;> simp
    · intro op hop hf
      refine ⟨hlast op hop hf, ?_⟩
      rw [h2, List.getLast?_map, hlast op hop hf]
      rfl
    · intro op hop hsys hf
      refine ⟨h2, ?_⟩
      have hl := hlast op hop hf
      have hmem1 : op ∈ ops1 := by
        rw [h1] at hop
        rcases List.mem_append.1 hop with hop | hop
        · rcases List.mem_append.1 hop with hop | hop
          · exact hop
          · exact (ComponentFactory.system_not_feature _ hsys (h4 op hop).1).elim
        · exact (ComponentFactory.system_not_software _ hsys (h5 op hop).1).elim
      have h23 : ops2 ++ ops3 = [] := by
        by_contra hne
        have hd : op ∈ (InstallEnvironment inst progress_callback s).ops.dropLast := by
          rw [h1, List.append_assoc, List.dropLast_append_of_ne_nil _ hne]
          exact List.mem_append_left _ hmem1
        exact (h6 op hd).1 hf
      intro op' hop'
      rw [h1, List.append_assoc, h23, List.append_nil] at hop'
      exact h3 op' hop'
  · simp only [Bool.not_eq_true] at hadmin
    simp [InstallEnvironment, hadmin]

/-- Witness for C2: on the fresh (offline) demonstration machine the install of the WSL
Package fails; its result is the last and the only `Failed` one. -/
theorem InstallEnvironment_failure_ends_run_witness :
    (InstallEnvironment (new Demo.sys Demo.ctx Demo.ext) none
        Demo.fresh).result.component_results.getLast?
      = some (CreateFailureResult EnvironmentComponent.kWSLInstall
          ("Failed to download WSL installer from: " ++ "https://example.invalid/package.msi") 2) ∧
    (InstallEnvironment (new Demo.sys Demo.ctx Demo.ext) none
        Demo.fresh).result.component_results.countP
      (fun r => decide (r.status = InstallationStatus.kFailed)) ≤ 1 :=
  ⟨by decide,
    (InstallEnvironment_failure_ends_run (new Demo.sys Demo.ctx Demo.ext) none Demo.fresh).2.1⟩

/-- C4: in every run of `InstallEnvironment` in which the install of a Windows-feature-phase
component returns status `Success` with a message containing "reboot", no operation of the
run belongs to a software-phase component (CUDA Toolkit, Rust Cargo, Ninja, pip upgrade,
Parallax project), and the result sequence holds exactly the results of the operations
run. -/
theorem InstallEnvironment_reboot_stops_before_software (inst : EnvironmentInstaller W)
    (progress_callback : ProgressCallback W) (s : State W) (op : OpRecord W)
    (hop : op ∈ (InstallEnvironment inst progress_callback s).ops)
    (htype : op.component_type ∈ ComponentFactory.GetWindowsFeatureComponents)
    (hsuccess : op.result.status = InstallationStatus.kSuccess)
    (hreboot : strFind op.result.message "reboot" = true) :
    (∀ op' ∈ (InstallEnvironment inst progress_callback s).ops,
      op'.component_type ∉ ComponentFactory.GetSoftwareComponents) ∧
    (InstallEnvironment inst progress_callback s).result.component_results
      = (InstallEnvironment inst progress_callback s).ops.map (·.result) := by
  by_cases hadmin : inst.CheckAdminPrivileges (ReportProgress progress_callback "install_start"
      "Starting environment installation..." 0 s.ResetStop) = true
  · obtain ⟨ops1, ops2, ops3, h1, h2, h3, h4, h5, h6, h7, h8⟩ :=
      InstallEnvironment_shape inst progress_callback s hadmin
    refine ⟨?_, h2⟩
    have hcheck : CheckIfRebootRequired op.result = true := by
      simp [CheckIfRebootRequired, hsuccess, hreboot]
    have h3nil : ops3 = [] := by
      by_contra hne
      cases hrb : (InstallEnvironment inst progress_callback s).result.reboot_required with
      | true => exact hne (h7 hrb).2.1
      | false =>
        have hnone := h8 hrb (Or.inl hne)
        rw [h1] at hop
        rcases List.mem_append.1 hop with hop | hop
        · rw [hnone op hop] at hcheck
          exact Bool.noConfusion hcheck
        · exact ComponentFactory.feature_not_software _ htype (h5 op hop).1
    intro op' hop' hsoft
    rw [h1, h3nil, List.append_nil] at hop'
    rcases List.mem_append.1 hop' with hop' | hop'
    · exact ComponentFactory.system_not_software _ (h3 op' hop').1 hsoft
    · exact ComponentFactory.feature_not_software _ (h4 op' hop').1 hsoft
  · simp only [Bool.not_eq_true] at hadmin
    simp [InstallEnvironment, hadmin] at hop

/-- Every operation a phase loop adds is recorded from a run of the registered component. -/
theorem InstallEnvironment.phase_runBy (inst : EnvironmentInstaller W)
    (progress_callback : ProgressCallback W) (perform_installation : Bool) (heading : String) :
    ∀ (l : List EnvironmentComponent) (a r : Run W),
      (InstallEnvironment.phase inst progress_callback perform_installation heading l a
          = Flow.next r ∨
        InstallEnvironment.phase inst progress_callback perform_installation heading l a
          = Flow.ret r) →
      (∀ o ∈ a.ops, o.RunBy inst progress_callback none) →
      ∀ o ∈ r.ops, o.RunBy inst progress_callback none := by
  intro l
  induction l with
  | nil =>
    intro a r h ha
    rcases h with h | h
    · simp only [InstallEnvironment.phase, Flow.next.injEq] at h
      subst h
      exact ha
    · simp [InstallEnvironment.phase] at h
  | cons t rest ih =>
    intro a r h ha
    cases hc : inst.components_ t with
    | none =>
      rw [InstallEnvironment.phase_cons_none _ _ _ _ _ _ _ hc] at h
      exact ih a r h ha
    | some component =>
      rw [InstallEnvironment.phase_cons_some _ _ _ _ _ _ _ _ hc] at h
      have hpush : ∀ o ∈ (a.push t perform_installation none (ExecuteComponentOperation
          progress_callback component perform_installation none a.state)).ops,
          o.RunBy inst progress_callback none := by
        intro o ho
        simp only [Run.push] at ho
        rcases List.mem_append.1 ho with ho | ho
        · exact ha o ho
        · have : o = (ExecuteComponentOperation progress_callback component perform_installation
              none a.state).record t perform_installation := by simpa using ho
          subst this
          exact ⟨component, a.state, hc, rfl⟩
      split at h
      · rcases h with h | h
        · simp at h
        · simp only [Flow.ret.injEq] at h
          subst h
          exact hpush
      · split at h
        · rcases h with h | h
          · simp at h
          · simp only [Flow.ret.injEq] at h
            subst h
            exact hpush
        · exact ih _ r h hpush

/-- Every operation of an install run is recorded from a run of the registered component. -/
theorem InstallEnvironment_runBy (inst : EnvironmentInstaller W)
    (progress_callback : ProgressCallback W) (s : State W) :
    ∀ o ∈ (InstallEnvironment inst progress_callback s).ops, o.RunBy inst progress_callback none := by
  unfold InstallEnvironment
  by_cases hadmin : inst.CheckAdminPrivileges (ReportProgress progress_callback "install_start"
      "Starting environment installation..." 0 s.ResetStop) = true
  · simp only [hadmin, Bool.not_true, Bool.false_eq_true, if_false]
    generalize ReportProgress progress_callback "install_start"
      "Starting environment installation..." 0 s.ResetStop = s0
    cases hp1 : InstallEnvironment.phase inst progress_callback false
        "System requirement not met: " ComponentFactory.GetSystemComponents
        ⟨⟨[], false, ""⟩, s0, [], []⟩ with
    | ret r =>
      exact InstallEnvironment.phase_runBy inst progress_callback _ _ _ _ r (Or.inr hp1)
        (by simp)
    | next a1 =>
      have g1 := InstallEnvironment.phase_runBy inst progress_callback _ _ _ _ a1 (Or.inl hp1)
        (by simp)
      simp only
      generalize ReportProgress progress_callback "phase2_start"
        "Phase 2: Installing Windows features..." 15 a1.state = s1
      cases hp2 : InstallEnvironment.phase inst progress_callback true
          "Windows feature installation failed: " ComponentFactory.GetWindowsFeatureComponents
          { a1 with state := s1 } with
      | ret r =>
        exact InstallEnvironment.phase_runBy inst progress_callback _ _ _ _ r (Or.inr hp2) g1
      | next a2 =>
        have g2 := InstallEnvironment.phase_runBy inst progress_callback _ _ _ _ a2 (Or.inl hp2) g1
        simp only
        generalize ReportProgress progress_callback "phase3_start"
          "Phase 3: Installing software components..." 60 a2.state = s2
        split
        · exact g2
        · cases hp3 : InstallEnvironment.phase inst progress_callback true
              "Software installation failed: " ComponentFactory.GetSoftwareComponents
              { a2 with result := ProcessRebootRequirements a2.result, state := s2 } with
          | ret r =>
            exact InstallEnvironment.phase_runBy inst progress_callback _ _ _ _ r (Or.inr hp3) g2
          | next a3 =>
            exact InstallEnvironment.phase_runBy inst progress_callback _ _ _ _ a3 (Or.inl hp3) g2
  · simp only [Bool.not_eq_true] at hadmin
    simp [hadmin]

/-- The map `components_` built by the constructor holds the factory's component for every
component type. -/
theorem new_components_ (sys : Sys W) (ctx : ExecutionContext) (ext : External W)
    (t : EnvironmentComponent) :
    (new sys ctx ext).components_ t = ComponentFactory.CreateComponent sys ctx ext t := by
  cases t <;> rfl

/-- The result of a recorded operation is what the registered component returns from the
state in which it was entered. -/
theorem OpRecord.RunBy.result_eq {inst : EnvironmentInstaller W}
    {progress_callback_ : ProgressCallback W} {callback : ComponentCheckCallback W}
    {o : OpRecord W} (h : o.RunBy inst progress_callback_ callback) :
    ∃ component : Component W, inst.components_ o.component_type = some component ∧
      o.result = (if o.perform_installation then component.Install o.invoked_at
        else component.Check o.invoked_at).1 := by
  obtain ⟨component, s, hc, ho⟩ := h
  refine ⟨component, hc, ?_⟩
  have h1 := congrArg OpRecord.result ho
  have h2 := congrArg OpRecord.invoked_at ho
  simp only [OpRun.record, ExecuteComponentOperation] at h1 h2
  rw [h1, h2]

end EnvironmentInstaller

/-- An install of the WSL feature that found the feature disabled before the attempt and
enabled after it returns `Success` with the reboot message. -/
theorem WSLFeatureManager.InstallRun_flip_wsl (sys : Sys W) (s : State W)
    (h1 : (WSLFeatureManager.InstallRun sys s).initial_feature_enabled = false)
    (h2 : (WSLFeatureManager.InstallRun sys s).feature_enabled = true) :
    (WSLFeatureManager.InstallRun sys s).result
      = CreateSuccessResult EnvironmentComponent.kWSL2
          "WSL Windows feature enabled successfully. System reboot required to complete installation." := by
  unfold WSLFeatureManager.InstallRun at h1 h2 ⊢
  unfold WSLFeatureManager.InstallVerify at h1 h2 ⊢
  simp only at h1 h2 ⊢
  split_ifs at h1 h2 ⊢ <;> simp_all [WSLFeatureManager.GetComponentType]

/-- An install of Virtual Machine Platform that found the feature disabled before the
attempt and enabled after it returns `Success` with the reboot message. -/
theorem VirtualMachinePlatformManager.InstallRun_flip_vmp (sys : Sys W) (s : State W)
    (h1 : (VirtualMachinePlatformManager.InstallRun sys s).initial_feature_enabled = false)
    (h2 : (VirtualMachinePlatformManager.InstallRun sys s).feature_enabled = true) :
    (VirtualMachinePlatformManager.InstallRun sys s).result
      = CreateSuccessResult EnvironmentComponent.kVirtualMachinePlatform
          "Virtual Machine Platform enabled successfully. System reboot required to complete installation." := by
  unfold VirtualMachinePlatformManager.InstallRun at h1 h2 ⊢
  unfold VirtualMachinePlatformManager.InstallVerify at h1 h2 ⊢
  simp only at h1 h2 ⊢
  split_ifs at h1 h2 ⊢ <;> simp_all [VirtualMachinePlatformManager.GetComponentType]

namespace EnvironmentInstaller

/-- Counterexample to C3 as stated: on the fresh (offline) demonstration machine the install
of the WSL2 Feature finds the feature disabled before the attempt and enabled after it, the
next-but-one component of the feature phase (WSL Package) then fails to download its
installer, and the run returns from inside the feature loop with `reboot_required = false`. -/
theorem InstallEnvironment_feature_flip_without_reboot_flag :
    (⟨EnvironmentComponent.kWSL2, true, Demo.fresh,
        (WSLFeatureManager.Install Demo.sys Demo.fresh).1,
        (WSLFeatureManager.Install Demo.sys Demo.fresh).2⟩ : OpRecord Demo.World)
      ∈ (InstallEnvironment (new Demo.sys Demo.ctx Demo.ext) none Demo.fresh).ops ∧
    (WSLFeatureManager.InstallRun Demo.sys Demo.fresh).initial_feature_enabled = false ∧
    (WSLFeatureManager.InstallRun Demo.sys Demo.fresh).feature_enabled = true ∧
    (InstallEnvironment (new Demo.sys Demo.ctx Demo.ext) none Demo.fresh).result.reboot_required
      = false ∧
    (InstallEnvironment (new Demo.sys Demo.ctx Demo.ext) none Demo.fresh).result.overall_message
      = "Windows feature installation failed: Failed to download WSL installer from: " ++
        "https://example.invalid/package.msi" :=
  ⟨List.mem_cons_of_mem _ (List.mem_cons_of_mem _ (List.mem_cons_of_mem _
      (List.mem_cons_self _ _))),
    by decide, by decide, by decide, by decide⟩

/-- C3 (amended): in every run of `InstallEnvironment` (of an installer built by the
constructor) in which the install of the WSL2 Feature or of Virtual Machine Platform finds
its feature disabled before the install attempt and enabled after it, and in which every
operation of the Windows-feature phase lets the loop go on (no result `Failed`, stop flag
clear at its return), the returned `EnvironmentResult` has `reboot_required = true`. -/
theorem InstallEnvironment_feature_flip_requires_reboot (sys : Sys W) (ctx : ExecutionContext)
    (ext : External W) (progress_callback : ProgressCallback W) (s : State W) (op : OpRecord W)
    (hop : op ∈ (InstallEnvironment (new sys ctx ext) progress_callback s).ops)
    (hflip :
      (op.component_type = EnvironmentComponent.kWSL2 ∧
        (WSLFeatureManager.InstallRun sys op.invoked_at).initial_feature_enabled = false ∧
        (WSLFeatureManager.InstallRun sys op.invoked_at).feature_enabled = true) ∨
      (op.component_type = EnvironmentComponent.kVirtualMachinePlatform ∧
        (VirtualMachinePlatformManager.InstallRun sys op.invoked_at).initial_feature_enabled
          = false ∧
        (VirtualMachinePlatformManager.InstallRun sys op.invoked_at).feature_enabled = true))
    (hphase : ∀ o ∈ (InstallEnvironment (new sys ctx ext) progress_callback s).ops,
      o.component_type ∈ ComponentFactory.GetWindowsFeatureComponents → o.Continues) :
    (InstallEnvironment (new sys ctx ext) progress_callback s).result.reboot_required = true := by
  have hadmin : (new sys ctx ext).CheckAdminPrivileges (ReportProgress progress_callback
      "install_start" "Starting environment installation..." 0 s.ResetStop) = true := by
    by_contra hadmin
    simp only [Bool.not_eq_true] at hadmin
    simp [InstallEnvironment, hadmin] at hop
  obtain ⟨ops1, ops2, ops3, h1, -, h3, h4, h5, h6, -, h8⟩ :=
    InstallEnvironment_shape (new sys ctx ext) progress_callback s hadmin
  have htype : op.component_type ∈ ComponentFactory.GetWindowsFeatureComponents := by
    rcases hflip with h | h <;> rw [h.1] <;> decide
  have hmem2 : op ∈ ops2 := by
    rw [h1] at hop
    rcases List.mem_append.1 hop with hop | hop
    · rcases List.mem_append.1 hop with hop | hop
      · exact (ComponentFactory.system_not_feature _ (h3 op hop).1 htype).elim
      · exact hop
    · exact (ComponentFactory.feature_not_software _ htype (h5 op hop).1).elim
  have hinstall : op.perform_installation = true := (h4 op hmem2).2
  obtain ⟨component, hc, hres⟩ :=
    (InstallEnvironment_runBy (new sys ctx ext) progress_callback s op hop).result_eq
  rw [new_components_] at hc
  rw [hinstall] at hres
  have hcheck : CheckIfRebootRequired op.result = true := by
    rcases hflip with ⟨ht, hb, ha⟩ | ⟨ht, hb, ha⟩
    · rw [ht] at hc
      simp only [ComponentFactory.CreateComponent, Option.some.injEq] at hc
      subst hc
      simp only [if_true, WSLFeatureManager.component, WSLFeatureManager.Install] at hres
      rw [hres, WSLFeatureManager.InstallRun_flip_wsl sys _ hb ha]
      decide
    · rw [ht] at hc
      simp only [ComponentFactory.CreateComponent, Option.some.injEq] at hc
      subst hc
      simp only [if_true, VirtualMachinePlatformManager.component,
        VirtualMachinePlatformManager.Install] at hres
      rw [hres, VirtualMachinePlatformManager.InstallRun_flip_vmp sys _ hb ha]
      decide
  by_contra hrb
  simp only [Bool.not_eq_true] at hrb
  have hall : ops3 ≠ [] ∨
      ∀ o ∈ (InstallEnvironment (new sys ctx ext) progress_callback s).ops, o.Continues := by
    by_cases hne : ops3 = []
    · right
      intro o ho
      have ho' := ho
      rw [h1, hne, List.append_nil] at ho'
      rcases List.mem_append.1 ho' with ho' | ho'
      · apply h6
        rw [h1, hne, List.append_nil,
          List.dropLast_append_of_ne_nil _ (List.ne_nil_of_mem hmem2)]
        exact List.mem_append_left _ ho'
      · exact hphase o ho (h4 o ho').1
    · exact Or.inl hne
  have hnone := h8 hrb hall op (List.mem_append_right _ hmem2)
  rw [hnone] at hcheck
  exact Bool.noConfusion hcheck

/-- Witness for C3 (amended): on the prepared demonstration machine the install of the WSL2
Feature flips the feature, the rest of the feature phase is already in place, and the run
asks for a reboot. -/
theorem InstallEnvironment_feature_flip_requires_reboot_witness :
    (⟨EnvironmentComponent.kWSL2, true, Demo.prepared,
        (WSLFeatureManager.Install Demo.sys Demo.prepared).1,
        (WSLFeatureManager.Install Demo.sys Demo.prepared).2⟩ : OpRecord Demo.World)
      ∈ (InstallEnvironment (new Demo.sys Demo.ctx Demo.ext) none Demo.prepared).ops ∧
    (WSLFeatureManager.InstallRun Demo.sys Demo.prepared).initial_feature_enabled = false ∧
    (WSLFeatureManager.InstallRun Demo.sys Demo.prepared).feature_enabled = true ∧
    (InstallEnvironment (new Demo.sys Demo.ctx Demo.ext) none Demo.prepared).result.reboot_required
      = true :=
  have hop : (⟨EnvironmentComponent.kWSL2, true, Demo.prepared,
        (WSLFeatureManager.Install Demo.sys Demo.prepared).1,
        (WSLFeatureManager.Install Demo.sys Demo.prepared).2⟩ : OpRecord Demo.World)
      ∈ (InstallEnvironment (new Demo.sys Demo.ctx Demo.ext) none Demo.prepared).ops :=
    List.mem_cons_of_mem _ (List.mem_cons_of_mem _ (List.mem_cons_of_mem _
      (List.mem_cons_self _ _)))
  have hb : (WSLFeatureManager.InstallRun Demo.sys Demo.prepared).initial_feature_enabled
      = false := by decide
  have ha : (WSLFeatureManager.InstallRun Demo.sys Demo.prepared).feature_enabled = true := by
    decide
  ⟨hop, hb, ha,
    InstallEnvironment_feature_flip_requires_reboot Demo.sys Demo.ctx Demo.ext none Demo.prepared
      _ hop (Or.inl ⟨rfl, hb, ha⟩)
      (by
        intro o ho _
        have hall : ((InstallEnvironment (new Demo.sys Demo.ctx Demo.ext) none
            Demo.prepared).ops.all
            (fun o => decide (o.result.status ≠ InstallationStatus.kFailed) &&
              !o.returned_at.IsStopRequested)) = true := by decide
        have := List.all_eq_true.1 hall o ho
        simp only [Bool.and_eq_true, decide_eq_true_eq, Bool.not_eq_true'] at this
        exact this)⟩

/-- Witness for C4: the same run; the WSL2 Feature install returns `Success` with a message
containing "reboot", and no software component is run. -/
theorem InstallEnvironment_reboot_stops_before_software_witness :
    (⟨EnvironmentComponent.kWSL2, true, Demo.prepared,
        (WSLFeatureManager.Install Demo.sys Demo.prepared).1,
        (WSLFeatureManager.Install Demo.sys Demo.prepared).2⟩ : OpRecord Demo.World)
      ∈ (InstallEnvironment (new Demo.sys Demo.ctx Demo.ext) none Demo.prepared).ops ∧
    (WSLFeatureManager.Install Demo.sys Demo.prepared).1.status = InstallationStatus.kSuccess ∧
    strFind (WSLFeatureManager.Install Demo.sys Demo.prepared).1.message "reboot" = true ∧
    (InstallEnvironment (new Demo.sys Demo.ctx Demo.ext) none
        Demo.prepared).result.component_results
      = (InstallEnvironment (new Demo.sys Demo.ctx Demo.ext) none Demo.prepared).ops.map
          (·.result) :=
  have hop : (⟨EnvironmentComponent.kWSL2, true, Demo.prepared,
        (WSLFeatureManager.Install Demo.sys Demo.prepared).1,
        (WSLFeatureManager.Install Demo.sys Demo.prepared).2⟩ : OpRecord Demo.World)
      ∈ (InstallEnvironment (new Demo.sys Demo.ctx Demo.ext) none Demo.prepared).ops :=
    List.mem_cons_of_mem _ (List.mem_cons_of_mem _ (List.mem_cons_of_mem _
      (List.mem_cons_self _ _)))
  have hs : (WSLFeatureManager.Install Demo.sys Demo.prepared).1.status
      = InstallationStatus.kSuccess := by decide
  have hr : strFind (WSLFeatureManager.Install Demo.sys Demo.prepared).1.message "reboot"
      = true := by decide
  ⟨hop, hs, hr,
    (InstallEnvironment_reboot_stops_before_software (new Demo.sys Demo.ctx Demo.ext) none
      Demo.prepared _ hop (by decide) hs hr).2⟩

theorem ProcessVirtualizationResults.scan_fst_of_no_vm :
    ∀ (l : List ComponentResult) (i : Nat) (found : Option Nat × Option Nat),
      (∀ r ∈ l, r.component ≠ EnvironmentComponent.kVirtualMachinePlatform) →
      (ProcessVirtualizationResults.scan l i found).1 = found.1 := by
  intro l
  induction l with
  | nil => intro i found _; rfl
  | cons r rest ih =>
    intro i found h
    obtain ⟨v, b⟩ := found
    have hr := h r (List.mem_cons_self _ _)
    have hrest := fun x hx => h x (List.mem_cons_of_mem _ hx)
    simp only [ProcessVirtualizationResults.scan, hr, if_false]
    split
    · rw [ih _ _ hrest]
    · rw [ih _ _ hrest]

theorem ProcessVirtualizationResults.scan_snd_of_no_bios :
    ∀ (l : List ComponentResult) (i : Nat) (found : Option Nat × Option Nat),
      (∀ r ∈ l, r.component ≠ EnvironmentComponent.kBIOSVirtualization) →
      (ProcessVirtualizationResults.scan l i found).2 = found.2 := by
  intro l
  induction l with
  | nil => intro i found _; rfl
  | cons r rest ih =>
    intro i found h
    obtain ⟨v, b⟩ := found
    have hr := h r (List.mem_cons_self _ _)
    have hrest := fun x hx => h x (List.mem_cons_of_mem _ hx)
    simp only [ProcessVirtualizationResults.scan, hr, if_false]
    split
    · rw [ih _ _ hrest]
    · rw [ih _ _ hrest]

/-- The pointer `vm_result` ends at the last Virtual Machine Platform entry. -/
theorem ProcessVirtualizationResults.scan_fst (vm : ComponentResult) (post : List ComponentResult)
    (hvm : vm.component = EnvironmentComponent.kVirtualMachinePlatform)
    (hpost : ∀ r ∈ post, r.component ≠ EnvironmentComponent.kVirtualMachinePlatform) :
    ∀ (pre : List ComponentResult) (i : Nat) (found : Option Nat × Option Nat),
      (ProcessVirtualizationResults.scan (pre ++ vm :: post) i found).1 = some (i + pre.length) := by
  intro pre
  induction pre with
  | nil =>
    intro i found
    obtain ⟨v, b⟩ := found
    simp only [List.nil_append, ProcessVirtualizationResults.scan, hvm, if_true]
    rw [ProcessVirtualizationResults.scan_fst_of_no_vm _ _ _ hpost]
    simp
  | cons r rest ih =>
    intro i found
    obtain ⟨v, b⟩ := found
    simp only [List.cons_append, ProcessVirtualizationResults.scan, List.append_eq]
    split
    · rw [ih]; simp; omega
    · split
      · rw [ih]; simp; omega
      · rw [ih]; simp; omega

/-- The pointer `bios_result` ends at the last BIOS Virtualization entry. -/
theorem ProcessVirtualizationResults.scan_snd (bios : ComponentResult)
    (post : List ComponentResult)
    (hbios : bios.component = EnvironmentComponent.kBIOSVirtualization)
    (hpost : ∀ r ∈ post, r.component ≠ EnvironmentComponent.kBIOSVirtualization) :
    ∀ (pre : List ComponentResult) (i : Nat) (found : Option Nat × Option Nat),
      (ProcessVirtualizationResults.scan (pre ++ bios :: post) i found).2
        = some (i + pre.length) := by
  intro pre
  induction pre with
  | nil =>
    intro i found
    obtain ⟨v, b⟩ := found
    have hne : bios.component ≠ EnvironmentComponent.kVirtualMachinePlatform := by
      rw [hbios]; decide
    simp only [List.nil_append, ProcessVirtualizationResults.scan, hne, if_false]
    simp only [hbios, if_true]
    rw [ProcessVirtualizationResults.scan_snd_of_no_bios _ _ _ hpost]
    simp
  | cons r rest ih =>
    intro i found
    obtain ⟨v, b⟩ := found
    simp only [List.cons_append, ProcessVirtualizationResults.scan, List.append_eq]
    split
    · rw [ih]; simp; omega
    · split
      · rw [ih]; simp; omega
      · rw [ih]; simp; omega

theorem List.get?_append_cons_length {α : Type} (pre : List α) (x : α) (post : List α) :
    (pre ++ x :: post).get? pre.length = some x := by
  induction pre with
  | nil => rfl
  | cons a rest ih => simpa using ih

theorem List.set_append_cons_length {α : Type} (pre : List α) (x y : α) (post : List α) :
    (pre ++ x :: post).set pre.length y = pre ++ y :: post := by
  induction pre with
  | nil => rfl
  | cons a rest ih => simp [ih]

/-- C6: for every result list with a Virtual Machine Platform result `vm` of status `Skipped`
and a BIOS Virtualization result `bios` (each the last of its kind, should the list hold
several): if `bios` is `Failed`, `ProcessVirtualizationResults` sets the status of `vm` to
`Failed`, its message to "Virtual Machine Platform is enabled in Windows, but " followed by
the BIOS message, and its error code to the BIOS error code; if `bios` is `Success`, it
rewrites only the message of `vm` and the status stays `Skipped`.  Every other entry is left
as it is. -/
theorem ProcessVirtualizationResults_merge (pre post pre' post' : List ComponentResult)
    (vm bios : ComponentResult)
    (hvm : vm.component = EnvironmentComponent.kVirtualMachinePlatform)
    (hpost : ∀ r ∈ post, r.component ≠ EnvironmentComponent.kVirtualMachinePlatform)
    (hbios : bios.component = EnvironmentComponent.kBIOSVirtualization)
    (hpost' : ∀ r ∈ post', r.component ≠ EnvironmentComponent.kBIOSVirtualization)
    (hsame : pre ++ vm :: post = pre' ++ bios :: post')
    (hskipped : vm.status = InstallationStatus.kSkipped) :
    (bios.status = InstallationStatus.kFailed →
      ProcessVirtualizationResults (pre ++ vm :: post)
        = pre ++ { vm with
            status := InstallationStatus.kFailed
            message := "Virtual Machine Platform is enabled in Windows, but " ++ bios.message
            error_code := bios.error_code } :: post) ∧
    (bios.status = InstallationStatus.kSuccess →
      ProcessVirtualizationResults (pre ++ vm :: post)
        = pre ++ { vm with
            message := "Virtual Machine Platform is enabled and BIOS virtualization " ++
              "is working properly" } :: post ∧
      ({ vm with
          message := "Virtual Machine Platform is enabled and BIOS virtualization " ++
            "is working properly" } : ComponentResult).status = InstallationStatus.kSkipped) := by
  have hscan : ProcessVirtualizationResults.scan (pre ++ vm :: post) 0 (none, none)
      = (some pre.length, some pre'.length) := by
    have e1 := ProcessVirtualizationResults.scan_fst vm post hvm hpost pre 0 (none, none)
    have e2 := ProcessVirtualizationResults.scan_snd bios post' hbios hpost' pre' 0 (none, none)
    rw [← hsame] at e2
    simp only [Nat.zero_add] at e1 e2
    exact Prod.ext e1 e2
  have hgetvm : (pre ++ vm :: post).get? pre.length = some vm :=
    List.get?_append_cons_length pre vm post
  have hgetbios : (pre ++ vm :: post).get? pre'.length = some bios := by
    rw [hsame]; exact List.get?_append_cons_length pre' bios post'
  refine ⟨?_, ?_⟩
  · intro hf
    unfold ProcessVirtualizationResults
    rw [hscan]
    simp only [hgetvm, hgetbios, hskipped, hf, List.set_append_cons_length]
    simp
  · intro hs
    refine ⟨?_, hskipped⟩
    unfold ProcessVirtualizationResults
    rw [hscan]
    simp only [hgetvm, hgetbios, hskipped, hs, List.set_append_cons_length]
    simp

/-- Witness for C6: a Virtual Machine Platform result `Skipped` followed by a BIOS
Virtualization result `Failed`. -/
theorem ProcessVirtualizationResults_merge_witness :
    ProcessVirtualizationResults
        [CreateSkippedResult EnvironmentComponent.kVirtualMachinePlatform
            "Virtual Machine Platform is already enabled",
          CreateFailureResult EnvironmentComponent.kBIOSVirtualization
            "virtualization is disabled in BIOS" 9]
      = [⟨EnvironmentComponent.kVirtualMachinePlatform, InstallationStatus.kFailed,
            "Virtual Machine Platform is enabled in Windows, but " ++
              "virtualization is disabled in BIOS", 9⟩,
          CreateFailureResult EnvironmentComponent.kBIOSVirtualization
            "virtualization is disabled in BIOS" 9] :=
  (ProcessVirtualizationResults_merge []
    [CreateFailureResult EnvironmentComponent.kBIOSVirtualization
      "virtualization is disabled in BIOS" 9]
    [CreateSkippedResult EnvironmentComponent.kVirtualMachinePlatform
      "Virtual Machine Platform is already enabled"]
    []
    (CreateSkippedResult EnvironmentComponent.kVirtualMachinePlatform
      "Virtual Machine Platform is already enabled")
    (CreateFailureResult EnvironmentComponent.kBIOSVirtualization
      "virtualization is disabled in BIOS" 9)
    rfl (by decide) rfl (by simp) rfl rfl).1 rfl

end EnvironmentInstaller

namespace CommandExecutor

/-- C10: if the stop flag is set when `ExecutePowerShell` or `ExecuteWSL` is called, the call
returns `(-1, "Operation interrupted by stop request")` and leaves the state as it is; in
particular the log gains no event, so `ExecCommandEx` is not invoked. -/
theorem stop_flag_set_returns_sentinel (sys : Sys W) (ctx : ExecutionContext) (command : String)
    (timeout_seconds : Int) (s : State W) (hstop : s.stop_requested_ = true) :
    ExecutePowerShell sys command timeout_seconds s
      = ((-1, "Operation interrupted by stop request"), s) ∧
    ExecuteWSL sys ctx command timeout_seconds s
      = ((-1, "Operation interrupted by stop request"), s) ∧
    (ExecutePowerShell sys command timeout_seconds s).2.log = s.log ∧
    (ExecuteWSL sys ctx command timeout_seconds s).2.log = s.log := by
  have h1 : ExecutePowerShell sys command timeout_seconds s
      = ((-1, "Operation interrupted by stop request"), s) := by
    simp [ExecutePowerShell, State.IsStopRequested, hstop]
  have h2 : ExecuteWSL sys ctx command timeout_seconds s
      = ((-1, "Operation interrupted by stop request"), s) := by
    simp [ExecuteWSL, State.IsStopRequested, hstop]
  exact ⟨h1, h2, by rw [h1], by rw [h2]⟩

/-- Witness for C10: the demonstration machine with the stop flag set. -/
theorem stop_flag_set_returns_sentinel_witness :
    Demo.freshStopped.stop_requested_ = true ∧
    ExecutePowerShell Demo.sys "wsl --status" 300 Demo.freshStopped
      = ((-1, "Operation interrupted by stop request"), Demo.freshStopped) ∧
    ExecuteWSL Demo.sys Demo.ctx "ninja --version" 300 Demo.freshStopped
      = ((-1, "Operation interrupted by stop request"), Demo.freshStopped) :=
  ⟨rfl,
    (stop_flag_set_returns_sentinel Demo.sys Demo.ctx "wsl --status" 300 Demo.freshStopped rfl).1,
    (stop_flag_set_returns_sentinel Demo.sys Demo.ctx "ninja --version" 300 Demo.freshStopped
      rfl).2.1⟩

end CommandExecutor

theorem OnlyRuns.refl (cmds : List String) (s : State W) : OnlyRuns cmds s s :=
  ⟨[], by simp, by simp⟩

theorem OnlyRuns.trans {cmds : List String} {s1 s2 s3 : State W} (h12 : OnlyRuns cmds s1 s2)
    (h23 : OnlyRuns cmds s2 s3) : OnlyRuns cmds s1 s3 := by
  obtain ⟨e1, h1, k1⟩ := h12
  obtain ⟨e2, h2, k2⟩ := h23
  refine ⟨e1 ++ e2, by rw [h2, h1, List.append_assoc], ?_⟩
  intro e he
  rcases List.mem_append.1 he with he | he
  · exact k1 e he
  · exact k2 e he

theorem CommandExecutor.ExecutePowerShell_state (sys : Sys W) (command : String)
    (timeout_seconds : Int) (s : State W) :
    (CommandExecutor.ExecutePowerShell sys command timeout_seconds s).2
      = if s.IsStopRequested = true then s
        else (utils.ExecCommandEx sys ("powershell.exe -Command \"" ++ command ++ "\"")
          timeout_seconds false true s).2 := by
  unfold CommandExecutor.ExecutePowerShell
  by_cases hs : s.IsStopRequested = true
  · rw [if_pos hs, if_pos hs]
  · rw [if_neg hs, if_neg hs]
    simp only
    split <;> rfl

theorem CommandExecutor.ExecuteWSL_state (sys : Sys W) (ctx : ExecutionContext)
    (command : String) (timeout_seconds : Int) (s : State W) :
    (CommandExecutor.ExecuteWSL sys ctx command timeout_seconds s).2
      = if s.IsStopRequested = true then s
        else (utils.ExecCommandEx sys (utils.BuildWSLCommand ctx.ubuntu_version_ command)
          timeout_seconds false true s).2 := by
  unfold CommandExecutor.ExecuteWSL
  by_cases hs : s.IsStopRequested = true
  · rw [if_pos hs, if_pos hs]
  · rw [if_neg hs, if_neg hs]
    simp only
    split <;> rfl

theorem CommandExecutor.ExecutePowerShell_onlyRuns (sys : Sys W) (cmds : List String)
    (command : String) (timeout_seconds : Int) (s : State W)
    (h : ("powershell.exe -Command \"" ++ command ++ "\"") ∈ cmds) :
    OnlyRuns cmds s (CommandExecutor.ExecutePowerShell sys command timeout_seconds s).2 := by
  rw [CommandExecutor.ExecutePowerShell_state]
  by_cases hs : s.IsStopRequested = true
  · rw [if_pos hs]
    exact OnlyRuns.refl _ _
  · rw [if_neg hs]
    refine ⟨[Event.ExecCommandEx ("powershell.exe -Command \"" ++ command ++ "\"")
      timeout_seconds], rfl, ?_⟩
    intro e he
    exact ⟨_, h, timeout_seconds, by simpa using he⟩

theorem CommandExecutor.ExecuteWSL_onlyRuns (sys : Sys W) (ctx : ExecutionContext)
    (cmds : List String) (command : String) (timeout_seconds : Int) (s : State W)
    (h : utils.BuildWSLCommand ctx.ubuntu_version_ command ∈ cmds) :
    OnlyRuns cmds s (CommandExecutor.ExecuteWSL sys ctx command timeout_seconds s).2 := by
  rw [CommandExecutor.ExecuteWSL_state]
  by_cases hs : s.IsStopRequested = true
  · rw [if_pos hs]
    exact OnlyRuns.refl _ _
  · rw [if_neg hs]
    refine ⟨[Event.ExecCommandEx (utils.BuildWSLCommand ctx.ubuntu_version_ command)
      timeout_seconds], rfl, ?_⟩
    intro e he
    exact ⟨_, h, timeout_seconds, by simpa using he⟩

theorem CommandExecutor.IsWindowsFeatureEnabled_onlyRuns (sys : Sys W) (cmds : List String)
    (feature_name : String) (s : State W)
    (h : ("powershell.exe -Command \"" ++ ("Get-WindowsOptionalFeature -Online -FeatureName " ++
      feature_name ++ " | Select-Object -ExpandProperty State") ++ "\"") ∈ cmds) :
    OnlyRuns cmds s (CommandExecutor.IsWindowsFeatureEnabled sys feature_name s).2 :=
  CommandExecutor.ExecutePowerShell_onlyRuns sys cmds _ 300 s h

theorem WSLFeatureManager.skipsWhenSatisfied_wslFeature (sys : Sys W) (ctx : ExecutionContext) :
    (WSLFeatureManager.component sys).SkipsWhenSatisfied ctx := by
  refine ⟨?_, ?_, ?_, ?_⟩
  · intro s h
    simp only [WSLFeatureManager.component, WSLFeatureManager.Check, WSLFeatureManager.Install,
      WSLFeatureManager.InstallRun] at h ⊢
    split_ifs at h ⊢ <;> simp_all [CreateSkippedResult, CreateFailureResult]
  · intro s h
    simp only [WSLFeatureManager.component, WSLFeatureManager.Check, WSLFeatureManager.Install,
      WSLFeatureManager.InstallRun, WSLFeatureManager.InstallVerify] at h ⊢
    split_ifs at h ⊢ <;>
      simp_all [CreateSkippedResult, CreateFailureResult, CreateSuccessResult]
  · intro s s' h h'
    simp only [WSLFeatureManager.component, WSLFeatureManager.Check] at h h' ⊢
    split_ifs at h h' ⊢ <;> simp_all [CreateSkippedResult, CreateFailureResult]
  · intro s
    exact CommandExecutor.IsWindowsFeatureEnabled_onlyRuns sys _ _ s
      (by simp [detectionCommands])

theorem VirtualMachinePlatformManager.skipsWhenSatisfied_vmPlatform (sys : Sys W) (ctx : ExecutionContext) :
    (VirtualMachinePlatformManager.component sys).SkipsWhenSatisfied ctx := by
  refine ⟨?_, ?_, ?_, ?_⟩
  · intro s h
    simp only [VirtualMachinePlatformManager.component, VirtualMachinePlatformManager.Check,
      VirtualMachinePlatformManager.Install, VirtualMachinePlatformManager.InstallRun] at h ⊢
    split_ifs at h ⊢ <;> simp_all [CreateSkippedResult, CreateFailureResult]
  · intro s h
    simp only [VirtualMachinePlatformManager.component, VirtualMachinePlatformManager.Check,
      VirtualMachinePlatformManager.Install, VirtualMachinePlatformManager.InstallRun,
      VirtualMachinePlatformManager.InstallVerify] at h ⊢
    split_ifs at h ⊢ <;>
      simp_all [CreateSkippedResult, CreateFailureResult, CreateSuccessResult]
  · intro s s' h h'
    simp only [VirtualMachinePlatformManager.component, VirtualMachinePlatformManager.Check]
      at h h' ⊢
    split_ifs at h h' ⊢ <;> simp_all [CreateSkippedResult, CreateFailureResult]
  · intro s
    exact CommandExecutor.IsWindowsFeatureEnabled_onlyRuns sys _ _ s
      (by simp [detectionCommands])

theorem WSLPackageInstaller.skipsWhenSatisfied_wslPackage (sys : Sys W) (ctx : ExecutionContext) :
    (WSLPackageInstaller.component sys ctx).SkipsWhenSatisfied ctx := by
  refine ⟨?_, ?_, ?_, ?_⟩
  · intro s h
    simp only [WSLPackageInstaller.component, WSLPackageInstaller.Check,
      WSLPackageInstaller.Install] at h ⊢
    split_ifs at h ⊢ <;> simp_all [CreateSkippedResult, CreateFailureResult]
  · intro s h
    simp only [WSLPackageInstaller.component, WSLPackageInstaller.Check,
      WSLPackageInstaller.Install] at h ⊢
    split_ifs at h ⊢ <;>
      simp_all [CreateSkippedResult, CreateFailureResult, CreateSuccessResult]
  · intro s s' h h'
    simp only [WSLPackageInstaller.component, WSLPackageInstaller.Check] at h h' ⊢
    split_ifs at h h' ⊢ <;> simp_all [CreateSkippedResult, CreateFailureResult]
  · intro s
    exact OnlyRuns.refl _ _

theorem WSL2KernelInstaller.skipsWhenSatisfied_wslKernel (sys : Sys W) (ctx : ExecutionContext) :
    (WSL2KernelInstaller.component sys ctx).SkipsWhenSatisfied ctx := by
  refine ⟨?_, ?_, ?_, ?_⟩
  · intro s h
    simp only [WSL2KernelInstaller.component, WSL2KernelInstaller.Check,
      WSL2KernelInstaller.Install] at h ⊢
    split_ifs at h ⊢ <;> simp_all [CreateSkippedResult, CreateFailureResult]
  · intro s h
    simp only [WSL2KernelInstaller.component, WSL2KernelInstaller.Check,
      WSL2KernelInstaller.Install] at h ⊢
    split_ifs at h ⊢ <;>
      simp_all [CreateSkippedResult, CreateFailureResult, CreateSuccessResult]
  · intro s s' h h'
    simp only [WSL2KernelInstaller.component, WSL2KernelInstaller.Check] at h h' ⊢
    split_ifs at h h' ⊢ <;> simp_all [CreateSkippedResult, CreateFailureResult]
  · intro s
    exact OnlyRuns.refl _ _

theorem WSL2DefaultVersionManager.IsWSL2DefaultVersion_onlyRuns (sys : Sys W)
    (ctx : ExecutionContext) (s : State W) :
    OnlyRuns (detectionCommands ctx) s (WSL2DefaultVersionManager.IsWSL2DefaultVersion sys s).2 := by
  have h1 := fun s0 => CommandExecutor.ExecutePowerShell_onlyRuns sys (detectionCommands ctx)
    "wsl --status" 300 s0 (by simp [detectionCommands])
  have h2 := fun s0 => CommandExecutor.ExecutePowerShell_onlyRuns sys (detectionCommands ctx)
    "wsl --list --verbose" 300 s0 (by simp [detectionCommands])
  unfold WSL2DefaultVersionManager.IsWSL2DefaultVersion
  simp only
  split_ifs
  · exact OnlyRuns.refl _ _
  · exact h1 s
  · exact (h1 s).trans (h2 _)
  · exact (h1 s).trans (h2 _)

theorem WSL2DefaultVersionManager.skipsWhenSatisfied_defaultVersion (sys : Sys W) (ctx : ExecutionContext) :
    (WSL2DefaultVersionManager.component sys).SkipsWhenSatisfied ctx := by
  refine ⟨?_, ?_, ?_, ?_⟩
  · intro s h
    simp only [WSL2DefaultVersionManager.component, WSL2DefaultVersionManager.Check,
      WSL2DefaultVersionManager.Install] at h ⊢
    split_ifs at h ⊢ <;> simp_all [CreateSkippedResult, CreateFailureResult]
  · intro s h
    simp only [WSL2DefaultVersionManager.component, WSL2DefaultVersionManager.Check,
      WSL2DefaultVersionManager.Install] at h ⊢
    split_ifs at h ⊢ <;>
      simp_all [CreateSkippedResult, CreateFailureResult, CreateSuccessResult]
  · intro s s' h h'
    simp only [WSL2DefaultVersionManager.component, WSL2DefaultVersionManager.Check] at h h' ⊢
    split_ifs at h h' ⊢ <;> simp_all [CreateSkippedResult, CreateFailureResult]
  · intro s
    simp only [WSL2DefaultVersionManager.component, WSL2DefaultVersionManager.Check]
    split_ifs <;>
      first
      | exact OnlyRuns.refl _ _
      | exact WSL2DefaultVersionManager.IsWSL2DefaultVersion_onlyRuns sys ctx s

theorem UbuntuInstaller.IsUbuntuInstalled_onlyRuns (sys : Sys W) (ctx : ExecutionContext)
    (s : State W) :
    OnlyRuns (detectionCommands ctx) s (UbuntuInstaller.IsUbuntuInstalled sys ctx s).2 := by
  unfold UbuntuInstaller.IsUbuntuInstalled
  simp only
  split_ifs
  · exact OnlyRuns.refl _ _
  · exact CommandExecutor.ExecutePowerShell_onlyRuns sys (detectionCommands ctx)
      "wsl --list --quiet" 300 s (by simp [detectionCommands])

theorem UbuntuInstaller.skipsWhenSatisfied_ubuntu (sys : Sys W) (ctx : ExecutionContext) :
    (UbuntuInstaller.component sys ctx).SkipsWhenSatisfied ctx := by
  refine ⟨?_, ?_, ?_, ?_⟩
  · intro s h
    simp only [UbuntuInstaller.component, UbuntuInstaller.Check, UbuntuInstaller.Install] at h ⊢
    split_ifs at h ⊢ <;> simp_all [CreateSkippedResult, CreateFailureResult]
  · intro s h
    simp only [UbuntuInstaller.component, UbuntuInstaller.Check, UbuntuInstaller.Install] at h ⊢
    split_ifs at h ⊢ <;>
      simp_all [CreateSkippedResult, CreateFailureResult, CreateSuccessResult]
  · intro s s' h h'
    simp only [UbuntuInstaller.component, UbuntuInstaller.Check] at h h' ⊢
    split_ifs at h h' ⊢ <;> simp_all [CreateSkippedResult, CreateFailureResult]
  · intro s
    exact UbuntuInstaller.IsUbuntuInstalled_onlyRuns sys ctx s

theorem CudaToolkitInstaller.runSteps_some_failed (sys : Sys W) (ctx : ExecutionContext) :
    ∀ (l : List (String × String × Int × Bool)) (s : State W) (r : ComponentResult),
      (CudaToolkitInstaller.runSteps sys ctx l s).1 = some r →
      r.status = InstallationStatus.kFailed := by
  intro l
  induction l with
  | nil => intro s r h; simp [CudaToolkitInstaller.runSteps] at h
  | cons step rest ih =>
    intro s r h
    obtain ⟨step_name, cmd, timeout, use_realtime⟩ := step
    simp only [CudaToolkitInstaller.runSteps] at h
    split_ifs at h <;>
      first
      | exact ih _ r h
      | (simp only [Option.some.injEq] at h
         rw [← h]
         rfl)

theorem CudaToolkitInstaller.IsCudaToolkitInstalled_onlyRuns (sys : Sys W)
    (ctx : ExecutionContext) (s : State W) :
    OnlyRuns (detectionCommands ctx) s
      (CudaToolkitInstaller.IsCudaToolkitInstalled sys ctx s).2 := by
  have h1 := fun s0 => CommandExecutor.ExecuteWSL_onlyRuns sys ctx (detectionCommands ctx)
    ("source ~/.bashrc && nvcc --version 2>/dev/null || " ++
      "/usr/local/cuda-12.8/bin/nvcc --version 2>/dev/null || echo 'not " ++ "found'") 300 s0
    (by simp [detectionCommands])
  have h2 := fun s0 => CommandExecutor.ExecuteWSL_onlyRuns sys ctx (detectionCommands ctx)
    "dpkg -l | grep cuda-toolkit-12" 300 s0 (by simp [detectionCommands])
  have h3 := fun s0 => CommandExecutor.ExecuteWSL_onlyRuns sys ctx (detectionCommands ctx)
    ("ls -la /usr/local/cuda-12.8/bin/nvcc 2>/dev/null || ls -la " ++
      "/usr/local/cuda/bin/nvcc 2>/dev/null || echo 'not found'") 300 s0
    (by simp [detectionCommands])
  unfold CudaToolkitInstaller.IsCudaToolkitInstalled
  simp only
  split_ifs
  · exact h1 s
  · exact (h1 s).trans (h2 _)
  · exact ((h1 s).trans (h2 _)).trans (h3 _)

theorem CudaToolkitInstaller.skipsWhenSatisfied_cuda (sys : Sys W) (ctx : ExecutionContext) :
    (CudaToolkitInstaller.component sys ctx).SkipsWhenSatisfied ctx := by
  refine ⟨?_, ?_, ?_, ?_⟩
  · intro s h
    simp only [CudaToolkitInstaller.component, CudaToolkitInstaller.Check,
      CudaToolkitInstaller.Install] at h ⊢
    split_ifs at h ⊢ <;> simp_all [CreateSkippedResult, CreateFailureResult]
  · intro s h
    simp only [CudaToolkitInstaller.component, CudaToolkitInstaller.Check,
      CudaToolkitInstaller.Install] at h ⊢
    by_cases hp : (CudaToolkitInstaller.IsCudaToolkitInstalled sys ctx s).1 = true
    · simp [hp, CreateSkippedResult]
    · exfalso
      simp only [Bool.not_eq_true] at hp
      simp only [hp, Bool.false_eq_true, if_false] at h
      cases hst : (CudaToolkitInstaller.runSteps sys ctx (CudaToolkitInstaller.commands ctx)
          (CudaToolkitInstaller.IsCudaToolkitInstalled sys ctx s).2).1 with
      | some r =>
        rw [hst] at h
        simp only at h
        rw [CudaToolkitInstaller.runSteps_some_failed sys ctx _ _ r hst] at h
        exact InstallationStatus.noConfusion h
      | none =>
        rw [hst] at h
        simp only at h
        split_ifs at h <;> simp [CreateSuccessResult, CreateFailureResult] at h
  · intro s s' h h'
    simp only [CudaToolkitInstaller.component, CudaToolkitInstaller.Check] at h h' ⊢
    split_ifs at h h' ⊢ <;> simp_all [CreateSkippedResult, CreateFailureResult]
  · intro s
    exact CudaToolkitInstaller.IsCudaToolkitInstalled_onlyRuns sys ctx s

theorem CargoInstaller.skipsWhenSatisfied_cargo (sys : Sys W) (ctx : ExecutionContext) :
    (CargoInstaller.component sys ctx).SkipsWhenSatisfied ctx := by
  refine ⟨?_, ?_, ?_, ?_⟩
  · intro s h
    simp only [CargoInstaller.component, CargoInstaller.Check, CargoInstaller.Install] at h ⊢
    split_ifs at h ⊢ <;> simp_all [CreateSkippedResult, CreateFailureResult]
  · intro s h
    simp only [CargoInstaller.component, CargoInstaller.Check, CargoInstaller.Install] at h ⊢
    split_ifs at h ⊢ <;>
      simp_all [CreateSkippedResult, CreateFailureResult, CreateSuccessResult]
  · intro s s' h h'
    simp only [CargoInstaller.component, CargoInstaller.Check] at h h' ⊢
    split_ifs at h h' ⊢ <;> simp_all [CreateSkippedResult, CreateFailureResult]
  · intro s
    exact CommandExecutor.ExecuteWSL_onlyRuns sys ctx (detectionCommands ctx) _ 300 s
      (by simp [detectionCommands])

theorem NinjaInstaller.skipsWhenSatisfied_ninja (sys : Sys W) (ctx : ExecutionContext) :
    (NinjaInstaller.component sys ctx).SkipsWhenSatisfied ctx := by
  refine ⟨?_, ?_, ?_, ?_⟩
  · intro s h
    simp only [NinjaInstaller.component, NinjaInstaller.Check, NinjaInstaller.Install] at h ⊢
    split_ifs at h ⊢ <;> simp_all [CreateSkippedResult, CreateFailureResult]
  · intro s h
    simp only [NinjaInstaller.component, NinjaInstaller.Check, NinjaInstaller.Install] at h ⊢
    split_ifs at h ⊢ <;>
      simp_all [CreateSkippedResult, CreateFailureResult, CreateSuccessResult]
  · intro s s' h h'
    simp only [NinjaInstaller.component, NinjaInstaller.Check] at h h' ⊢
    split_ifs at h h' ⊢ <;> simp_all [CreateSkippedResult, CreateFailureResult]
  · intro s
    exact CommandExecutor.ExecuteWSL_onlyRuns sys ctx (detectionCommands ctx) _ 300 s
      (by simp [detectionCommands])

/-- Each of the nine installable components skips when satisfied. -/
theorem installableComponents_skipWhenSatisfied (sys : Sys W) (ctx : ExecutionContext)
    (c : Component W) (hc : c ∈ installableComponents sys ctx) : c.SkipsWhenSatisfied ctx := by
  simp only [installableComponents, List.mem_cons, List.mem_singleton, List.not_mem_nil,
    or_false] at hc
  rcases hc with h | h | h | h | h | h | h | h | h <;> subst h
  · exact WSLFeatureManager.skipsWhenSatisfied_wslFeature sys ctx
  · exact VirtualMachinePlatformManager.skipsWhenSatisfied_vmPlatform sys ctx
  · exact WSLPackageInstaller.skipsWhenSatisfied_wslPackage sys ctx
  · exact WSL2KernelInstaller.skipsWhenSatisfied_wslKernel sys ctx
  · exact WSL2DefaultVersionManager.skipsWhenSatisfied_defaultVersion sys ctx
  · exact UbuntuInstaller.skipsWhenSatisfied_ubuntu sys ctx
  · exact CudaToolkitInstaller.skipsWhenSatisfied_cuda sys ctx
  · exact CargoInstaller.skipsWhenSatisfied_cargo sys ctx
  · exact NinjaInstaller.skipsWhenSatisfied_ninja sys ctx

/-- C7: for each of the nine installable components implemented in the sources and every
state `s`: if `Check()` returns `Skipped`, and the probes answer the same for the call that
follows (a check in the state the first call left would again report `Skipped`), then the
immediately following `Install()` returns the same result (status `Skipped`, same message),
does exactly what a `Check()` does from that state, and adds to the log only runs of
detection commands: no download, no install command, no feature toggle, no file deletion. -/
theorem Check_skipped_then_Install_skipped (sys : Sys W) (ctx : ExecutionContext)
    (c : Component W) (hc : c ∈ installableComponents sys ctx) (s : State W)
    (hcheck : (c.Check s).1.status = InstallationStatus.kSkipped)
    (hsame : (c.Check (c.Check s).2).1.status = InstallationStatus.kSkipped) :
    (c.Install (c.Check s).2).1 = (c.Check s).1 ∧
    (c.Install (c.Check s).2).1.status = InstallationStatus.kSkipped ∧
    (c.Install (c.Check s).2).1.message = (c.Check s).1.message ∧
    c.Install (c.Check s).2 = c.Check (c.Check s).2 ∧
    ∃ events : List Event, (c.Install (c.Check s).2).2.log = (c.Check s).2.log ++ events ∧
      ∀ e ∈ events, ∃ cmd ∈ detectionCommands ctx, ∃ timeout : Int,
        e = Event.ExecCommandEx cmd timeout := by
  have hw := installableComponents_skipWhenSatisfied sys ctx c hc
  have hinst := hw.install_of_check _ hsame
  have hres : (c.Install (c.Check s).2).1 = (c.Check s).1 := by
    rw [hinst]
    exact hw.skipped_unique _ _ hsame hcheck
  refine ⟨hres, by rw [hres]; exact hcheck, by rw [hres], hinst, ?_⟩
  rw [hinst]
  exact hw.check_onlyRuns _

/-- Witness for C7: the WSL2 Feature component on the demonstration machine with the feature
enabled. -/
theorem Check_skipped_then_Install_skipped_witness :
    WSLFeatureManager.component Demo.sys ∈ installableComponents Demo.sys Demo.ctx ∧
    ((WSLFeatureManager.component Demo.sys).Check Demo.ready).1.status
      = InstallationStatus.kSkipped ∧
    ((WSLFeatureManager.component Demo.sys).Install
        ((WSLFeatureManager.component Demo.sys).Check Demo.ready).2).1
      = CreateSkippedResult EnvironmentComponent.kWSL2 "WSL Windows feature is already enabled" :=
  have hc : WSLFeatureManager.component Demo.sys ∈ installableComponents Demo.sys Demo.ctx :=
    List.mem_cons_self _ _
  have h1 : ((WSLFeatureManager.component Demo.sys).Check Demo.ready).1.status
      = InstallationStatus.kSkipped := by decide
  ⟨hc, h1,
    (Check_skipped_then_Install_skipped Demo.sys Demo.ctx _ hc Demo.ready h1 (by decide)).1⟩

/-- Counterexample to C8 as stated: on the fresh demonstration machine (no WSL package)
`WSL2DefaultVersionManager::Install` returns `Failed`, changes nothing, and returns `Failed`
again when called a second time. -/
theorem Install_twice_second_not_skipped :
    WSL2DefaultVersionManager.component Demo.sys ∈ installableComponents Demo.sys Demo.ctx ∧
    (WSL2DefaultVersionManager.Install Demo.sys Demo.fresh).2 = Demo.fresh ∧
    (WSL2DefaultVersionManager.Install Demo.sys
        (WSL2DefaultVersionManager.Install Demo.sys Demo.fresh).2).1
      = CreateFailureResult EnvironmentComponent.kWSL2DefaultVersion
          "Cannot set WSL2 default version: WSL package is not installed" 4 ∧
    (WSL2DefaultVersionManager.Install Demo.sys
        (WSL2DefaultVersionManager.Install Demo.sys Demo.fresh).2).1.status
      ≠ InstallationStatus.kSkipped :=
  ⟨by simp [installableComponents], rfl, by decide, by decide⟩

/-- C8 (amended): for each of the nine installable components implemented in the sources and
every state, when `Install()` is called twice in a row with no intervening state change: if
the detection probe of the component passes in the state the first call left (a check there
would report `Skipped`), the second call returns `Skipped`, does exactly what a `Check()` does
from that state, and adds to the log only runs of detection commands; and if the probe does
not pass there (a check there would not report `Skipped`), as after a first call that
returned `Failed`, the second call does not return `Skipped`. -/
theorem Install_twice_second_skipped (sys : Sys W) (ctx : ExecutionContext)
    (c : Component W) (hc : c ∈ installableComponents sys ctx) (s : State W) :
    ((c.Check (c.Install s).2).1.status = InstallationStatus.kSkipped →
      (c.Install (c.Install s).2).1.status = InstallationStatus.kSkipped ∧
      c.Install (c.Install s).2 = c.Check (c.Install s).2 ∧
      ∃ events : List Event, (c.Install (c.Install s).2).2.log = (c.Install s).2.log ++ events ∧
        ∀ e ∈ events, ∃ cmd ∈ detectionCommands ctx, ∃ timeout : Int,
          e = Event.ExecCommandEx cmd timeout) ∧
    ((c.Check (c.Install s).2).1.status ≠ InstallationStatus.kSkipped →
      (c.Install (c.Install s).2).1.status ≠ InstallationStatus.kSkipped) := by
  have hw := installableComponents_skipWhenSatisfied sys ctx c hc
  refine ⟨fun hprobe => ?_, fun hprobe hskip => hprobe (hw.check_of_install _ hskip)⟩
  have hinst := hw.install_of_check _ hprobe
  refine ⟨by rw [hinst]; exact hprobe, hinst, ?_⟩
  rw [hinst]
  exact hw.check_onlyRuns _

/-- Witness for C8 (amended): on the prepared demonstration machine the first install of the
WSL2 Feature enables the feature and the second one is skipped; on the machine on which
`dism.exe` is denied the first install fails and the second one is not skipped. -/
theorem Install_twice_second_skipped_witness :
    WSLFeatureManager.component Demo.sys ∈ installableComponents Demo.sys Demo.ctx ∧
    ((WSLFeatureManager.component Demo.sys).Install Demo.prepared).1.status
      = InstallationStatus.kSuccess ∧
    ((WSLFeatureManager.component Demo.sys).Install
        ((WSLFeatureManager.component Demo.sys).Install Demo.prepared).2).1.status
      = InstallationStatus.kSkipped ∧
    ((WSLFeatureManager.component Demo.sys).Install Demo.lockedDown).1.status
      = InstallationStatus.kFailed ∧
    ((WSLFeatureManager.component Demo.sys).Install
        ((WSLFeatureManager.component Demo.sys).Install Demo.lockedDown).2).1.status
      ≠ InstallationStatus.kSkipped :=
  have hc : WSLFeatureManager.component Demo.sys ∈ installableComponents Demo.sys Demo.ctx :=
    List.mem_cons_self _ _
  ⟨hc, by decide,
    ((Install_twice_second_skipped Demo.sys Demo.ctx _ hc Demo.prepared).1 (by decide)).1,
    by decide,
    (Install_twice_second_skipped Demo.sys Demo.ctx _ hc Demo.lockedDown).2 (by decide)⟩

/-- C9, the code at the failing input: on the demonstration machine without a WSL2 kernel, on
which `msiexec` exits with 0 without putting a kernel where the installer looks,
`WSL2KernelInstaller::Install` downloads, runs `msiexec`, deletes the download and returns
`Success`; the detection probe is false in the state it leaves, and a `Check()` there returns
`Failed` with error code 12. -/
theorem WSL2KernelInstaller_success_without_reprobe :
    WSL2KernelInstaller.IsWSL2KernelInstalled Demo.sys Demo.kernelMissing.world = false ∧
    (WSL2KernelInstaller.Install Demo.sys Demo.ctx Demo.kernelMissing).1
      = CreateSuccessResult EnvironmentComponent.kWSL2Kernel "WSL2 kernel installed successfully" ∧
    (WSL2KernelInstaller.Install Demo.sys Demo.ctx Demo.kernelMissing).2.log
      = [Event.ExecCommandEx
          ("powershell.exe -Command \"Invoke-WebRequest -Uri \"https://example.invalid/package.msi\"" ++
            " -OutFile \"C:\\Temp\\wsl_update_x64.msi\"\"") 600,
         Event.ExecCommandEx
          ("powershell.exe -Command \"msiexec /i \"C:\\Temp\\wsl_update_x64.msi\"" ++
            " /quiet /norestart\"") 300,
         Event.DeleteFileA "C:\\Temp\\wsl_update_x64.msi"] ∧
    WSL2KernelInstaller.IsWSL2KernelInstalled Demo.sys
      (WSL2KernelInstaller.Install Demo.sys Demo.ctx Demo.kernelMissing).2.world = false ∧
    (WSL2KernelInstaller.Check Demo.sys
        (WSL2KernelInstaller.Install Demo.sys Demo.ctx Demo.kernelMissing).2).1
      = CreateFailureResult EnvironmentComponent.kWSL2Kernel "WSL2 kernel is not installed" 12 :=
  ⟨by decide, by decide, by decide, by decide, by decide⟩

namespace ComponentFactory

/-- C15 (counterexample): the three phase lists in the order `InstallEnvironment` walks them
are not the sequence `GetAllComponents()`. -/
theorem phases_differ_from_GetAllComponents :
    GetSystemComponents ++ GetWindowsFeatureComponents ++ GetSoftwareComponents ≠
      GetAllComponents := by
  decide

/-- C15 (amended): `GetSystemComponents() ++ GetWindowsFeatureComponents() ++
GetSoftwareComponents()` is a permutation of `GetAllComponents()` without repetition, and the
two sequences are equal once BIOS Virtualization is left out of both; they differ in the place
of BIOS Virtualization only, which is at position 6 of `GetAllComponents()` (before WSL2 Kernel
and WSL2 Default Version) and at position 8 of the concatenation (after them). -/
theorem phases_perm_GetAllComponents :
    (GetSystemComponents ++ GetWindowsFeatureComponents ++ GetSoftwareComponents).Perm
        GetAllComponents ∧
      (GetSystemComponents ++ GetWindowsFeatureComponents ++ GetSoftwareComponents).Nodup ∧
      (GetSystemComponents ++ GetWindowsFeatureComponents ++ GetSoftwareComponents).filter
          (fun t => decide (t ≠ EnvironmentComponent.kBIOSVirtualization)) =
        GetAllComponents.filter (fun t => decide (t ≠ EnvironmentComponent.kBIOSVirtualization)) ∧
      GetAllComponents.indexOf EnvironmentComponent.kBIOSVirtualization = 6 ∧
      (GetSystemComponents ++ GetWindowsFeatureComponents ++ GetSoftwareComponents).indexOf
        EnvironmentComponent.kBIOSVirtualization = 8 := by
  decide

end ComponentFactory

/-- C19: on every machine, `WSLPackageInstaller::IsWSLPackageInstalled` is true exactly when
all three signals are (`wsl.exe` at one of its two paths, the `Lxss` registry key, the
`wslservice` service reachable through the service manager), and
`WSL2DefaultVersionManager::IsWSLPackageInstalled` exactly when the first two are; so the
former implies the latter, and not conversely: on the demonstration machine without the
service the latter is true and the former false. -/
theorem IsWSLPackageInstalled_three_and_two_signals (sys : Sys W) (w : W) :
    (WSLPackageInstaller.IsWSLPackageInstalled sys w = true ↔
      ((sys.GetFileAttributesA "C:\\Windows\\System32\\wsl.exe" w = true ∨
          sys.GetFileAttributesA "C:\\Windows\\SysWOW64\\wsl.exe" w = true) ∧
        sys.RegOpenKeyExA "SOFTWARE\\Microsoft\\Windows\\CurrentVersion\\Lxss" w = true ∧
        (sys.OpenSCManager w = true ∧ sys.OpenService "wslservice" w = true))) ∧
    (WSL2DefaultVersionManager.IsWSLPackageInstalled sys w = true ↔
      ((sys.GetFileAttributesA "C:\\Windows\\System32\\wsl.exe" w = true ∨
          sys.GetFileAttributesA "C:\\Windows\\SysWOW64\\wsl.exe" w = true) ∧
        sys.RegOpenKeyExA "SOFTWARE\\Microsoft\\Windows\\CurrentVersion\\Lxss" w = true)) ∧
    (WSLPackageInstaller.IsWSLPackageInstalled sys w = true →
      WSL2DefaultVersionManager.IsWSLPackageInstalled sys w = true) ∧
    (WSL2DefaultVersionManager.IsWSLPackageInstalled Demo.sys Demo.noService.world = true ∧
      WSLPackageInstaller.IsWSLPackageInstalled Demo.sys Demo.noService.world = false) := by
  have h3 : WSLPackageInstaller.IsWSLPackageInstalled sys w = true ↔
      ((sys.GetFileAttributesA "C:\\Windows\\System32\\wsl.exe" w = true ∨
          sys.GetFileAttributesA "C:\\Windows\\SysWOW64\\wsl.exe" w = true) ∧
        sys.RegOpenKeyExA "SOFTWARE\\Microsoft\\Windows\\CurrentVersion\\Lxss" w = true ∧
        (sys.OpenSCManager w = true ∧ sys.OpenService "wslservice" w = true)) := by
    unfold WSLPackageInstaller.IsWSLPackageInstalled
    simp only [List.any_cons, List.any_nil, Bool.or_false]
    cases sys.GetFileAttributesA "C:\\Windows\\System32\\wsl.exe" w <;>
      cases sys.GetFileAttributesA "C:\\Windows\\SysWOW64\\wsl.exe" w <;>
      cases sys.RegOpenKeyExA "SOFTWARE\\Microsoft\\Windows\\CurrentVersion\\Lxss" w <;>
      cases sys.OpenSCManager w <;> cases sys.OpenService "wslservice" w <;> decide
  have h2 : WSL2DefaultVersionManager.IsWSLPackageInstalled sys w = true ↔
      ((sys.GetFileAttributesA "C:\\Windows\\System32\\wsl.exe" w = true ∨
          sys.GetFileAttributesA "C:\\Windows\\SysWOW64\\wsl.exe" w = true) ∧
        sys.RegOpenKeyExA "SOFTWARE\\Microsoft\\Windows\\CurrentVersion\\Lxss" w = true) := by
    unfold WSL2DefaultVersionManager.IsWSLPackageInstalled
    simp only [List.any_cons, List.any_nil, Bool.or_false]
    cases sys.GetFileAttributesA "C:\\Windows\\System32\\wsl.exe" w <;>
      cases sys.GetFileAttributesA "C:\\Windows\\SysWOW64\\wsl.exe" w <;>
      cases sys.RegOpenKeyExA "SOFTWARE\\Microsoft\\Windows\\CurrentVersion\\Lxss" w <;> decide
  refine ⟨h3, h2, fun h => h2.2 ⟨(h3.1 h).1, (h3.1 h).2.1⟩, by decide, by decide⟩

namespace CommandExecutor

/-- C20 (counterexample): on the machine where `dism.exe` is denied, the command prints
nothing on standard output and "Access is denied." on standard error, the stop flag is clear
before and after, and the merged output of `ExecutePowerShell` is "Access is denied." with
no newline before it. -/
theorem ExecutePowerShell_stderr_alone_without_separator :
    Demo.lockedDown.stop_requested_ = false ∧
    (utils.ExecCommandEx Demo.sys ("powershell.exe -Command \"" ++ "dism.exe /online" ++ "\"") 300
        false true Demo.lockedDown).2.stop_requested_ = false ∧
    Demo.sys.ConvertPowerShellOutputToUtf8
      (utils.ExecCommandEx Demo.sys ("powershell.exe -Command \"" ++ "dism.exe /online" ++ "\"") 300
        false true Demo.lockedDown).1.stdout_output = "" ∧
    Demo.sys.ConvertPowerShellOutputToUtf8
      (utils.ExecCommandEx Demo.sys ("powershell.exe -Command \"" ++ "dism.exe /online" ++ "\"") 300
        false true Demo.lockedDown).1.stderr_output = "Access is denied." ∧
    (ExecutePowerShell Demo.sys "dism.exe /online" 300 Demo.lockedDown).1.2 = "Access is denied." ∧
    (ExecutePowerShell Demo.sys "dism.exe /online" 300 Demo.lockedDown).1.2 ≠
      "" ++ "\n" ++ "Access is denied." := by
  decide

/-- C20 (amended): for the decoded standard-output text `s` and standard-error text `e` of a
command run by `ExecutePowerShell` or `ExecuteWSL` with the stop flag clear before and after
the run (for `ExecuteWSL` the decoded text falls back to the raw bytes where decoding gives
nothing), the call returns the exit code of the command, and the merged output is `s` when
`e` is empty, `e` alone when `s` is empty, and otherwise `s`, a newline, `e`. -/
theorem merged_output_separator_between_nonempty (sys : Sys W) (ctx : ExecutionContext)
    (command : String) (timeout_seconds : Int) (st : State W)
    (hclear : st.stop_requested_ = false) :
    (∀ (r : ExecResult × State W) (s e : String),
      r = utils.ExecCommandEx sys ("powershell.exe -Command \"" ++ command ++ "\"")
        timeout_seconds false true st →
      r.2.stop_requested_ = false →
      s = sys.ConvertPowerShellOutputToUtf8 r.1.stdout_output →
      e = sys.ConvertPowerShellOutputToUtf8 r.1.stderr_output →
      (ExecutePowerShell sys command timeout_seconds st).1 =
        (r.1.exit_code, if e.isEmpty then s else if s.isEmpty then e else s ++ "\n" ++ e)) ∧
    (∀ (r : ExecResult × State W) (s e : String),
      r = utils.ExecCommandEx sys (utils.BuildWSLCommand ctx.ubuntu_version_ command)
        timeout_seconds false true st →
      r.2.stop_requested_ = false →
      s = (if (sys.ConvertWslOutputToUtf8 r.1.stdout_output false).isEmpty ∧
            !r.1.stdout_output.isEmpty then r.1.stdout_output
          else sys.ConvertWslOutputToUtf8 r.1.stdout_output false) →
      e = (if (sys.ConvertWslOutputToUtf8 r.1.stderr_output true).isEmpty ∧
            !r.1.stderr_output.isEmpty then r.1.stderr_output
          else sys.ConvertWslOutputToUtf8 r.1.stderr_output true) →
      (ExecuteWSL sys ctx command timeout_seconds st).1 =
        (r.1.exit_code, if e.isEmpty then s else if s.isEmpty then e else s ++ "\n" ++ e)) := by
  constructor
  · intro r s e hr hafter hs he
    unfold ExecutePowerShell
    simp only [State.IsStopRequested, hclear, Bool.false_eq_true, if_false, ← hr, hafter, ← hs, ← he]
    cases hee : e.isEmpty <;> cases hse : s.isEmpty <;> simp
    rw [(String.isEmpty_iff s).1 hse]
    rfl
  · intro r s e hr hafter hs he
    unfold ExecuteWSL
    simp only [State.IsStopRequested, hclear, Bool.false_eq_true, if_false, ← hr, hafter, ← hs, ← he]
    cases hee : e.isEmpty <;> cases hse : s.isEmpty <;> simp
    rw [(String.isEmpty_iff s).1 hse]
    rfl

/-- Witness for C20 (amended): a denied `dism.exe` through `ExecutePowerShell`, and a missing
tool through `ExecuteWSL`, on the demonstration machine. -/
theorem merged_output_separator_between_nonempty_witness :
    Demo.lockedDown.stop_requested_ = false ∧
    (ExecutePowerShell Demo.sys "dism.exe /online" 300 Demo.lockedDown).1 =
      (5, "Access is denied.") ∧
    (ExecuteWSL Demo.sys Demo.ctx "ninja --version" 300 Demo.lockedDown).1 = (1, "") :=
  ⟨rfl,
    (merged_output_separator_between_nonempty Demo.sys Demo.ctx "dism.exe /online" 300
      Demo.lockedDown rfl).1 _ "" "Access is denied." rfl (by decide) (by decide) (by decide),
    (merged_output_separator_between_nonempty Demo.sys Demo.ctx "ninja --version" 300
      Demo.lockedDown rfl).2 _ "" "" rfl (by decide) (by decide) (by decide)⟩

end CommandExecutor

/-- C18: for each of the nine installable components (the first components of
`probedComponents` are exactly `installableComponents`), paired with the probe its `Check`
reports on, and in every state: the result of `Check` carries the
component's own kind; it is `Skipped` with error code 0 when the probe is satisfied and
`Failed` with a non-zero error code when it is not; so `Check` never returns `Success`,
`Warning` or `InProgress`. -/
theorem Check_skipped_or_failed_by_probe (sys : Sys W) (ctx : ExecutionContext)
    (c : Component W) (probe : State W → Bool) (s : State W)
    (hc : (c, probe) ∈ probedComponents sys ctx) :
    ((c.Check s).1.component = c.GetComponentType ∧
      (probe s = true →
        (c.Check s).1.status = InstallationStatus.kSkipped ∧ (c.Check s).1.error_code = 0) ∧
      (probe s = false →
        (c.Check s).1.status = InstallationStatus.kFailed ∧ (c.Check s).1.error_code ≠ 0) ∧
      (c.Check s).1.status ≠ InstallationStatus.kSuccess ∧
      (c.Check s).1.status ≠ InstallationStatus.kWarning ∧
      (c.Check s).1.status ≠ InstallationStatus.kInProgress) ∧
    (probedComponents sys ctx).map Prod.fst = installableComponents sys ctx := by
  refine ⟨?_, rfl⟩
  have key : ∀ (b : Bool) (t : EnvironmentComponent) (m1 m2 : String) (code : Int) (r : ComponentResult),
      code ≠ 0 → r = (if b then CreateSkippedResult t m1 else CreateFailureResult t m2 code) →
      r.component = t ∧
      (b = true → r.status = InstallationStatus.kSkipped ∧ r.error_code = 0) ∧
      (b = false → r.status = InstallationStatus.kFailed ∧ r.error_code ≠ 0) ∧
      r.status ≠ InstallationStatus.kSuccess ∧ r.status ≠ InstallationStatus.kWarning ∧
      r.status ≠ InstallationStatus.kInProgress := by
    intro b t m1 m2 code r hcode hr
    subst hr
    cases b <;> simp [CreateSkippedResult, CreateFailureResult, hcode]
  simp only [probedComponents, List.mem_cons, List.mem_singleton, Prod.mk.injEq,
    List.not_mem_nil, or_false] at hc
  rcases hc with h | h | h | h | h | h | h | h | h <;> obtain ⟨rfl, rfl⟩ := h
  · exact key _ _ _ _ 2 _ (by decide) rfl
  · exact key _ _ _ _ 3 _ (by decide) rfl
  · exact key _ _ _ _ 2 _ (by decide) rfl
  · exact key _ _ _ _ 12 _ (by decide) rfl
  · by_cases hp : WSL2DefaultVersionManager.IsWSLPackageInstalled sys s.world = true
    · have hck : ((WSL2DefaultVersionManager.component sys).Check s).1 =
          (if (WSL2DefaultVersionManager.IsWSL2DefaultVersion sys s).1 then
            CreateSkippedResult WSL2DefaultVersionManager.GetComponentType
              "WSL2 is already the default version"
          else CreateFailureResult WSL2DefaultVersionManager.GetComponentType
            "WSL2 is not the default version" 4) := by
        show (WSL2DefaultVersionManager.Check sys s).1 = _
        simp [WSL2DefaultVersionManager.Check, hp]
      simp only [hp, Bool.true_and]
      exact key _ _ _ _ 4 _ (by decide) hck
    · simp only [Bool.not_eq_true] at hp
      have hck : ((WSL2DefaultVersionManager.component sys).Check s).1 =
          CreateFailureResult WSL2DefaultVersionManager.GetComponentType
            "Cannot check WSL2 default version: WSL package is not installed" 4 := by
        show (WSL2DefaultVersionManager.Check sys s).1 = _
        simp [WSL2DefaultVersionManager.Check, hp]
      rw [hck]
      simp [hp, CreateFailureResult, WSL2DefaultVersionManager.component]
  · exact key _ _ _ _ (-1) _ (by decide) rfl
  · exact key _ _ _ _ 21 _ (by decide) rfl
  · exact key _ _ _ _ 22 _ (by decide) rfl
  · exact key _ _ _ _ 23 _ (by decide) rfl

/-- Witness for C18: the Ubuntu installer on the fresh demonstration machine. -/
theorem Check_skipped_or_failed_by_probe_witness :
    (UbuntuInstaller.component Demo.sys Demo.ctx,
        fun s => (UbuntuInstaller.IsUbuntuInstalled Demo.sys Demo.ctx s).1) ∈
      probedComponents Demo.sys Demo.ctx ∧
    (UbuntuInstaller.IsUbuntuInstalled Demo.sys Demo.ctx Demo.fresh).1 = false ∧
    ((UbuntuInstaller.component Demo.sys Demo.ctx).Check Demo.fresh).1.status =
      InstallationStatus.kFailed ∧
    ((UbuntuInstaller.component Demo.sys Demo.ctx).Check Demo.fresh).1.error_code ≠ 0 :=
  ⟨by simp [probedComponents], by decide,
    ((Check_skipped_or_failed_by_probe Demo.sys Demo.ctx
      (UbuntuInstaller.component Demo.sys Demo.ctx)
      (fun s => (UbuntuInstaller.IsUbuntuInstalled Demo.sys Demo.ctx s).1) Demo.fresh
      (by simp [probedComponents])).1.2.2.1 (by decide))⟩

theorem CommandExecutor.ExecutePowerShell_of_stopped (sys : Sys W) (command : String)
    (timeout_seconds : Int) (s : State W) (hstop : s.stop_requested_ = true) :
    CommandExecutor.ExecutePowerShell sys command timeout_seconds s
      = ((-1, "Operation interrupted by stop request"), s) := by
  simp [CommandExecutor.ExecutePowerShell, State.IsStopRequested, hstop]

theorem CommandExecutor.ExecuteWSL_of_stopped (sys : Sys W) (ctx : ExecutionContext)
    (command : String) (timeout_seconds : Int) (s : State W) (hstop : s.stop_requested_ = true) :
    CommandExecutor.ExecuteWSL sys ctx command timeout_seconds s
      = ((-1, "Operation interrupted by stop request"), s) := by
  simp [CommandExecutor.ExecuteWSL, State.IsStopRequested, hstop]

theorem CommandExecutor.IsWindowsFeatureEnabled_of_stopped (sys : Sys W) (feature_name : String)
    (s : State W) (hstop : s.stop_requested_ = true) :
    CommandExecutor.IsWindowsFeatureEnabled sys feature_name s = (false, s) := by
  simp [CommandExecutor.IsWindowsFeatureEnabled, CommandExecutor.ExecutePowerShell_of_stopped,
    hstop]

theorem WSL2DefaultVersionManager.IsWSL2DefaultVersion_of_stopped (sys : Sys W) (s : State W)
    (hstop : s.stop_requested_ = true) :
    WSL2DefaultVersionManager.IsWSL2DefaultVersion sys s = (false, s) := by
  unfold WSL2DefaultVersionManager.IsWSL2DefaultVersion
  split
  · rfl
  · simp [CommandExecutor.ExecutePowerShell_of_stopped, hstop]

theorem UbuntuInstaller.IsUbuntuInstalled_of_stopped (sys : Sys W) (ctx : ExecutionContext)
    (s : State W) (hstop : s.stop_requested_ = true) :
    UbuntuInstaller.IsUbuntuInstalled sys ctx s = (false, s) := by
  unfold UbuntuInstaller.IsUbuntuInstalled
  split
  · rfl
  · simp [CommandExecutor.ExecutePowerShell_of_stopped, hstop]

theorem CudaToolkitInstaller.IsCudaToolkitInstalled_of_stopped (sys : Sys W)
    (ctx : ExecutionContext) (s : State W) (hstop : s.stop_requested_ = true) :
    CudaToolkitInstaller.IsCudaToolkitInstalled sys ctx s = (false, s) := by
  simp [CudaToolkitInstaller.IsCudaToolkitInstalled, CommandExecutor.ExecuteWSL_of_stopped, hstop]

theorem CargoInstaller.IsCargoInstalled_of_stopped (sys : Sys W)
    (ctx : ExecutionContext) (s : State W) (hstop : s.stop_requested_ = true) :
    CargoInstaller.IsCargoInstalled sys ctx s = (false, s) := by
  simp [CargoInstaller.IsCargoInstalled, CommandExecutor.ExecuteWSL_of_stopped, hstop]

theorem NinjaInstaller.IsNinjaInstalled_of_stopped (sys : Sys W)
    (ctx : ExecutionContext) (s : State W) (hstop : s.stop_requested_ = true) :
    NinjaInstaller.IsNinjaInstalled sys ctx s = (false, s) := by
  simp [NinjaInstaller.IsNinjaInstalled, CommandExecutor.ExecuteWSL_of_stopped, hstop]

theorem ComponentResult.eq_failure_of_failed (b : Bool) (t : EnvironmentComponent)
    (m1 m2 : String) (code : Int)
    (h : (if b then CreateSkippedResult t m1 else CreateFailureResult t m2 code).status =
      InstallationStatus.kFailed) :
    (if b then CreateSkippedResult t m1 else CreateFailureResult t m2 code) =
      CreateFailureResult t m2 code := by
  cases b
  · rfl
  · simp [CreateSkippedResult] at h

/-- C11 (counterexample): on the demonstration machine with the stop flag set, the feature
probe is intercepted (the executor returns -1); with the flag clear the probe runs and prints
"Disabled".  `WSLFeatureManager::Check` returns the same result in both cases. -/
theorem WSLFeatureManager_Check_intercepted_same_as_absent :
    (CommandExecutor.ExecutePowerShell Demo.sys
        ("Get-WindowsOptionalFeature -Online -FeatureName " ++
          "Microsoft-Windows-Subsystem-Linux" ++ " | Select-Object -ExpandProperty State")
        300 Demo.freshStopped).1 = (-1, "Operation interrupted by stop request") ∧
    (CommandExecutor.ExecutePowerShell Demo.sys
        ("Get-WindowsOptionalFeature -Online -FeatureName " ++
          "Microsoft-Windows-Subsystem-Linux" ++ " | Select-Object -ExpandProperty State")
        300 Demo.fresh).1 = (0, "Disabled") ∧
    (WSLFeatureManager.Check Demo.sys Demo.freshStopped).1 =
      (WSLFeatureManager.Check Demo.sys Demo.fresh).1 ∧
    (WSLFeatureManager.Check Demo.sys Demo.freshStopped).1 =
      ⟨EnvironmentComponent.kWSL2, InstallationStatus.kFailed,
        "WSL Windows feature is not enabled", 2⟩ := by
  decide

/-- C11 (amended): for every component whose `Check` probes through the command executor,
when the stop flag is set as `Check` is entered, every probe is intercepted, `Check` leaves the
state as it is and returns `Failed`; and this is exactly the result `Check` returns on the
same machine with the probe run and the dependency found absent.  The interception is not
visible in the result. -/
theorem Check_intercepted_reports_absent (sys : Sys W) (ctx : ExecutionContext)
    (c : Component W) (s s' : State W) (hc : c ∈ executorProbedComponents sys ctx)
    (hstop : s.stop_requested_ = true) :
    (c.Check s).2 = s ∧ (c.Check s).1.status = InstallationStatus.kFailed ∧
    (s'.world = s.world → (c.Check s').1.status = InstallationStatus.kFailed →
      (c.Check s).1 = (c.Check s').1) := by
  have key : ∀ (check : State W → ComponentResult × State W) (probe : State W → Bool × State W)
      (t : EnvironmentComponent) (m1 m2 : String) (code : Int),
      (∀ x, check x = (if (probe x).1 then CreateSkippedResult t m1
        else CreateFailureResult t m2 code, (probe x).2)) →
      probe s = (false, s) →
      (check s).2 = s ∧ (check s).1.status = InstallationStatus.kFailed ∧
      (s'.world = s.world → (check s').1.status = InstallationStatus.kFailed →
        (check s).1 = (check s').1) := by
    intro check probe t m1 m2 code hdef hp
    have h : check s = (CreateFailureResult t m2 code, s) := by
      rw [hdef s, hp]
      rfl
    refine ⟨by rw [h], by rw [h]; rfl, fun _ hf => ?_⟩
    rw [h]
    rw [hdef s'] at hf ⊢
    exact (ComponentResult.eq_failure_of_failed _ _ _ _ _ hf).symm
  simp only [executorProbedComponents, List.mem_cons, List.mem_singleton, List.not_mem_nil,
    or_false] at hc
  rcases hc with rfl | rfl | rfl | rfl | rfl | rfl | rfl
  · exact key _ _ _ _ _ _ (fun _ => rfl)
      (CommandExecutor.IsWindowsFeatureEnabled_of_stopped sys _ s hstop)
  · exact key _ _ _ _ _ _ (fun _ => rfl)
      (CommandExecutor.IsWindowsFeatureEnabled_of_stopped sys _ s hstop)
  · -- two failure messages: the package missing, or WSL2 not the default version
    show (WSL2DefaultVersionManager.Check sys s).2 = s ∧
      (WSL2DefaultVersionManager.Check sys s).1.status = InstallationStatus.kFailed ∧
      (s'.world = s.world →
        (WSL2DefaultVersionManager.Check sys s').1.status = InstallationStatus.kFailed →
        (WSL2DefaultVersionManager.Check sys s).1 = (WSL2DefaultVersionManager.Check sys s').1)
    by_cases hp : WSL2DefaultVersionManager.IsWSLPackageInstalled sys s.world = true
    · have h : WSL2DefaultVersionManager.Check sys s =
          (CreateFailureResult WSL2DefaultVersionManager.GetComponentType
            "WSL2 is not the default version" 4, s) := by
        simp [WSL2DefaultVersionManager.Check, hp,
          WSL2DefaultVersionManager.IsWSL2DefaultVersion_of_stopped sys s hstop]
      refine ⟨by rw [h], by rw [h]; rfl, fun hw hf => ?_⟩
      rw [h]
      have hp' : WSL2DefaultVersionManager.IsWSLPackageInstalled sys s'.world = true := by
        rw [hw]
        exact hp
      simp only [WSL2DefaultVersionManager.Check, hp', Bool.not_true, Bool.false_eq_true,
        if_false] at hf ⊢
      exact (ComponentResult.eq_failure_of_failed _ _ _ _ _ hf).symm
    · simp only [Bool.not_eq_true] at hp
      have h : ∀ x : State W, x.world = s.world → WSL2DefaultVersionManager.Check sys x =
          (CreateFailureResult WSL2DefaultVersionManager.GetComponentType
            "Cannot check WSL2 default version: WSL package is not installed" 4, x) := by
        intro x hx
        simp [WSL2DefaultVersionManager.Check, hx, hp]
      refine ⟨by rw [h s rfl], by rw [h s rfl]; rfl, fun hw _ => ?_⟩
      rw [h s rfl, h s' hw]
  · exact key _ _ _ _ _ _ (fun _ => rfl)
      (UbuntuInstaller.IsUbuntuInstalled_of_stopped sys ctx s hstop)
  · exact key _ _ _ _ _ _ (fun _ => rfl)
      (CudaToolkitInstaller.IsCudaToolkitInstalled_of_stopped sys ctx s hstop)
  · exact key _ _ _ _ _ _ (fun _ => rfl)
      (CargoInstaller.IsCargoInstalled_of_stopped sys ctx s hstop)
  · exact key _ _ _ _ _ _ (fun _ => rfl)
      (NinjaInstaller.IsNinjaInstalled_of_stopped sys ctx s hstop)

/-- Witness for C11 (amended): the WSL feature manager on the ready demonstration machine
with the stop flag set, where the feature is enabled and `Check` still reports `Failed`. -/
theorem Check_intercepted_reports_absent_witness :
    WSLFeatureManager.component Demo.sys ∈ executorProbedComponents Demo.sys Demo.ctx ∧
    Demo.readyStopped.stop_requested_ = true ∧
    ((WSLFeatureManager.component Demo.sys).Check Demo.readyStopped).2 = Demo.readyStopped ∧
    ((WSLFeatureManager.component Demo.sys).Check Demo.readyStopped).1.status =
      InstallationStatus.kFailed :=
  ⟨by simp [executorProbedComponents], rfl,
    (Check_intercepted_reports_absent Demo.sys Demo.ctx (WSLFeatureManager.component Demo.sys)
      Demo.readyStopped Demo.fresh (by simp [executorProbedComponents]) rfl).1,
    (Check_intercepted_reports_absent Demo.sys Demo.ctx (WSLFeatureManager.component Demo.sys)
      Demo.readyStopped Demo.fresh (by simp [executorProbedComponents]) rfl).2.1⟩

namespace CommandExecutor

/-- Counterexample to C13 as stated: on the offline demonstration machine on which the
installer file of an earlier attempt is held open by another process, the transfer fails,
`CommandExecutor::DownloadFile` finds the file, calls `DeleteFileA` once, returns false
without looking at what `DeleteFileA` returned, and the file is still at `local_path`. -/
theorem DownloadFile_failure_file_remains :
    Demo.staleDownload.stop_requested_ = false ∧
    (utils.DownloadFile Demo.heldOpenSys "https://example.invalid/package.msi"
      "C:\\Temp\\wsl.x64.msi" Demo.staleDownload).1 = false ∧
    (DownloadFile Demo.heldOpenSys "https://example.invalid/package.msi" "C:\\Temp\\wsl.x64.msi"
      Demo.staleDownload).1 = false ∧
    (DownloadFile Demo.heldOpenSys "https://example.invalid/package.msi" "C:\\Temp\\wsl.x64.msi"
      Demo.staleDownload).2.log =
      [Event.ExecCommandEx
        ("powershell.exe -Command \"Invoke-WebRequest -Uri \"https://example.invalid/package.msi\"" ++
          " -OutFile \"C:\\Temp\\wsl.x64.msi\"\"") 600,
       Event.DeleteFileA "C:\\Temp\\wsl.x64.msi"] ∧
    Demo.heldOpenSys.GetFileAttributesA "C:\\Temp\\wsl.x64.msi"
      (DownloadFile Demo.heldOpenSys "https://example.invalid/package.msi"
        "C:\\Temp\\wsl.x64.msi" Demo.staleDownload).2.world = true :=
  ⟨rfl, by decide, by decide, by decide, by decide⟩

/-- C13 (amended): for `CommandExecutor::DownloadFile` entered with the stop flag clear, if the
stop flag is set once the transfer has completed, or the transfer fails, the call returns
false.  If a file exists at `local_path` at that point the call makes one `DeleteFileA` call
on it and does nothing else; if none exists it does nothing.  What `DeleteFileA` returns is
not looked at: a file exists at `local_path` afterwards exactly when one existed at that point
and the `DeleteFileA` call did not remove it, so none is left whenever the deletion
succeeds. -/
theorem DownloadFile_failure_deletes_once (sys : Sys W) (url local_path : String)
    (s : State W) (hclear : s.stop_requested_ = false)
    (hcase : (utils.DownloadFile sys url local_path s).2.stop_requested_ = true ∨
      (utils.DownloadFile sys url local_path s).1 = false) :
    (DownloadFile sys url local_path s).1 = false ∧
    (sys.GetFileAttributesA local_path (utils.DownloadFile sys url local_path s).2.world = true →
      (DownloadFile sys url local_path s).2 =
        utils.DeleteFileA sys local_path (utils.DownloadFile sys url local_path s).2 ∧
      (DownloadFile sys url local_path s).2.log =
        (utils.DownloadFile sys url local_path s).2.log ++ [Event.DeleteFileA local_path]) ∧
    (sys.GetFileAttributesA local_path (utils.DownloadFile sys url local_path s).2.world = false →
      (DownloadFile sys url local_path s).2 = (utils.DownloadFile sys url local_path s).2) ∧
    (sys.GetFileAttributesA local_path (DownloadFile sys url local_path s).2.world = true ↔
      sys.GetFileAttributesA local_path (utils.DownloadFile sys url local_path s).2.world = true ∧
      sys.GetFileAttributesA local_path
        (sys.DeleteFileA local_path (utils.DownloadFile sys url local_path s).2.world) = true) ∧
    (sys.GetFileAttributesA local_path
        (sys.DeleteFileA local_path (utils.DownloadFile sys url local_path s).2.world) = false →
      sys.GetFileAttributesA local_path (DownloadFile sys url local_path s).2.world = false) := by
  have hres : DownloadFile sys url local_path s =
      (false,
        if sys.GetFileAttributesA local_path (utils.DownloadFile sys url local_path s).2.world then
          utils.DeleteFileA sys local_path (utils.DownloadFile sys url local_path s).2
        else (utils.DownloadFile sys url local_path s).2) := by
    unfold DownloadFile
    simp only [State.IsStopRequested, hclear, Bool.false_eq_true, if_false]
    by_cases hstop : (utils.DownloadFile sys url local_path s).2.stop_requested_ = true
    · simp only [hstop, if_true]
    · have hr : (utils.DownloadFile sys url local_path s).1 = false := by
        rcases hcase with h | h
        · exact absurd h hstop
        · exact h
      rw [Bool.not_eq_true] at hstop
      simp only [hstop, Bool.false_eq_true, if_false, hr, Bool.not_false, if_true]
  rw [hres]
  generalize (utils.DownloadFile sys url local_path s).2 = t
  by_cases hx : sys.GetFileAttributesA local_path t.world = true
  · simp only [hx, if_true, true_and, true_implies, Bool.true_eq_false, false_implies]
    exact ⟨rfl, Iff.rfl, fun h => h⟩
  · rw [Bool.not_eq_true] at hx
    simp [hx]

/-- Witness for C13 (amended): the offline demonstration machine on which a stale installer
file sits at the download path and can be deleted: the call removes it. -/
theorem DownloadFile_failure_deletes_once_witness :
    Demo.staleDownload.stop_requested_ = false ∧
    Demo.sys.GetFileAttributesA "C:\\Temp\\wsl.x64.msi" Demo.staleDownload.world = true ∧
    (utils.DownloadFile Demo.sys "https://example.invalid/package.msi" "C:\\Temp\\wsl.x64.msi"
      Demo.staleDownload).1 = false ∧
    (DownloadFile Demo.sys "https://example.invalid/package.msi" "C:\\Temp\\wsl.x64.msi"
      Demo.staleDownload).1 = false ∧
    Demo.sys.GetFileAttributesA "C:\\Temp\\wsl.x64.msi"
      (DownloadFile Demo.sys "https://example.invalid/package.msi" "C:\\Temp\\wsl.x64.msi"
        Demo.staleDownload).2.world = false :=
  ⟨rfl, by decide, by decide,
    (DownloadFile_failure_deletes_once Demo.sys "https://example.invalid/package.msi"
      "C:\\Temp\\wsl.x64.msi" Demo.staleDownload rfl (Or.inr (by decide))).1,
    (DownloadFile_failure_deletes_once Demo.sys "https://example.invalid/package.msi"
      "C:\\Temp\\wsl.x64.msi" Demo.staleDownload rfl (Or.inr (by decide))).2.2.2.2 (by decide)⟩

end CommandExecutor

namespace EnvironmentInstaller

/-- C17: in every run of `CheckEnvironment` that is not cut short (administrator privileges
present, no critical component reported `Failed`), the overall message is "All required
components are properly configured" if no result of the returned, post-processed sequence has
status `Failed`, and "Some components need attention" if one has. -/
theorem CheckEnvironment_message_reflects_results (inst : EnvironmentInstaller W)
    (progress_callback_ : ProgressCallback W) (component_callback : ComponentCheckCallback W)
    (s : State W)
    (hadmin : inst.CheckAdminPrivileges
      (ReportProgress progress_callback_ "check_environment" "Starting environment check..." 0 s)
      = true)
    (hcrit : ∀ op ∈ (CheckEnvironment inst progress_callback_ component_callback s).ops,
      IsCritical op.component_type → op.result.status ≠ InstallationStatus.kFailed) :
    ((∀ r ∈ (CheckEnvironment inst progress_callback_ component_callback s).result.component_results,
        r.status ≠ InstallationStatus.kFailed) →
      (CheckEnvironment inst progress_callback_ component_callback s).result.overall_message =
        "All required components are properly configured") ∧
    ((∃ r ∈ (CheckEnvironment inst progress_callback_ component_callback s).result.component_results,
        r.status = InstallationStatus.kFailed) →
      (CheckEnvironment inst progress_callback_ component_callback s).result.overall_message =
        "Some components need attention") := by
  unfold CheckEnvironment at hcrit ⊢
  simp only [hadmin, Bool.not_true, Bool.false_eq_true, if_false] at hcrit ⊢
  obtain ⟨-, hret⟩ := CheckEnvironment.walk_spec inst progress_callback_ component_callback
    ComponentFactory.GetAllComponents
    ⟨⟨[], false, ""⟩,
      ReportProgress progress_callback_ "check_environment" "Starting environment check..." 0 s,
      [], []⟩
  cases hw : CheckEnvironment.walk inst progress_callback_ component_callback
      ComponentFactory.GetAllComponents
      ⟨⟨[], false, ""⟩,
        ReportProgress progress_callback_ "check_environment" "Starting environment check..." 0 s,
        [], []⟩ with
  | ret r =>
    rw [hw] at hcrit
    obtain ⟨pre, o, l1, l2, hops, -, -, -, -, -, hoc, hof, -, -⟩ := hret r hw
    exact absurd hof (hcrit o (by rw [hops]; simp) hoc)
  | next r =>
    simp only
    constructor
    · intro hall
      rw [if_pos]
      rw [List.all_eq_true]
      intro x hx
      simpa using hall x hx
    · rintro ⟨x, hx, hf⟩
      rw [if_neg]
      intro hall
      rw [List.all_eq_true] at hall
      simpa [hf] using hall x hx

/-- Witness for C17: the fresh demonstration machine, where all fifteen components are
checked and some are missing. -/
theorem CheckEnvironment_message_reflects_results_witness :
    (CheckEnvironment (new Demo.sys Demo.ctx Demo.ext) none none Demo.fresh).result.overall_message
      = "Some components need attention" ∧
    (CheckEnvironment (new Demo.sys Demo.ctx Demo.ext) none none Demo.fresh).result.component_results.length
      = 15 :=
  ⟨(CheckEnvironment_message_reflects_results (new Demo.sys Demo.ctx Demo.ext) none none
      Demo.fresh rfl (by decide)).2 (by decide), by decide⟩

end EnvironmentInstaller

namespace EnvironmentInstaller

theorem registered_nil (inst : EnvironmentInstaller W) : inst.registered [] = [] := rfl

theorem registered_cons_none (inst : EnvironmentInstaller W) (t : EnvironmentComponent)
    (rest : List EnvironmentComponent) (hc : inst.components_ t = none) :
    inst.registered (t :: rest) = inst.registered rest := by
  simp [registered, hc]

theorem registered_cons_some (inst : EnvironmentInstaller W) (t : EnvironmentComponent)
    (rest : List EnvironmentComponent) (component : Component W)
    (hc : inst.components_ t = some component) :
    inst.registered (t :: rest) = t :: inst.registered rest := by
  simp [registered, hc]

theorem registered_append (inst : EnvironmentInstaller W) (l1 l2 : List EnvironmentComponent) :
    inst.registered (l1 ++ l2) = inst.registered l1 ++ inst.registered l2 := by
  simp [registered]

theorem registered_subset (inst : EnvironmentInstaller W) (l : List EnvironmentComponent) :
    ∀ t ∈ inst.registered l, t ∈ l := by
  intro t ht
  exact (List.mem_filter.1 ht).1

/-- The key types a phase loop ran operations for: all registered ones of the list, in the
order of the list, if the loop ran to its end; the first ones of them if it was left by
`return`. -/
theorem InstallEnvironment.phase_types (inst : EnvironmentInstaller W)
    (progress_callback : ProgressCallback W) (perform_installation : Bool) (heading : String) :
    ∀ (l : List EnvironmentComponent) (a : Run W),
      (∀ r, InstallEnvironment.phase inst progress_callback perform_installation heading l a
          = Flow.next r →
        ∃ new, r.ops = a.ops ++ new ∧ new.map (·.component_type) = inst.registered l) ∧
      (∀ r, InstallEnvironment.phase inst progress_callback perform_installation heading l a
          = Flow.ret r →
        ∃ new l2, r.ops = a.ops ++ new ∧
          new.map (·.component_type) ++ l2 = inst.registered l) := by
  intro l
  induction l with
  | nil =>
    intro a
    refine ⟨?_, ?_⟩
    · intro r h
      simp only [InstallEnvironment.phase, Flow.next.injEq] at h
      subst h
      exact ⟨[], by simp, rfl⟩
    · intro r h
      simp [InstallEnvironment.phase] at h
  | cons t rest ih =>
    intro a
    cases hc : inst.components_ t with
    | none =>
      rw [InstallEnvironment.phase_cons_none _ _ _ _ _ _ _ hc, registered_cons_none _ _ _ hc]
      exact ih a
    | some component =>
      rw [InstallEnvironment.phase_cons_some _ _ _ _ _ _ _ _ hc,
        registered_cons_some _ _ _ _ hc]
      generalize ExecuteComponentOperation progress_callback component perform_installation none
        a.state = x
      obtain ⟨ih1, ih2⟩ := ih (a.push t perform_installation none x)
      by_cases hf : x.result.status = InstallationStatus.kFailed
      · rw [if_pos hf]
        refine ⟨fun r h => by simp at h, ?_⟩
        intro r h
        simp only [Flow.ret.injEq] at h
        subst h
        exact ⟨[x.record t perform_installation], inst.registered rest, by simp [Run.push],
          by simp [OpRun.record]⟩
      · rw [if_neg hf]
        by_cases hs : x.state.IsStopRequested = true
        · rw [if_pos hs]
          refine ⟨fun r h => by simp at h, ?_⟩
          intro r h
          simp only [Flow.ret.injEq] at h
          subst h
          exact ⟨[x.record t perform_installation], inst.registered rest, by simp [Run.push],
            by simp [OpRun.record]⟩
        · rw [if_neg hs]
          refine ⟨?_, ?_⟩
          · intro r h
            obtain ⟨new, h1, h2⟩ := ih1 r h
            exact ⟨x.record t perform_installation :: new, by simpa [Run.push] using h1,
              by simp [OpRun.record, h2]⟩
          · intro r h
            obtain ⟨new, l2, h1, h2⟩ := ih2 r h
            exact ⟨x.record t perform_installation :: new, l2, by simpa [Run.push] using h1,
              by simp [OpRun.record, h2]⟩

/-- The key types the check loop ran operations for, as for the phase loops. -/
theorem CheckEnvironment.walk_types (inst : EnvironmentInstaller W)
    (progress_callback_ : ProgressCallback W) (component_callback : ComponentCheckCallback W) :
    ∀ (l : List EnvironmentComponent) (a : Run W),
      (∀ r, CheckEnvironment.walk inst progress_callback_ component_callback l a = Flow.next r →
        ∃ new, r.ops = a.ops ++ new ∧ new.map (·.component_type) = inst.registered l) ∧
      (∀ r, CheckEnvironment.walk inst progress_callback_ component_callback l a = Flow.ret r →
        ∃ new l2, r.ops = a.ops ++ new ∧
          new.map (·.component_type) ++ l2 = inst.registered l) := by
  intro l
  induction l with
  | nil =>
    intro a
    refine ⟨?_, ?_⟩
    · intro r h
      simp only [CheckEnvironment.walk, Flow.next.injEq] at h
      subst h
      exact ⟨[], by simp, rfl⟩
    · intro r h
      simp [CheckEnvironment.walk] at h
  | cons t rest ih =>
    intro a
    cases hc : inst.components_ t with
    | none =>
      rw [CheckEnvironment.walk_cons_none _ _ _ _ _ _ hc, registered_cons_none _ _ _ hc]
      exact ih a
    | some component =>
      rw [CheckEnvironment.walk_cons_some _ _ _ _ _ _ _ hc, registered_cons_some _ _ _ _ hc]
      generalize ExecuteComponentOperation progress_callback_ component false component_callback
        a.state = x
      obtain ⟨ih1, ih2⟩ := ih (a.push t false component_callback x)
      have hgo : (∀ r, CheckEnvironment.walk inst progress_callback_ component_callback rest
            (a.push t false component_callback x) = Flow.next r →
          ∃ new, r.ops = a.ops ++ new ∧
            new.map (·.component_type) = t :: inst.registered rest) ∧
          (∀ r, CheckEnvironment.walk inst progress_callback_ component_callback rest
            (a.push t false component_callback x) = Flow.ret r →
          ∃ new l2, r.ops = a.ops ++ new ∧
            new.map (·.component_type) ++ l2 = t :: inst.registered rest) := by
        refine ⟨?_, ?_⟩
        · intro r h
          obtain ⟨new, h1, h2⟩ := ih1 r h
          exact ⟨x.record t false :: new, by simpa [Run.push] using h1,
            by simp [OpRun.record, h2]⟩
        · intro r h
          obtain ⟨new, l2, h1, h2⟩ := ih2 r h
          exact ⟨x.record t false :: new, l2, by simpa [Run.push] using h1,
            by simp [OpRun.record, h2]⟩
      by_cases hf : x.result.status = InstallationStatus.kFailed
      · by_cases hcrit : IsCritical t
        · rw [if_pos ⟨hf, hcrit⟩]
          refine ⟨fun r h => by simp at h, ?_⟩
          intro r h
          simp only [Flow.ret.injEq] at h
          subst h
          exact ⟨[x.record t false], inst.registered rest, by simp [Run.push],
            by simp [OpRun.record]⟩
        · rw [if_neg (fun h => hcrit h.2)]
          exact hgo
      · rw [if_neg (fun h => hf h.1)]
        exact hgo

end EnvironmentInstaller

namespace EnvironmentInstaller

theorem OpRecord.not_continues_of_ret {o : OpRecord W} {message heading : String}
    (h : (o.result.status = InstallationStatus.kFailed ∧ message = heading ++ o.result.message) ∨
      (o.result.status ≠ InstallationStatus.kFailed ∧ o.returned_at.IsStopRequested = true ∧
        message = "Installation interrupted by stop request")) : ¬ o.Continues := by
  rcases h with h | h
  · exact fun hc => hc.1 h.1
  · exact fun hc => by
      have h2 := hc.2
      rw [h.2.1] at h2
      exact Bool.noConfusion h2

/-- How a run of `InstallEnvironment` that passed the privilege gate ends.  The key types of
its operations are the first ones of the registered components in phase order.  Either the last
operation failed or left the stop flag set, the run ended there, and the message is the failure
message of the phase or the interruption message; or every operation let the loops go on and
the run ended after the feature phase with the reboot flag set; or every operation let the
loops go on and the run went through all three phases. -/
theorem InstallEnvironment_outcome (inst : EnvironmentInstaller W)
    (progress_callback : ProgressCallback W) (s : State W)
    (hadmin : inst.CheckAdminPrivileges (ReportProgress progress_callback "install_start"
      "Starting environment installation..." 0 s.ResetStop) = true) :
    (∃ tail, (InstallEnvironment inst progress_callback s).ops.map (·.component_type) ++ tail =
      inst.registered installOrder) ∧
    ((∃ pre o heading, (InstallEnvironment inst progress_callback s).ops = pre ++ [o] ∧
        (InstallEnvironment inst progress_callback s).state = o.returned_at ∧
        ((o.component_type ∈ ComponentFactory.GetSystemComponents ∧
            heading = "System requirement not met: ") ∨
          (o.component_type ∈ ComponentFactory.GetWindowsFeatureComponents ∧
            heading = "Windows feature installation failed: ") ∨
          (o.component_type ∈ ComponentFactory.GetSoftwareComponents ∧
            heading = "Software installation failed: ")) ∧
        ((o.result.status = InstallationStatus.kFailed ∧
            (InstallEnvironment inst progress_callback s).result.overall_message =
              heading ++ o.result.message) ∨
          (o.result.status ≠ InstallationStatus.kFailed ∧
            o.returned_at.IsStopRequested = true ∧
            (InstallEnvironment inst progress_callback s).result.overall_message =
              "Installation interrupted by stop request"))) ∨
      ((∀ o ∈ (InstallEnvironment inst progress_callback s).ops, o.Continues) ∧
        (InstallEnvironment inst progress_callback s).result.reboot_required = true ∧
        (InstallEnvironment inst progress_callback s).ops.map (·.component_type) =
          inst.registered (ComponentFactory.GetSystemComponents ++
            ComponentFactory.GetWindowsFeatureComponents)) ∨
      ((∀ o ∈ (InstallEnvironment inst progress_callback s).ops, o.Continues) ∧
        (InstallEnvironment inst progress_callback s).result.reboot_required = false ∧
        (InstallEnvironment inst progress_callback s).ops.map (·.component_type) =
          inst.registered installOrder ∧
        (InstallEnvironment inst progress_callback s).result.overall_message =
          "All components installed successfully")) := by
  unfold InstallEnvironment
  simp only [hadmin, Bool.not_true, Bool.false_eq_true, if_false]
  generalize ReportProgress progress_callback "install_start"
    "Starting environment installation..." 0 s.ResetStop = s0
  have hord : inst.registered installOrder =
      inst.registered ComponentFactory.GetSystemComponents ++
        inst.registered ComponentFactory.GetWindowsFeatureComponents ++
        inst.registered ComponentFactory.GetSoftwareComponents := by
    rw [installOrder, registered_append, registered_append]
  obtain ⟨n1, r1⟩ := InstallEnvironment.phase_spec inst progress_callback false
    "System requirement not met: " ComponentFactory.GetSystemComponents ⟨⟨[], false, ""⟩, s0, [], []⟩
  obtain ⟨tn1, tr1⟩ := InstallEnvironment.phase_types inst progress_callback false
    "System requirement not met: " ComponentFactory.GetSystemComponents ⟨⟨[], false, ""⟩, s0, [], []⟩
  cases hp1 : InstallEnvironment.phase inst progress_callback false
      "System requirement not met: " ComponentFactory.GetSystemComponents
      ⟨⟨[], false, ""⟩, s0, [], []⟩ with
  | ret r =>
    obtain ⟨pre, o, l1, l2, h1, -, -, h4, -, -, h7, h8⟩ := r1 r hp1
    obtain ⟨new, tl, g1, g2⟩ := tr1 r hp1
    simp only [List.nil_append] at h1 g1
    refine ⟨⟨tl ++ (inst.registered ComponentFactory.GetWindowsFeatureComponents ++
        inst.registered ComponentFactory.GetSoftwareComponents), ?_⟩,
      Or.inl ⟨pre, o, _, h1, h7, Or.inl ⟨by rw [h4]; simp, rfl⟩, h8⟩⟩
    rw [hord, g1, ← g2]
    simp
  | next a1 =>
    obtain ⟨ops1, h1, h2, h3, -, h5⟩ := n1 a1 hp1
    obtain ⟨new1, g1, g2⟩ := tn1 a1 hp1
    simp only [List.nil_append] at h1 h2 h3 g1
    have ht1 : ops1.map (·.component_type) = inst.registered ComponentFactory.GetSystemComponents := by
      rw [← h1, g1, g2]
    simp only
    generalize ReportProgress progress_callback "phase2_start"
      "Phase 2: Installing Windows features..." 15 a1.state = s1
    obtain ⟨n2, r2⟩ := InstallEnvironment.phase_spec inst progress_callback true
      "Windows feature installation failed: " ComponentFactory.GetWindowsFeatureComponents
      { a1 with state := s1 }
    obtain ⟨tn2, tr2⟩ := InstallEnvironment.phase_types inst progress_callback true
      "Windows feature installation failed: " ComponentFactory.GetWindowsFeatureComponents
      { a1 with state := s1 }
    cases hp2 : InstallEnvironment.phase inst progress_callback true
        "Windows feature installation failed: " ComponentFactory.GetWindowsFeatureComponents
        { a1 with state := s1 } with
    | ret r =>
      obtain ⟨pre, o, l1, l2, k1, -, -, k4, -, -, k7, k8⟩ := r2 r hp2
      obtain ⟨new, tl, j1, j2⟩ := tr2 r hp2
      simp only [h1] at k1 j1
      refine ⟨⟨tl ++ inst.registered ComponentFactory.GetSoftwareComponents, ?_⟩,
        Or.inl ⟨ops1 ++ pre, o, _, by rw [k1], k7, Or.inr (Or.inl ⟨by rw [k4]; simp, rfl⟩), k8⟩⟩
      rw [hord, j1, ← j2, ← ht1]
      simp
    | next a2 =>
      obtain ⟨ops2, k1, k2, k3, -, k5⟩ := n2 a2 hp2
      obtain ⟨new2, j1, j2⟩ := tn2 a2 hp2
      simp only [h1, h2, h3] at k1 k2 k3 j1
      have ht2 : ops2.map (·.component_type) =
          inst.registered ComponentFactory.GetWindowsFeatureComponents := by
        rw [← j2, List.append_cancel_left (k1.symm.trans j1)]
      have hres : a2.result.component_results = (ops1 ++ ops2).map (·.result) := by
        rw [k2]; simp
      have hcont12 : ∀ o ∈ ops1 ++ ops2, o.Continues := by
        intro p hp
        rcases List.mem_append.1 hp with hp | hp
        · exact (h5 p hp).2.2
        · exact (k5 p hp).2.2
      simp only
      by_cases hrb : (ProcessRebootRequirements a2.result).reboot_required = true
      · simp only [hrb, if_true]
        refine ⟨⟨inst.registered ComponentFactory.GetSoftwareComponents, ?_⟩,
          Or.inr (Or.inl ⟨by rw [k1]; exact hcont12, trivial, ?_⟩)⟩
        · rw [hord, k1, ← ht1, ← ht2]
          simp
        · rw [k1, registered_append, ← ht1, ← ht2]
          simp
      · simp only [hrb, Bool.false_eq_true, if_false]
        simp only [Bool.not_eq_true] at hrb
        generalize ReportProgress progress_callback "phase3_start"
          "Phase 3: Installing software components..." 60 a2.state = s2
        obtain ⟨n3, r3⟩ := InstallEnvironment.phase_spec inst progress_callback true
          "Software installation failed: " ComponentFactory.GetSoftwareComponents
          { a2 with result := ProcessRebootRequirements a2.result, state := s2 }
        obtain ⟨tn3, tr3⟩ := InstallEnvironment.phase_types inst progress_callback true
          "Software installation failed: " ComponentFactory.GetSoftwareComponents
          { a2 with result := ProcessRebootRequirements a2.result, state := s2 }
        cases hp3 : InstallEnvironment.phase inst progress_callback true
            "Software installation failed: " ComponentFactory.GetSoftwareComponents
            { a2 with result := ProcessRebootRequirements a2.result, state := s2 } with
        | ret r =>
          obtain ⟨pre, o, l1, l2, m1, -, -, m4, -, -, m7, m8⟩ := r3 r hp3
          obtain ⟨new, tl, i1, i2⟩ := tr3 r hp3
          simp only [k1] at m1 i1
          refine ⟨⟨tl, ?_⟩,
            Or.inl ⟨ops1 ++ ops2 ++ pre, o, _, by rw [m1], m7,
              Or.inr (Or.inr ⟨by rw [m4]; simp, rfl⟩), m8⟩⟩
          rw [hord, i1, ← i2, ← ht1, ← ht2]
          simp
        | next a3 =>
          obtain ⟨ops3, m1, m2, m3, -, m5⟩ := n3 a3 hp3
          obtain ⟨new3, i1, i2⟩ := tn3 a3 hp3
          simp only [k1, ProcessRebootRequirements_component_results, hres, hrb] at m1 m2 m3 i1
          have ht3 : ops3.map (·.component_type) =
              inst.registered ComponentFactory.GetSoftwareComponents := by
            rw [← i2, List.append_cancel_left (m1.symm.trans i1)]
          have hcont : ∀ o ∈ ops1 ++ ops2 ++ ops3, o.Continues := by
            intro p hp
            rcases List.mem_append.1 hp with hp | hp
            · exact hcont12 p hp
            · exact (m5 p hp).2.2
          have hall : (a3.result.component_results.all
              (fun comp_result => decide (comp_result.status ≠ InstallationStatus.kFailed))) = true := by
            rw [m2, List.all_eq_true]
            intro x hx
            rw [← List.map_append] at hx
            obtain ⟨p, hp, rfl⟩ := List.mem_map.1 hx
            simpa using (hcont p hp).1
          have htypes : a3.ops.map (·.component_type) = inst.registered installOrder := by
            rw [hord, m1, ← ht1, ← ht2, ← ht3]
            simp
          refine ⟨⟨[], by simp [htypes]⟩,
            Or.inr (Or.inr ⟨by simp only [m1]; exact hcont, m3, htypes, ?_⟩)⟩
          simp only [hall, if_true]

end EnvironmentInstaller

namespace EnvironmentInstaller

/-- C12 (counterexample): on the ready demonstration machine the user asks to stop when phase
2 is announced.  The install of the WSL feature, the first operation of that phase, completes
with the stop flag set and is the last operation of the run, but it returns `Failed` (its
commands were intercepted), and the overall message is the failure message of the phase, not
"Installation interrupted by stop request". -/
theorem InstallEnvironment_stop_reported_as_failure :
    ((InstallEnvironment (new Demo.sys Demo.ctx Demo.ext) (Demo.stopAt "phase2_start")
        Demo.ready).ops.map
      (fun o => (o.component_type, o.result.status, o.returned_at.stop_requested_))) =
      [(EnvironmentComponent.kOSVersion, InstallationStatus.kSkipped, false),
       (EnvironmentComponent.kNvidiaGPU, InstallationStatus.kSkipped, false),
       (EnvironmentComponent.kNvidiaDriver, InstallationStatus.kSkipped, false),
       (EnvironmentComponent.kWSL2, InstallationStatus.kFailed, true)] ∧
    (InstallEnvironment (new Demo.sys Demo.ctx Demo.ext) (Demo.stopAt "phase2_start")
        Demo.ready).result.overall_message =
      "Windows feature installation failed: Failed to enable WSL Windows feature: " ++
        "Operation interrupted by stop request" ∧
    (InstallEnvironment (new Demo.sys Demo.ctx Demo.ext) (Demo.stopAt "phase2_start")
        Demo.ready).result.overall_message ≠ "Installation interrupted by stop request" := by
  decide

/-- C12 (amended): in every run of `InstallEnvironment`, if the stop flag is set when a
component operation completes, that operation is the last one of the run and the run ends in
the state the operation left, so no later component is run.  The overall message is
"Installation interrupted by stop request" if the result of that operation is not `Failed`;
if it is `Failed`, the failure is reported first and the message is the failure message of
the phase of that component. -/
theorem InstallEnvironment_stop_ends_run (inst : EnvironmentInstaller W)
    (progress_callback : ProgressCallback W) (s : State W) (op : OpRecord W)
    (hop : op ∈ (InstallEnvironment inst progress_callback s).ops)
    (hstop : op.returned_at.IsStopRequested = true) :
    (InstallEnvironment inst progress_callback s).ops.getLast? = some op ∧
    (InstallEnvironment inst progress_callback s).state = op.returned_at ∧
    (op.result.status ≠ InstallationStatus.kFailed →
      (InstallEnvironment inst progress_callback s).result.overall_message =
        "Installation interrupted by stop request") ∧
    (op.result.status = InstallationStatus.kFailed →
      (op.component_type ∈ ComponentFactory.GetSystemComponents →
        (InstallEnvironment inst progress_callback s).result.overall_message =
          "System requirement not met: " ++ op.result.message) ∧
      (op.component_type ∈ ComponentFactory.GetWindowsFeatureComponents →
        (InstallEnvironment inst progress_callback s).result.overall_message =
          "Windows feature installation failed: " ++ op.result.message) ∧
      (op.component_type ∈ ComponentFactory.GetSoftwareComponents →
        (InstallEnvironment inst progress_callback s).result.overall_message =
          "Software installation failed: " ++ op.result.message)) := by
  have hbad : ¬ op.Continues := by
    intro hc
    have h2 := hc.2
    rw [hstop] at h2
    exact Bool.noConfusion h2
  have hlast := InstallEnvironment_failed_is_last inst progress_callback s op hop hbad
  by_cases hadmin : inst.CheckAdminPrivileges (ReportProgress progress_callback "install_start"
      "Starting environment installation..." 0 s.ResetStop) = true
  · obtain ⟨-, hcase⟩ := InstallEnvironment_outcome inst progress_callback s hadmin
    rcases hcase with ⟨pre, o, heading, h1, h2, h3, h4⟩ | ⟨hcont, -⟩ | ⟨hcont, -⟩
    · have hoe : o = op := by
        rw [h1, List.getLast?_concat] at hlast
        exact Option.some.inj hlast
      subst hoe
      refine ⟨hlast, h2, ?_, ?_⟩
      · intro hnf
        rcases h4 with h4 | h4
        · exact absurd h4.1 hnf
        · exact h4.2.2
      · intro hf
        have hmsg : (InstallEnvironment inst progress_callback s).result.overall_message =
            heading ++ o.result.message := by
          rcases h4 with h4 | h4
          · exact h4.2
          · exact absurd hf h4.1
        rw [hmsg]
        rcases h3 with ⟨hm, rfl⟩ | ⟨hm, rfl⟩ | ⟨hm, rfl⟩
        · exact ⟨fun _ => rfl,
            fun h => (ComponentFactory.system_not_feature _ hm h).elim,
            fun h => (ComponentFactory.system_not_software _ hm h).elim⟩
        · exact ⟨fun h => (ComponentFactory.system_not_feature _ h hm).elim,
            fun _ => rfl,
            fun h => (ComponentFactory.feature_not_software _ hm h).elim⟩
        · exact ⟨fun h => (ComponentFactory.system_not_software _ h hm).elim,
            fun h => (ComponentFactory.feature_not_software _ h hm).elim,
            fun _ => rfl⟩
    · exact absurd (hcont op hop) hbad
    · exact absurd (hcont op hop) hbad
  · simp only [Bool.not_eq_true] at hadmin
    simp [InstallEnvironment, hadmin] at hop

/-- Witness for C12 (amended): on the ready demonstration machine the user asks to stop when
the installation is announced; the OS version check completes with the stop flag set and
without failure, and the run ends there as interrupted. -/
theorem InstallEnvironment_stop_ends_run_witness :
    (⟨EnvironmentComponent.kOSVersion, false, Demo.readyStopped,
        CreateSkippedResult EnvironmentComponent.kOSVersion "ok", Demo.readyStopped⟩ :
        OpRecord Demo.World)
      ∈ (InstallEnvironment (new Demo.sys Demo.ctx Demo.ext) (Demo.stopAt "install_start")
          Demo.ready).ops ∧
    (InstallEnvironment (new Demo.sys Demo.ctx Demo.ext) (Demo.stopAt "install_start")
        Demo.ready).ops.length = 1 ∧
    (InstallEnvironment (new Demo.sys Demo.ctx Demo.ext) (Demo.stopAt "install_start")
        Demo.ready).result.overall_message = "Installation interrupted by stop request" :=
  have hop : (⟨EnvironmentComponent.kOSVersion, false, Demo.readyStopped,
        CreateSkippedResult EnvironmentComponent.kOSVersion "ok", Demo.readyStopped⟩ :
        OpRecord Demo.World)
      ∈ (InstallEnvironment (new Demo.sys Demo.ctx Demo.ext) (Demo.stopAt "install_start")
          Demo.ready).ops :=
    List.mem_cons_self _ _
  ⟨hop, by decide,
    (InstallEnvironment_stop_ends_run (new Demo.sys Demo.ctx Demo.ext)
      (Demo.stopAt "install_start") Demo.ready _ hop rfl).2.2.1 (by decide)⟩

end EnvironmentInstaller

namespace EnvironmentInstaller

theorem List.map_set_of_get? {α β : Type} (f : α → β) :
    ∀ (l : List α) (n : Nat) (a b : α), l.get? n = some a → f b = f a →
      (l.set n b).map f = l.map f := by
  intro l
  induction l with
  | nil => intro n a b h _; simp
  | cons x rest ih =>
    intro n a b h hf
    cases n with
    | zero =>
      simp only [List.get?_cons_zero, Option.some.injEq] at h
      subst h
      simp [hf]
    | succ n =>
      simp only [List.get?_cons_succ] at h
      simp [ih n a b h hf]

/-- The method `ProcessVirtualizationResults` keeps the kind of every result. -/
theorem ProcessVirtualizationResults_kinds (results : List ComponentResult) :
    (ProcessVirtualizationResults results).map (·.component) = results.map (·.component) := by
  unfold ProcessVirtualizationResults
  split
  · rename_i vm_result bios_result _
    split
    · rename_i vm bios hvm _
      split_ifs
      · exact List.map_set_of_get? _ _ _ vm _ hvm rfl
      · exact List.map_set_of_get? _ _ _ vm _ hvm rfl
      · rfl
    · rfl
  · rfl

/-- The constructor registers a component for every key. -/
theorem new_registered (sys : Sys W) (ctx : ExecutionContext) (ext : External W)
    (l : List EnvironmentComponent) : (new sys ctx ext).registered l = l := by
  unfold registered
  rw [List.filter_eq_self]
  intro t _
  rw [new_components_]
  cases t <;> rfl

theorem installOrder_nodup : installOrder.Nodup := by
  decide

/-- The kinds of the operations of a run of `CheckEnvironment` that passed the privilege gate
are the first ones of the registered components in `GetAllComponents()` order, and the
returned results are, kind by kind, those of the operations. -/
theorem CheckEnvironment_kinds (inst : EnvironmentInstaller W)
    (progress_callback_ : ProgressCallback W) (component_callback : ComponentCheckCallback W)
    (s : State W)
    (hadmin : inst.CheckAdminPrivileges
      (ReportProgress progress_callback_ "check_environment" "Starting environment check..." 0 s)
      = true) :
    (∃ tail, (CheckEnvironment inst progress_callback_ component_callback s).ops.map
        (·.component_type) ++ tail = inst.registered ComponentFactory.GetAllComponents) ∧
    (CheckEnvironment inst progress_callback_ component_callback s).result.component_results.map
        (·.component) =
      (CheckEnvironment inst progress_callback_ component_callback s).ops.map
        (fun o => o.result.component) := by
  unfold CheckEnvironment
  simp only [hadmin, Bool.not_true, Bool.false_eq_true, if_false]
  generalize ReportProgress progress_callback_ "check_environment"
    "Starting environment check..." 0 s = s0
  obtain ⟨n1, r1⟩ := CheckEnvironment.walk_spec inst progress_callback_ component_callback
    ComponentFactory.GetAllComponents ⟨⟨[], false, ""⟩, s0, [], []⟩
  obtain ⟨tn1, tr1⟩ := CheckEnvironment.walk_types inst progress_callback_ component_callback
    ComponentFactory.GetAllComponents ⟨⟨[], false, ""⟩, s0, [], []⟩
  cases hw : CheckEnvironment.walk inst progress_callback_ component_callback
      ComponentFactory.GetAllComponents ⟨⟨[], false, ""⟩, s0, [], []⟩ with
  | ret r =>
    obtain ⟨pre, o, l1, l2, h1, h2, -⟩ := r1 r hw
    obtain ⟨new, tl, g1, g2⟩ := tr1 r hw
    simp only [List.nil_append] at h1 h2 g1
    refine ⟨⟨tl, by rw [g1, g2]⟩, ?_⟩
    simp [h1, h2]
  | next r =>
    obtain ⟨new, h1, h2, -⟩ := n1 r hw
    obtain ⟨new', g1, g2⟩ := tn1 r hw
    simp only [List.nil_append] at h1 h2 g1
    refine ⟨⟨[], by simp [g1, g2]⟩, ?_⟩
    simp only
    rw [ProcessVirtualizationResults_kinds, h2, h1]
    simp

/-- C14: in every run of `CheckEnvironment` and of `InstallEnvironment` of the installer the
constructor builds, where the result of each operation carries the kind of the component it
was run for: no kind appears twice among the returned results, and the sequence of their
kinds is a beginning of `GetAllComponents()` for `CheckEnvironment`, and of
`GetSystemComponents() ++ GetWindowsFeatureComponents() ++ GetSoftwareComponents()` for
`InstallEnvironment`. -/
theorem results_kinds_follow_order (sys : Sys W) (ctx : ExecutionContext) (ext : External W)
    (progress_callback_ : ProgressCallback W) (component_callback : ComponentCheckCallback W)
    (s : State W)
    (hcheck : ∀ op ∈ (CheckEnvironment (new sys ctx ext) progress_callback_ component_callback
      s).ops, op.result.component = op.component_type)
    (hinstall : ∀ op ∈ (InstallEnvironment (new sys ctx ext) progress_callback_ s).ops,
      op.result.component = op.component_type) :
    ((CheckEnvironment (new sys ctx ext) progress_callback_ component_callback
        s).result.component_results.map (·.component)).Nodup ∧
    (CheckEnvironment (new sys ctx ext) progress_callback_ component_callback
        s).result.component_results.map (·.component) <+: ComponentFactory.GetAllComponents ∧
    ((InstallEnvironment (new sys ctx ext) progress_callback_
        s).result.component_results.map (·.component)).Nodup ∧
    (InstallEnvironment (new sys ctx ext) progress_callback_
        s).result.component_results.map (·.component) <+:
      ComponentFactory.GetSystemComponents ++ ComponentFactory.GetWindowsFeatureComponents ++
        ComponentFactory.GetSoftwareComponents := by
  have hc : (CheckEnvironment (new sys ctx ext) progress_callback_ component_callback
      s).result.component_results.map (·.component) <+: ComponentFactory.GetAllComponents := by
    by_cases hadmin : (new sys ctx ext).CheckAdminPrivileges
        (ReportProgress progress_callback_ "check_environment" "Starting environment check..." 0 s)
        = true
    · obtain ⟨⟨tl, h1⟩, h2⟩ := CheckEnvironment_kinds (new sys ctx ext) progress_callback_
        component_callback s hadmin
      rw [new_registered] at h1
      refine ⟨tl, ?_⟩
      rw [h2, ← h1]
      congr 1
      exact List.map_congr_left hcheck
    · simp only [Bool.not_eq_true] at hadmin
      simp only [CheckEnvironment, hadmin, Bool.not_false, if_true, List.map_cons, List.map_nil]
      exact ⟨_, rfl⟩
  have hi : (InstallEnvironment (new sys ctx ext) progress_callback_
      s).result.component_results.map (·.component) <+: installOrder := by
    by_cases hadmin : (new sys ctx ext).CheckAdminPrivileges (ReportProgress progress_callback_
        "install_start" "Starting environment installation..." 0 s.ResetStop) = true
    · obtain ⟨⟨tl, h1⟩, -⟩ := InstallEnvironment_outcome (new sys ctx ext) progress_callback_ s
        hadmin
      obtain ⟨ops1, ops2, ops3, -, h2, -⟩ := InstallEnvironment_shape (new sys ctx ext)
        progress_callback_ s hadmin
      rw [new_registered] at h1
      refine ⟨tl, ?_⟩
      rw [h2, ← h1, List.map_map]
      congr 1
      exact List.map_congr_left hinstall
    · simp only [Bool.not_eq_true] at hadmin
      simp only [InstallEnvironment, hadmin, Bool.not_false, if_true, List.map_cons, List.map_nil]
      exact ⟨_, rfl⟩
  exact ⟨ComponentFactory.GetAllComponents_nodup.sublist hc.sublist, hc,
    installOrder_nodup.sublist hi.sublist, hi⟩

/-- Witness for C14: the check and the install run on the fresh demonstration machine. -/
theorem results_kinds_follow_order_witness :
    (CheckEnvironment (new Demo.sys Demo.ctx Demo.ext) none none
        Demo.fresh).result.component_results.map (·.component) = ComponentFactory.GetAllComponents ∧
    (InstallEnvironment (new Demo.sys Demo.ctx Demo.ext) none
        Demo.fresh).result.component_results.map (·.component) =
      [EnvironmentComponent.kOSVersion, EnvironmentComponent.kNvidiaGPU,
        EnvironmentComponent.kNvidiaDriver, EnvironmentComponent.kWSL2,
        EnvironmentComponent.kVirtualMachinePlatform, EnvironmentComponent.kWSLInstall] ∧
    (InstallEnvironment (new Demo.sys Demo.ctx Demo.ext) none
        Demo.fresh).result.component_results.map (·.component) <+:
      ComponentFactory.GetSystemComponents ++ ComponentFactory.GetWindowsFeatureComponents ++
        ComponentFactory.GetSoftwareComponents :=
  ⟨by decide, by decide,
    (results_kinds_follow_order Demo.sys Demo.ctx Demo.ext none none Demo.fresh (by decide)
      (by decide)).2.2.2⟩

/-- C16: if administrator privileges are present, every component operation of the run
returns `Skipped` and the stop flag is clear when it returns, then `InstallEnvironment` of the
installer the constructor builds runs fifteen operations, for the system, Windows-feature and
software components in that order, and returns exactly their fifteen results, all `Skipped`,
with `reboot_required = false` and overall message "All components installed
successfully". -/
theorem InstallEnvironment_all_skipped (sys : Sys W) (ctx : ExecutionContext) (ext : External W)
    (progress_callback : ProgressCallback W) (s : State W)
    (hadmin : sys.IsAdmin (ReportProgress progress_callback "install_start"
      "Starting environment installation..." 0 s.ResetStop).world = true)
    (hall : ∀ op ∈ (InstallEnvironment (new sys ctx ext) progress_callback s).ops,
      op.result.status = InstallationStatus.kSkipped ∧ op.returned_at.IsStopRequested = false) :
    (InstallEnvironment (new sys ctx ext) progress_callback s).ops.map (·.component_type) =
      ComponentFactory.GetSystemComponents ++ ComponentFactory.GetWindowsFeatureComponents ++
        ComponentFactory.GetSoftwareComponents ∧
    (InstallEnvironment (new sys ctx ext) progress_callback s).result.component_results =
      (InstallEnvironment (new sys ctx ext) progress_callback s).ops.map (·.result) ∧
    (InstallEnvironment (new sys ctx ext) progress_callback s).result.component_results.length
      = 15 ∧
    (∀ r ∈ (InstallEnvironment (new sys ctx ext) progress_callback s).result.component_results,
      r.status = InstallationStatus.kSkipped) ∧
    (InstallEnvironment (new sys ctx ext) progress_callback s).result.reboot_required = false ∧
    (InstallEnvironment (new sys ctx ext) progress_callback s).result.overall_message =
      "All components installed successfully" := by
  have hadmin' : (new sys ctx ext).CheckAdminPrivileges (ReportProgress progress_callback
      "install_start" "Starting environment installation..." 0 s.ResetStop) = true := hadmin
  have hcont : ∀ op ∈ (InstallEnvironment (new sys ctx ext) progress_callback s).ops,
      op.Continues := by
    intro op hop
    refine ⟨?_, (hall op hop).2⟩
    rw [(hall op hop).1]
    decide
  obtain ⟨-, hcase⟩ := InstallEnvironment_outcome (new sys ctx ext) progress_callback s hadmin'
  obtain ⟨ops1, ops2, ops3, hops, hres, -, -, -, -, hreboot, -⟩ :=
    InstallEnvironment_shape (new sys ctx ext) progress_callback s hadmin'
  rcases hcase with ⟨pre, o, heading, h1, -, -, h4⟩ | ⟨-, hrb, -⟩ | ⟨-, hrb, htypes, hmsg⟩
  · exact absurd (hcont o (by rw [h1]; simp)) (OpRecord.not_continues_of_ret h4)
  · obtain ⟨⟨o, ho, hc⟩, hnil, -⟩ := hreboot hrb
    have ho' : o ∈ (InstallEnvironment (new sys ctx ext) progress_callback s).ops := by
      rw [hops, hnil, List.append_nil]
      exact ho
    have hs := (hall o ho').1
    simp [CheckIfRebootRequired, hs] at hc
  · rw [new_registered] at htypes
    refine ⟨htypes, hres, ?_, ?_, hrb, hmsg⟩
    · rw [hres, List.length_map, ← List.length_map _ (·.component_type), htypes]
      rfl
    · intro r hr
      rw [hres] at hr
      obtain ⟨op, hop, rfl⟩ := List.mem_map.1 hr
      exact (hall op hop).1

/-- Witness for C16: the ready demonstration machine with the toolchain in its distribution,
where every component is satisfied. -/
theorem InstallEnvironment_all_skipped_witness :
    (InstallEnvironment (new Demo.toolchainSys Demo.ctx Demo.ext) none
        Demo.ready).result.component_results.length = 15 ∧
    (InstallEnvironment (new Demo.toolchainSys Demo.ctx Demo.ext) none
        Demo.ready).result.overall_message = "All components installed successfully" :=
  ⟨(InstallEnvironment_all_skipped Demo.toolchainSys Demo.ctx Demo.ext none Demo.ready rfl
      (by decide)).2.2.1,
    (InstallEnvironment_all_skipped Demo.toolchainSys Demo.ctx Demo.ext none Demo.ready rfl
      (by decide)).2.2.2.2.2⟩

end EnvironmentInstaller

theorem CommandExecutor.EnableWindowsFeature_log (sys : Sys W) (feature_name : String)
    (s : State W) (hclear : s.stop_requested_ = false) :
    (CommandExecutor.EnableWindowsFeature sys feature_name s).2.log = s.log ++
      [Event.ExecCommandEx ("powershell.exe -Command \"" ++
        ("Enable-WindowsOptionalFeature -Online -FeatureName " ++ feature_name ++ " -NoRestart") ++
        "\"") 300] := by
  unfold CommandExecutor.EnableWindowsFeature
  simp only [CommandExecutor.ExecutePowerShell_state, State.IsStopRequested, hclear,
    Bool.false_eq_true, if_false]
  rfl

/-- C22: in `WSLFeatureManager::Install` and `VirtualMachinePlatformManager::Install`, when
the probe at the start finds the feature disabled: if the DISM exit code is 0, 1 or 2, the
fallback is not called, the method goes on to the re-probe in the state DISM left, and nothing
but the feature query is run after DISM; if the exit code is none of 0, 1 and 2, the fallback
`EnableWindowsFeature` is called in the state DISM left (with the stop flag clear there, its
command is the next one run); and if the fallback then fails, `Install` returns `Failed` with
error code 2 (respectively 3) and the DISM output in the message, in the state the fallback
left, so without a re-probe. -/
theorem feature_Install_fallback (sys : Sys W) (s : State W) :
    ((CommandExecutor.IsWindowsFeatureEnabled sys "Microsoft-Windows-Subsystem-Linux" s).1
        = false →
      ∀ (d : (Int × String) × State W) (e : Bool × State W),
        d = CommandExecutor.ExecutePowerShell sys ("dism.exe /online /enable-feature " ++
          "/featurename:Microsoft-Windows-Subsystem-Linux /all /norestart") 300
          (CommandExecutor.IsWindowsFeatureEnabled sys "Microsoft-Windows-Subsystem-Linux" s).2 →
        e = CommandExecutor.EnableWindowsFeature sys "Microsoft-Windows-Subsystem-Linux" d.2 →
        ((d.1.1 = 0 ∨ d.1.1 = 1 ∨ d.1.1 = 2) →
          WSLFeatureManager.Install sys s =
            ((WSLFeatureManager.InstallVerify sys false d.2).result,
              (WSLFeatureManager.InstallVerify sys false d.2).state) ∧
          OnlyRuns ["powershell.exe -Command \"" ++
              ("Get-WindowsOptionalFeature -Online -FeatureName " ++
                "Microsoft-Windows-Subsystem-Linux" ++ " | Select-Object -ExpandProperty State") ++
              "\""] d.2 (WSLFeatureManager.Install sys s).2) ∧
        (¬ (d.1.1 = 0 ∨ d.1.1 = 1 ∨ d.1.1 = 2) →
          (d.2.stop_requested_ = false → e.2.log = d.2.log ++
            [Event.ExecCommandEx ("powershell.exe -Command \"" ++
              ("Enable-WindowsOptionalFeature -Online -FeatureName " ++
                "Microsoft-Windows-Subsystem-Linux" ++ " -NoRestart") ++ "\"") 300]) ∧
          (e.1 = false → WSLFeatureManager.Install sys s =
            (CreateFailureResult EnvironmentComponent.kWSL2
              ("Failed to enable WSL Windows feature: " ++ d.1.2) 2, e.2)) ∧
          (e.1 = true → WSLFeatureManager.Install sys s =
            ((WSLFeatureManager.InstallVerify sys false e.2).result,
              (WSLFeatureManager.InstallVerify sys false e.2).state)))) ∧
    ((CommandExecutor.IsWindowsFeatureEnabled sys "VirtualMachinePlatform" s).1 = false →
      ∀ (d : (Int × String) × State W) (e : Bool × State W),
        d = CommandExecutor.ExecutePowerShell sys ("dism.exe /online /enable-feature " ++
          "/featurename:VirtualMachinePlatform " ++ "/all /norestart") 300
          (CommandExecutor.IsWindowsFeatureEnabled sys "VirtualMachinePlatform" s).2 →
        e = CommandExecutor.EnableWindowsFeature sys "VirtualMachinePlatform" d.2 →
        ((d.1.1 = 0 ∨ d.1.1 = 1 ∨ d.1.1 = 2) →
          VirtualMachinePlatformManager.Install sys s =
            ((VirtualMachinePlatformManager.InstallVerify sys false d.2).result,
              (VirtualMachinePlatformManager.InstallVerify sys false d.2).state) ∧
          OnlyRuns ["powershell.exe -Command \"" ++
              ("Get-WindowsOptionalFeature -Online -FeatureName " ++
                "VirtualMachinePlatform" ++ " | Select-Object -ExpandProperty State") ++
              "\""] d.2 (VirtualMachinePlatformManager.Install sys s).2) ∧
        (¬ (d.1.1 = 0 ∨ d.1.1 = 1 ∨ d.1.1 = 2) →
          (d.2.stop_requested_ = false → e.2.log = d.2.log ++
            [Event.ExecCommandEx ("powershell.exe -Command \"" ++
              ("Enable-WindowsOptionalFeature -Online -FeatureName " ++
                "VirtualMachinePlatform" ++ " -NoRestart") ++ "\"") 300]) ∧
          (e.1 = false → VirtualMachinePlatformManager.Install sys s =
            (CreateFailureResult EnvironmentComponent.kVirtualMachinePlatform
              ("Failed to enable Virtual Machine Platform: " ++ d.1.2) 3, e.2)) ∧
          (e.1 = true → VirtualMachinePlatformManager.Install sys s =
            ((VirtualMachinePlatformManager.InstallVerify sys false e.2).result,
              (VirtualMachinePlatformManager.InstallVerify sys false e.2).state)))) := by
  refine ⟨?_, ?_⟩
  · intro hinit d e hd he
    refine ⟨?_, ?_⟩
    · intro hcode
      have hrun : WSLFeatureManager.InstallRun sys s =
          WSLFeatureManager.InstallVerify sys false d.2 := by
        unfold WSLFeatureManager.InstallRun
        simp only [hinit, Bool.false_eq_true, if_false, ← hd]
        rw [if_neg]
        rcases hcode with h | h | h <;> simp [h]
      refine ⟨by simp only [WSLFeatureManager.Install, hrun], ?_⟩
      simp only [WSLFeatureManager.Install, hrun]
      have hq := CommandExecutor.IsWindowsFeatureEnabled_onlyRuns sys
        ["powershell.exe -Command \"" ++
          ("Get-WindowsOptionalFeature -Online -FeatureName " ++
            "Microsoft-Windows-Subsystem-Linux" ++ " | Select-Object -ExpandProperty State") ++
          "\""] "Microsoft-Windows-Subsystem-Linux" d.2 (by simp)
      unfold WSLFeatureManager.InstallVerify
      simp only
      split_ifs <;> exact hq
    · intro hcode
      have hcode' : d.1.1 ≠ 0 ∧ d.1.1 ≠ 1 ∧ d.1.1 ≠ 2 := by
        refine ⟨fun h => hcode (Or.inl h), fun h => hcode (Or.inr (Or.inl h)),
          fun h => hcode (Or.inr (Or.inr h))⟩
      refine ⟨fun hclear => ?_, ?_, ?_⟩
      · rw [he]
        exact CommandExecutor.EnableWindowsFeature_log sys _ d.2 hclear
      · intro hfail
        unfold WSLFeatureManager.Install WSLFeatureManager.InstallRun
        simp only [hinit, Bool.false_eq_true, if_false, ← hd, hcode', ne_eq, not_false_eq_true,
          and_self, if_true, ← he, hfail, Bool.not_false]
        rfl
      · intro hok
        unfold WSLFeatureManager.Install WSLFeatureManager.InstallRun
        simp only [hinit, Bool.false_eq_true, if_false, ← hd, hcode', ne_eq, not_false_eq_true,
          and_self, if_true, ← he, hok, Bool.not_true]
  · intro hinit d e hd he
    refine ⟨?_, ?_⟩
    · intro hcode
      have hrun : VirtualMachinePlatformManager.InstallRun sys s =
          VirtualMachinePlatformManager.InstallVerify sys false d.2 := by
        unfold VirtualMachinePlatformManager.InstallRun
        simp only [hinit, Bool.false_eq_true, if_false, ← hd]
        rw [if_pos hcode]
      refine ⟨by simp only [VirtualMachinePlatformManager.Install, hrun], ?_⟩
      simp only [VirtualMachinePlatformManager.Install, hrun]
      have hq := CommandExecutor.IsWindowsFeatureEnabled_onlyRuns sys
        ["powershell.exe -Command \"" ++
          ("Get-WindowsOptionalFeature -Online -FeatureName " ++
            "VirtualMachinePlatform" ++ " | Select-Object -ExpandProperty State") ++
          "\""] "VirtualMachinePlatform" d.2 (by simp)
      unfold VirtualMachinePlatformManager.InstallVerify
      simp only
      split_ifs <;> exact hq
    · intro hcode
      refine ⟨fun hclear => ?_, ?_, ?_⟩
      · rw [he]
        exact CommandExecutor.EnableWindowsFeature_log sys _ d.2 hclear
      · intro hfail
        unfold VirtualMachinePlatformManager.Install VirtualMachinePlatformManager.InstallRun
        simp only [hinit, Bool.false_eq_true, if_false, ← hd, hcode, ← he, hfail, Bool.not_false,
          if_true]
        rfl
      · intro hok
        unfold VirtualMachinePlatformManager.Install VirtualMachinePlatformManager.InstallRun
        simp only [hinit, Bool.false_eq_true, if_false, ← hd, hcode, ← he, hok, Bool.not_true]

/-- Witness for C22: on the demonstration machine where `dism.exe` is denied (exit code 5) the
fallback is run and fails, `Install` returns `Failed` with the DISM output, and the log shows
the feature query, DISM and the fallback, with no re-probe after it. -/
theorem feature_Install_fallback_witness :
    (WSLFeatureManager.Install Demo.sys Demo.lockedDown).1 =
      CreateFailureResult EnvironmentComponent.kWSL2
        ("Failed to enable WSL Windows feature: " ++ "Access is denied.") 2 ∧
    (WSLFeatureManager.Install Demo.sys Demo.lockedDown).2.log =
      [Event.ExecCommandEx ("powershell.exe -Command \"" ++
          ("Get-WindowsOptionalFeature -Online -FeatureName " ++
            "Microsoft-Windows-Subsystem-Linux" ++ " | Select-Object -ExpandProperty State") ++
          "\"") 300,
       Event.ExecCommandEx ("powershell.exe -Command \"" ++ ("dism.exe /online /enable-feature " ++
          "/featurename:Microsoft-Windows-Subsystem-Linux /all /norestart") ++ "\"") 300,
       Event.ExecCommandEx ("powershell.exe -Command \"" ++
          ("Enable-WindowsOptionalFeature -Online -FeatureName " ++
            "Microsoft-Windows-Subsystem-Linux" ++ " -NoRestart") ++ "\"") 300] :=
  ⟨congrArg Prod.fst
      ((((feature_Install_fallback Demo.sys Demo.lockedDown).1 (by decide) _ _ rfl rfl).2
        (by decide)).2.1 (by decide)),
    by decide⟩

theorem CudaToolkitInstaller.runSteps_cons (sys : Sys W) (ctx : ExecutionContext)
    (step : String × String × Int × Bool) (rest : List (String × String × Int × Bool))
    (s : State W) :
    CudaToolkitInstaller.runSteps sys ctx (step :: rest) s =
      if (CudaToolkitInstaller.runStep sys ctx step s).1 ≠ 0 then
        (some (CreateFailureResult CudaToolkitInstaller.GetComponentType
          ("Failed at step '" ++ step.1 ++ "': " ++ step.2.1) 21),
          (CudaToolkitInstaller.runStep sys ctx step s).2)
      else CudaToolkitInstaller.runSteps sys ctx rest
        (CudaToolkitInstaller.runStep sys ctx step s).2 := by
  obtain ⟨step_name, cmd, timeout, use_realtime⟩ := step
  cases use_realtime <;> simp [CudaToolkitInstaller.runSteps, CudaToolkitInstaller.runStep]

/-- The step loop stops at the first step whose exit code is not 0, in the state that step
left. -/
theorem CudaToolkitInstaller.runSteps_first_failure (sys : Sys W) (ctx : ExecutionContext)
    (step : String × String × Int × Bool) (post : List (String × String × Int × Bool)) :
    ∀ (pre : List (String × String × Int × Bool)) (s : State W),
      (∀ p1 x p2, pre = p1 ++ x :: p2 →
        (CudaToolkitInstaller.runStep sys ctx x
          (CudaToolkitInstaller.stateAfter sys ctx p1 s)).1 = 0) →
      (CudaToolkitInstaller.runStep sys ctx step
        (CudaToolkitInstaller.stateAfter sys ctx pre s)).1 ≠ 0 →
      CudaToolkitInstaller.runSteps sys ctx (pre ++ step :: post) s =
        (some (CreateFailureResult CudaToolkitInstaller.GetComponentType
          ("Failed at step '" ++ step.1 ++ "': " ++ step.2.1) 21),
          (CudaToolkitInstaller.runStep sys ctx step
            (CudaToolkitInstaller.stateAfter sys ctx pre s)).2) := by
  intro pre
  induction pre with
  | nil =>
    intro s _ hfail
    rw [List.nil_append, CudaToolkitInstaller.runSteps_cons]
    exact if_pos hfail
  | cons x rest ih =>
    intro s hpre hfail
    have hx : (CudaToolkitInstaller.runStep sys ctx x s).1 = 0 := hpre [] x rest rfl
    rw [List.cons_append, CudaToolkitInstaller.runSteps_cons, if_neg (by simpa using hx)]
    exact ih _ (fun p1 y p2 h => hpre (x :: p1) y p2 (by rw [h]; rfl)) hfail

/-- C23: in `CudaToolkitInstaller::Install` with the toolkit not detected at the start, the
nine steps are tried in their listed order, and at the first step whose exit code is not 0
(every step before it having exited with 0) `Install` returns `Failed` with error code 21 and
message "Failed at step '<step name>': <command>", in the state that step left: no later
step and no verification probe is executed. -/
theorem CudaToolkitInstaller_Install_stops_at_failed_step (sys : Sys W) (ctx : ExecutionContext)
    (s : State W) (pre post : List (String × String × Int × Bool))
    (step : String × String × Int × Bool)
    (hnot : (CudaToolkitInstaller.IsCudaToolkitInstalled sys ctx s).1 = false)
    (hsplit : CudaToolkitInstaller.commands ctx = pre ++ step :: post)
    (hpre : ∀ p1 x p2, pre = p1 ++ x :: p2 →
      (CudaToolkitInstaller.runStep sys ctx x (CudaToolkitInstaller.stateAfter sys ctx p1
        (CudaToolkitInstaller.IsCudaToolkitInstalled sys ctx s).2)).1 = 0)
    (hfail : (CudaToolkitInstaller.runStep sys ctx step (CudaToolkitInstaller.stateAfter sys ctx
      pre (CudaToolkitInstaller.IsCudaToolkitInstalled sys ctx s).2)).1 ≠ 0) :
    CudaToolkitInstaller.Install sys ctx s =
      (CreateFailureResult EnvironmentComponent.kCudaToolkit
        ("Failed at step '" ++ step.1 ++ "': " ++ step.2.1) 21,
        (CudaToolkitInstaller.runStep sys ctx step (CudaToolkitInstaller.stateAfter sys ctx pre
          (CudaToolkitInstaller.IsCudaToolkitInstalled sys ctx s).2)).2) ∧
    (CudaToolkitInstaller.commands ctx).map (·.1) =
      ["download_cuda_keyring", "install_cuda_keyring", "update_package_list",
        "install_cuda_toolkit", "add_cuda_to_bashrc", "add_cuda_lib_to_bashrc",
        "add_cuda_to_profile", "add_cuda_lib_to_profile", "create_cuda_env_script"] := by
  refine ⟨?_, rfl⟩
  unfold CudaToolkitInstaller.Install
  simp only [hnot, Bool.false_eq_true, if_false, hsplit]
  rw [CudaToolkitInstaller.runSteps_first_failure sys ctx step post pre _ hpre hfail]
  rfl

/-- Witness for C23: on the ready demonstration machine, whose distribution has no toolchain
and no network, the first step fails; the log holds the three detection commands and the
command of that step, and nothing after it. -/
theorem CudaToolkitInstaller_Install_stops_at_failed_step_witness :
    (CudaToolkitInstaller.Install Demo.sys Demo.ctx Demo.ready).1 =
      CreateFailureResult EnvironmentComponent.kCudaToolkit
        ("Failed at step 'download_cuda_keyring': wget " ++
          "https://developer.download.nvidia.com/compute/cuda/repos/wsl-ubuntu/" ++
          "x86_64/cuda-keyring_1.1-1_all.deb") 21 ∧
    (CudaToolkitInstaller.Install Demo.sys Demo.ctx Demo.ready).2.log.length = 4 :=
  ⟨congrArg Prod.fst
      (CudaToolkitInstaller_Install_stops_at_failed_step Demo.sys Demo.ctx Demo.ready []
        (CudaToolkitInstaller.commands Demo.ctx).tail
        ("download_cuda_keyring", "wget " ++
          "https://developer.download.nvidia.com/compute/cuda/repos/wsl-ubuntu/" ++
          "x86_64/cuda-keyring_1.1-1_all.deb", 300, false)
        (by decide) rfl (fun p1 x p2 h => absurd h (by simp)) (by decide)).1,
    by decide⟩

/-- C24 (counterexample): on the demonstration machine whose shell start-up files cannot be
written, both append steps of `CargoInstaller::Install` exit with 1, and `Install` still runs
the step after each of them and the verification probe, and returns `Success`. -/
theorem CargoInstaller_Install_success_despite_failed_append :
    (CargoInstaller.IsCargoInstalled Demo.readOnlyProfileSys Demo.ctx Demo.ready).1 = false ∧
    (CommandExecutor.ExecuteWSL Demo.readOnlyProfileSys Demo.ctx
      "echo 'export PATH=$HOME/.cargo/bin:$PATH' >> ~/.bashrc" 30 Demo.ready).1.1 = 1 ∧
    (CommandExecutor.ExecuteWSL Demo.readOnlyProfileSys Demo.ctx
      "echo 'export PATH=$HOME/.cargo/bin:$PATH' >> /etc/profile" 30 Demo.ready).1.1 = 1 ∧
    (CargoInstaller.Install Demo.readOnlyProfileSys Demo.ctx Demo.ready).1 =
      CreateSuccessResult EnvironmentComponent.kCargo "Rust Cargo installed successfully" ∧
    (CargoInstaller.Install Demo.readOnlyProfileSys Demo.ctx Demo.ready).2.log.map
        (fun e => match e with
          | Event.ExecCommandEx cmd _ => cmd
          | _ => "") =
      [utils.BuildWSLCommand "Ubuntu-24.04"
          ("source ~/.bashrc && cargo --version 2>/dev/null || ~/.cargo/bin/cargo " ++
            "--version 2>/dev/null || echo 'not found'"),
        utils.BuildWSLCommand "Ubuntu-24.04"
          ("curl --proto '=https' --tlsv1.2 -sSf https://sh.rustup.rs -o " ++ "/tmp/rustup.sh"),
        utils.BuildWSLCommand "Ubuntu-24.04" "sh /tmp/rustup.sh -y",
        utils.BuildWSLCommand "Ubuntu-24.04"
          "echo 'export PATH=$HOME/.cargo/bin:$PATH' >> ~/.bashrc",
        utils.BuildWSLCommand "Ubuntu-24.04"
          "echo 'export PATH=$HOME/.cargo/bin:$PATH' >> /etc/profile",
        utils.BuildWSLCommand "Ubuntu-24.04"
          ("source ~/.bashrc && cargo --version 2>/dev/null || ~/.cargo/bin/cargo " ++
            "--version 2>/dev/null || echo 'not found'")] := by
  decide

/-- C24 (amended): in `CargoInstaller::Install` with cargo not detected at the start: if
downloading the rustup script exits non-zero, `Install` returns `Failed`
(error code 22) with message "Failed to download rustup script: " and the output, in the
state the download left; if the download exits with 0 and running the script exits non-zero,
it returns `Failed` (22) with "Failed to install Rust: " and the output, in the state the
script left; in both cases no later step is executed.  If both exit with 0, the two append
steps are run one after the other whatever their exit codes are, then the verification probe,
and the result is `Success` or `Failed` by the probe alone. -/
theorem CargoInstaller_Install_steps (sys : Sys W) (ctx : ExecutionContext) (s : State W)
    (download_cmd install_cmd : String)
    (dl ins b pr : (Int × String) × State W) (v : Bool × State W)
    (hnot : (CargoInstaller.IsCargoInstalled sys ctx s).1 = false)
    (hdownload : download_cmd =
      if !ctx.proxy_url_.isEmpty then
        "ALL_PROXY=" ++ ctx.proxy_url_ ++ " " ++
          ("curl --proto '=https' --tlsv1.2 -sSf https://sh.rustup.rs -o " ++ "/tmp/rustup.sh")
      else "curl --proto '=https' --tlsv1.2 -sSf https://sh.rustup.rs -o " ++ "/tmp/rustup.sh")
    (hinstall : install_cmd =
      if !ctx.proxy_url_.isEmpty then
        "ALL_PROXY=" ++ ctx.proxy_url_ ++ " HTTPS_PROXY=" ++ ctx.proxy_url_ ++ " HTTP_PROXY=" ++
          ctx.proxy_url_ ++ " " ++ "sh /tmp/rustup.sh -y"
      else "sh /tmp/rustup.sh -y")
    (hdl : dl = CommandExecutor.ExecuteWSL sys ctx download_cmd 300
      (CargoInstaller.IsCargoInstalled sys ctx s).2)
    (hins : ins = CommandExecutor.ExecuteWSL sys ctx install_cmd 600 dl.2)
    (hb : b = CommandExecutor.ExecuteWSL sys ctx
      "echo 'export PATH=$HOME/.cargo/bin:$PATH' >> ~/.bashrc" 30 ins.2)
    (hpr : pr = CommandExecutor.ExecuteWSL sys ctx
      "echo 'export PATH=$HOME/.cargo/bin:$PATH' >> /etc/profile" 30 b.2)
    (hv : v = CargoInstaller.IsCargoInstalled sys ctx pr.2) :
    (dl.1.1 ≠ 0 → CargoInstaller.Install sys ctx s =
      (CreateFailureResult EnvironmentComponent.kCargo
        ("Failed to download rustup script: " ++ dl.1.2) 22, dl.2)) ∧
    (dl.1.1 = 0 → ins.1.1 ≠ 0 → CargoInstaller.Install sys ctx s =
      (CreateFailureResult EnvironmentComponent.kCargo
        ("Failed to install Rust: " ++ ins.1.2) 22, ins.2)) ∧
    (dl.1.1 = 0 → ins.1.1 = 0 → CargoInstaller.Install sys ctx s =
      (if v.1 then CreateSuccessResult EnvironmentComponent.kCargo
          "Rust Cargo installed successfully"
        else CreateFailureResult EnvironmentComponent.kCargo
          "Cargo installation completed but verification failed" 22, v.2)) := by
  refine ⟨?_, ?_, ?_⟩
  · intro h1
    unfold CargoInstaller.Install
    simp only [hnot, Bool.false_eq_true, if_false, ← hdownload, ← hdl, h1, ne_eq,
      not_false_eq_true, if_true]
    rfl
  · intro h1 h2
    unfold CargoInstaller.Install
    simp only [hnot, Bool.false_eq_true, if_false, ← hdownload, ← hinstall, ← hdl, h1, ne_eq,
      not_true_eq_false, ← hins, h2, not_false_eq_true, if_true]
    rfl
  · intro h1 h2
    unfold CargoInstaller.Install
    simp only [hnot, Bool.false_eq_true, if_false, ← hdownload, ← hinstall, ← hdl, h1, ne_eq,
      not_true_eq_false, ← hins, h2, ← hb, ← hpr, ← hv]
    rfl

/-- Witness for C24 (amended): on the ready demonstration machine, whose distribution has no
network, the download fails and `Install` returns at once. -/
theorem CargoInstaller_Install_steps_witness :
    (CargoInstaller.Install Demo.sys Demo.ctx Demo.ready).1 =
      CreateFailureResult EnvironmentComponent.kCargo
        ("Failed to download rustup script: " ++ "") 22 ∧
    (CargoInstaller.Install Demo.sys Demo.ctx Demo.ready).2.log.length = 2 :=
  ⟨congrArg Prod.fst
      ((CargoInstaller_Install_steps Demo.sys Demo.ctx Demo.ready _ _ _ _ _ _ _ (by decide)
        rfl rfl rfl rfl rfl rfl rfl).1 (by decide)),
    by decide⟩

/-- C25 (divergence): `UbuntuInstaller::Install` returns `Success` on two paths.  When the
install command was terminated by the polling callback (exit code -3) and the distribution is
then listed, `ExecutePowerShell("wsl --shutdown", 30)` is called once, after the listing.
When the install command exits by itself with code 0, `Success` is returned in the state the
command left: nothing is run after it, so no `wsl --shutdown`.  On the demonstration machine
where the install command exits with 0 at once, the distribution is not detected at the
start, `Install` returns `Success`, and the log holds the listing and the install command
only. -/
theorem UbuntuInstaller_Install_success_without_shutdown :
    (∀ (sys : Sys W) (ctx : ExecutionContext) (s : State W) (x : ExecResult × State W),
      (UbuntuInstaller.IsUbuntuInstalled sys ctx s).1 = false →
      x = utils.ExecCommandEx2 sys
        ("powershell.exe -Command \"" ++ ("wsl --install -d " ++ ctx.ubuntu_version_) ++ "\"")
        1200 (some (UbuntuInstaller.CheckUbuntuInstalled sys ctx)) false false
        (UbuntuInstaller.IsUbuntuInstalled sys ctx s).2 →
      (UbuntuInstaller.Install sys ctx s).1.status = InstallationStatus.kSuccess →
      (x.1.exit_code = -3 ∧ (UbuntuInstaller.CheckUbuntuInstalled sys ctx x.2).1 = true ∧
        (UbuntuInstaller.Install sys ctx s).2 =
          (CommandExecutor.ExecutePowerShell sys "wsl --shutdown" 30
            (UbuntuInstaller.CheckUbuntuInstalled sys ctx x.2).2).2) ∨
      (x.1.exit_code = 0 ∧ (UbuntuInstaller.Install sys ctx s).2 = x.2)) ∧
    (UbuntuInstaller.IsUbuntuInstalled Demo.quickExitSys Demo.ctx Demo.noDistro).1 = false ∧
    (UbuntuInstaller.Install Demo.quickExitSys Demo.ctx Demo.noDistro).1 =
      CreateSuccessResult EnvironmentComponent.kUbuntu
        ("Ubuntu-24.04" ++ " installed successfully") ∧
    (UbuntuInstaller.Install Demo.quickExitSys Demo.ctx Demo.noDistro).2.log =
      [Event.ExecCommandEx ("powershell.exe -Command \"" ++ "wsl --list --quiet" ++ "\"") 300,
        Event.ExecCommandEx2
          ("powershell.exe -Command \"" ++ ("wsl --install -d " ++ "Ubuntu-24.04") ++ "\"")
          1200] ∧
    Event.ExecCommandEx ("powershell.exe -Command \"" ++ "wsl --shutdown" ++ "\"") 30 ∉
      (UbuntuInstaller.Install Demo.quickExitSys Demo.ctx Demo.noDistro).2.log := by
  refine ⟨?_, by decide, by decide, by decide, by decide⟩
  intro sys ctx s x hnot hx hsucc
  unfold UbuntuInstaller.Install at hsucc ⊢
  simp only [hnot, Bool.false_eq_true, if_false, ← hx] at hsucc ⊢
  by_cases h3 : x.1.exit_code = -3
  · simp only [h3, if_true, true_and] at hsucc ⊢
    by_cases hc : (UbuntuInstaller.CheckUbuntuInstalled sys ctx x.2).1 = true
    · simp only [hc, if_true]
      exact Or.inl ⟨trivial, trivial⟩
    · rw [if_neg hc] at hsucc
      simp [CreateFailureResult] at hsucc
  · simp only [h3, if_false] at hsucc ⊢
    by_cases h0 : x.1.exit_code = 0
    · refine Or.inr ⟨h0, ?_⟩
      simp [h0]
    · simp [h0, CreateFailureResult] at hsucc

theorem utils.Utf16LeOfAscii_nil : utils.Utf16LeOfAscii [] = [] := rfl

theorem utils.Utf16LeOfAscii_cons (c : Nat) (text : List Nat) :
    utils.Utf16LeOfAscii (c :: text) = c :: 0 :: utils.Utf16LeOfAscii text := by
  simp [utils.Utf16LeOfAscii]

theorem utils.Utf16LeOfAscii_length (text : List Nat) :
    (utils.Utf16LeOfAscii text).length = 2 * text.length := by
  induction text with
  | nil => rfl
  | cons c rest ih =>
    rw [utils.Utf16LeOfAscii_cons]
    simp only [List.length_cons, ih]
    omega

theorem utils.Utf16LeOfAscii_no_cr (text : List Nat) (hprint : ∀ c ∈ text, 32 ≤ c ∧ c ≤ 126) :
    ∀ b ∈ utils.Utf16LeOfAscii text, b ≠ 0x0D := by
  induction text with
  | nil => intro b hb; simp [utils.Utf16LeOfAscii_nil] at hb
  | cons c rest ih =>
    intro b hb
    rw [utils.Utf16LeOfAscii_cons] at hb
    rcases List.mem_cons.1 hb with h | h
    · have := (hprint c (List.mem_cons_self _ _)).1
      omega
    · rcases List.mem_cons.1 h with h | h
      · omega
      · exact ih (fun x hx => hprint x (List.mem_cons_of_mem _ hx)) b h

/-- Without a carriage-return byte the outer loop of `FindUtf8StartPosition` finds no marker
and runs to its end, where the function returns `len`. -/
theorem utils.FindUtf8StartPosition.loop_no_cr (len : Nat) :
    ∀ (l : List Nat) (i : Nat), (∀ b ∈ l, b ≠ 0x0D) →
      utils.FindUtf8StartPosition.loop len l i = len := by
  intro l
  induction l with
  | nil => intro i _; rfl
  | cons b rest ih =>
    intro i h
    have hb := h b (List.mem_cons_self _ _)
    simp only [utils.FindUtf8StartPosition.loop, hb, false_and, if_false]
    split
    · exact ih _ (fun x hx => h x (List.mem_cons_of_mem _ hx))
    · rfl

theorem utils.ConvertUtf16LeToWString.loop_ascii :
    ∀ (text : List Nat), (∀ c ∈ text, 32 ≤ c ∧ c ≤ 126) →
      utils.ConvertUtf16LeToWString.loop (utils.Utf16LeOfAscii text) = text := by
  intro text
  induction text with
  | nil => intro _; rfl
  | cons c rest ih =>
    intro h
    have hc := h c (List.mem_cons_self _ _)
    rw [utils.Utf16LeOfAscii_cons]
    have hchar : ((0 <<< 8) ||| c) % 2 ^ 16 = c := by
      rw [Nat.zero_shiftLeft, Nat.zero_or]
      exact Nat.mod_eq_of_lt (by omega)
    simp only [utils.ConvertUtf16LeToWString.loop, hchar]
    rw [if_neg (by omega), if_pos (Or.inl hc.1), ih (fun x hx => h x (List.mem_cons_of_mem _ hx))]

theorem utils.ConvertWslOutputToUtf8.candidates_take :
    ∀ (text : List Nat) (k : Nat), (∀ c ∈ text, 32 ≤ c ∧ c ≤ 126) →
      utils.ConvertWslOutputToUtf8.candidates ((utils.Utf16LeOfAscii text).take (2 * k)) =
        min k text.length := by
  intro text
  induction text with
  | nil => intro k _; simp [utils.Utf16LeOfAscii_nil, utils.ConvertWslOutputToUtf8.candidates]
  | cons c rest ih =>
    intro k h
    have hc := h c (List.mem_cons_self _ _)
    cases k with
    | zero => simp [utils.ConvertWslOutputToUtf8.candidates]
    | succ k =>
      rw [utils.Utf16LeOfAscii_cons, show 2 * (k + 1) = (2 * k + 1) + 1 by ring,
        List.take_succ_cons, List.take_succ_cons]
      simp only [utils.ConvertWslOutputToUtf8.candidates, true_and]
      rw [if_pos ⟨hc.1, hc.2⟩, ih k (fun x hx => h x (List.mem_cons_of_mem _ hx))]
      simp only [List.length_cons]
      omega

/-- C26 (divergence): for every standard-error byte string that is the UTF-16LE encoding of a
printable-ASCII text of two or more characters, `FindUtf8StartPosition` finds no marker and
returns the length of the input, not `npos`; `ConvertWslOutputToUtf8(bytes, true)` takes that
for the start of a UTF-8 part and returns the empty string, not the text, although
`ConvertUtf16LeToWString`, which it would try next, decodes the text, and although the same
bytes on standard output are decoded when the text has three or more characters.
`ExecuteWSL` then has an empty decoded text for non-empty raw bytes and merges the raw 16-bit
bytes: on the demonstration machine the merged output of a failing command is "b", 0, "a",
0, "d", 0. -/
theorem ConvertWslOutputToUtf8_stderr_utf16_lost (UnicodeToUtf8 : List Nat → List Nat)
    (text : List Nat) (hprint : ∀ c ∈ text, 32 ≤ c ∧ c ≤ 126) (hlen : 2 ≤ text.length) :
    utils.FindUtf8StartPosition (utils.Utf16LeOfAscii text) =
      some (utils.Utf16LeOfAscii text).length ∧
    utils.ConvertWslOutputToUtf8 UnicodeToUtf8 (utils.Utf16LeOfAscii text) true = [] ∧
    utils.ConvertWslOutputToUtf8 UnicodeToUtf8 (utils.Utf16LeOfAscii text) true ≠ text ∧
    utils.ConvertUtf16LeToWString (utils.Utf16LeOfAscii text) = text ∧
    (3 ≤ text.length →
      utils.ConvertWslOutputToUtf8 UnicodeToUtf8 (utils.Utf16LeOfAscii text) false =
        UnicodeToUtf8 text) ∧
    (CommandExecutor.ExecuteWSL Demo.utf16StderrSys Demo.ctx "ninja --version" 300
      Demo.ready).1 = (1, "b\x00a\x00d\x00") := by
  have hlength := utils.Utf16LeOfAscii_length text
  have hne : text ≠ [] := by
    intro h
    rw [h] at hlen
    simp at hlen
  have hencne : (utils.Utf16LeOfAscii text).isEmpty = false := by
    cases text with
    | nil => exact absurd rfl hne
    | cons c rest => rw [utils.Utf16LeOfAscii_cons]; rfl
  have hfind : utils.FindUtf8StartPosition (utils.Utf16LeOfAscii text) =
      some (utils.Utf16LeOfAscii text).length := by
    unfold utils.FindUtf8StartPosition
    simp only
    rw [if_neg (by omega),
      utils.FindUtf8StartPosition.loop_no_cr _ _ _ (utils.Utf16LeOfAscii_no_cr text hprint)]
  have hconv : utils.ConvertWslOutputToUtf8 UnicodeToUtf8 (utils.Utf16LeOfAscii text) true
      = [] := by
    unfold utils.ConvertWslOutputToUtf8
    simp only [hencne, Bool.false_eq_true, if_false, if_true, hfind, List.drop_length]
  have hdecode : utils.ConvertUtf16LeToWString (utils.Utf16LeOfAscii text) = text := by
    unfold utils.ConvertUtf16LeToWString
    simp only [hencne, Bool.false_eq_true, if_false]
    have heven : ¬ ((utils.Utf16LeOfAscii text).length % 2 ≠ 0) := by omega
    simp only [heven, if_false]
    rw [if_neg (by omega), List.take_length,
      utils.ConvertUtf16LeToWString.loop_ascii text hprint]
  refine ⟨hfind, hconv, by rw [hconv]; exact fun h => hne h.symm, hdecode, ?_, by decide⟩
  intro h3
  unfold utils.ConvertWslOutputToUtf8
  simp only [hencne, Bool.false_eq_true, if_false]
  have hcond : (utils.Utf16LeOfAscii text).length ≥ 4 ∧
      (utils.Utf16LeOfAscii text).length % 2 = 0 := by omega
  have htextne : (text.isEmpty) = false := by
    cases text with
    | nil => exact absurd rfl hne
    | cons c rest => rfl
  simp only [hcond, and_self, if_true, hdecode, htextne, Bool.not_false]
  by_cases h20 : (utils.Utf16LeOfAscii text).length < 20
  · simp only [h20, if_true]
    rw [List.take_length, ← List.take_length (l := utils.Utf16LeOfAscii text), hlength,
      utils.ConvertWslOutputToUtf8.candidates_take text _ hprint]
    simp only [min_self]
    rw [if_pos (by simpa using h3)]
  · simp only [h20, if_false]
    rw [show (20 : Nat) = 2 * 10 by rfl, utils.ConvertWslOutputToUtf8.candidates_take text _ hprint]
    have : min 10 text.length > 2 := by omega
    rw [if_pos (by simpa using this)]

/-- Witness for C26: the text "bad". -/
theorem ConvertWslOutputToUtf8_stderr_utf16_lost_witness :
    utils.Utf16LeOfAscii [98, 97, 100] = [98, 0, 97, 0, 100, 0] ∧
    utils.ConvertWslOutputToUtf8 (fun wstr => wstr) [98, 0, 97, 0, 100, 0] true = [] ∧
    utils.ConvertWslOutputToUtf8 (fun wstr => wstr) [98, 0, 97, 0, 100, 0] false =
      [98, 97, 100] :=
  ⟨rfl,
    (ConvertWslOutputToUtf8_stderr_utf16_lost (fun wstr => wstr) [98, 97, 100] (by decide)
      (by decide)).2.1,
    (ConvertWslOutputToUtf8_stderr_utf16_lost (fun wstr => wstr) [98, 97, 100] (by decide)
      (by decide)).2.2.2.2.1 (by decide)⟩

namespace EnvironmentInstaller

/-- Where the search ends with `vm_result` set, it points at a Virtual Machine Platform
entry, or was set so before. -/
theorem ProcessVirtualizationResults.scan_fst_sound :
    ∀ (l : List ComponentResult) (i : Nat) (found : Option Nat × Option Nat) (k : Nat),
      (ProcessVirtualizationResults.scan l i found).1 = some k →
      found.1 = some k ∨
        (i ≤ k ∧ ∃ r, l.get? (k - i) = some r ∧
          r.component = EnvironmentComponent.kVirtualMachinePlatform) := by
  intro l
  induction l with
  | nil =>
    intro i found k h
    exact Or.inl h
  | cons r rest ih =>
    intro i found k h
    obtain ⟨v, b⟩ := found
    simp only [ProcessVirtualizationResults.scan] at h
    have shift : ∀ r', (i + 1 ≤ k ∧ rest.get? (k - (i + 1)) = some r') →
        (i ≤ k ∧ (r :: rest).get? (k - i) = some r') := by
      intro r' hr
      refine ⟨by omega, ?_⟩
      have : k - i = (k - (i + 1)) + 1 := by omega
      rw [this, List.get?_cons_succ]
      exact hr.2
    split_ifs at h with h1 h2
    · rcases ih _ _ _ h with h' | ⟨hk, r', hr', hc⟩
      · simp only [Option.some.injEq] at h'
        subst h'
        exact Or.inr ⟨le_refl _, r, by simp, h1⟩
      · exact Or.inr ⟨(shift r' ⟨hk, hr'⟩).1, r', (shift r' ⟨hk, hr'⟩).2, hc⟩
    · rcases ih _ _ _ h with h' | ⟨hk, r', hr', hc⟩
      · exact Or.inl h'
      · exact Or.inr ⟨(shift r' ⟨hk, hr'⟩).1, r', (shift r' ⟨hk, hr'⟩).2, hc⟩
    · rcases ih _ _ _ h with h' | ⟨hk, r', hr', hc⟩
      · exact Or.inl h'
      · exact Or.inr ⟨(shift r' ⟨hk, hr'⟩).1, r', (shift r' ⟨hk, hr'⟩).2, hc⟩

/-- What `ProcessVirtualizationResults` returns: the list itself, or the list with the entry
the pointer `vm_result` ends at, a Virtual Machine Platform entry of status `Skipped`,
replaced. -/
theorem ProcessVirtualizationResults_cases (results : List ComponentResult) :
    ProcessVirtualizationResults results = results ∨
    ∃ (k : Nat) (vm new_vm : ComponentResult),
      (ProcessVirtualizationResults.scan results 0 (none, none)).1 = some k ∧
      results.get? k = some vm ∧
      vm.component = EnvironmentComponent.kVirtualMachinePlatform ∧
      vm.status = InstallationStatus.kSkipped ∧
      ProcessVirtualizationResults results = results.set k new_vm := by
  unfold ProcessVirtualizationResults
  split
  · rename_i vm_result bios_result hscan
    split
    · rename_i vm bios hvm hbios
      have hk : (ProcessVirtualizationResults.scan results 0 (none, none)).1 = some vm_result := by
        rw [hscan]
      have hcomp : vm.component = EnvironmentComponent.kVirtualMachinePlatform := by
        rcases ProcessVirtualizationResults.scan_fst_sound results 0 (none, none) vm_result hk
          with h | ⟨-, r, hr, hc⟩
        · exact absurd h (by simp)
        · simp only [Nat.sub_zero] at hr
          rw [hvm] at hr
          exact (Option.some.inj hr) ▸ hc
      split_ifs with h1 h2
      · exact Or.inr ⟨vm_result, vm, _, hk, hvm, hcomp, h1.1, rfl⟩
      · exact Or.inr ⟨vm_result, vm, _, hk, hvm, hcomp, h2.1, rfl⟩
      · exact Or.inl rfl
    · exact Or.inl rfl
  · exact Or.inl rfl

/-- The frame of `ProcessVirtualizationResults`: the length stays, and an entry that differs
was a Virtual Machine Platform entry. -/
theorem ProcessVirtualizationResults_frame (results : List ComponentResult) :
    (ProcessVirtualizationResults results).length = results.length ∧
    ∀ i, (ProcessVirtualizationResults results).get? i ≠ results.get? i →
      ∃ r, results.get? i = some r ∧
        r.component = EnvironmentComponent.kVirtualMachinePlatform := by
  rcases ProcessVirtualizationResults_cases results with h | ⟨k, vm, new_vm, -, hvm, hc, -, h⟩
  · rw [h]
    exact ⟨rfl, fun i hi => absurd rfl hi⟩
  · rw [h]
    refine ⟨List.length_set _ _ _, ?_⟩
    intro i hi
    by_cases hik : i = k
    · subst hik
      exact ⟨vm, hvm, hc⟩
    · exfalso
      apply hi
      simp only [List.get?_eq_getElem?]
      rw [List.getElem?_set_ne (fun h => hik h.symm)]

theorem List.exists_last_of_exists {α : Type} (P : α → Prop) :
    ∀ (l : List α), (∃ x ∈ l, P x) →
      ∃ pre x post, l = pre ++ x :: post ∧ P x ∧ ∀ y ∈ post, ¬ P y := by
  intro l
  induction l with
  | nil => intro h; obtain ⟨x, hx, -⟩ := h; simp at hx
  | cons a rest ih =>
    intro h
    by_cases hrest : ∃ x ∈ rest, P x
    · obtain ⟨pre, x, post, h1, h2, h3⟩ := ih hrest
      exact ⟨a :: pre, x, post, by rw [h1]; rfl, h2, h3⟩
    · obtain ⟨x, hx, hp⟩ := h
      rcases List.mem_cons.1 hx with hxa | hxr
      · subst hxa
        exact ⟨[], x, rest, rfl, hp, fun y hy hpy => hrest ⟨y, hy, hpy⟩⟩
      · exact absurd ⟨x, hxr, hp⟩ hrest

/-- C27: for every result list, `ProcessVirtualizationResults` keeps the length of the list
and the kind at every position, and an entry that differs afterwards was a Virtual Machine
Platform entry; it is the identity when the list has no Virtual Machine Platform entry, when
it has no BIOS Virtualization entry, and when the status of the Virtual Machine Platform
entry (the last one, should there be several) is not `Skipped`. -/
theorem ProcessVirtualizationResults_frame_effect (results : List ComponentResult) :
    (ProcessVirtualizationResults results).length = results.length ∧
    (ProcessVirtualizationResults results).map (·.component) = results.map (·.component) ∧
    (∀ i, (ProcessVirtualizationResults results).get? i ≠ results.get? i →
      ∃ r, results.get? i = some r ∧
        r.component = EnvironmentComponent.kVirtualMachinePlatform) ∧
    ((∀ r ∈ results, r.component ≠ EnvironmentComponent.kVirtualMachinePlatform) →
      ProcessVirtualizationResults results = results) ∧
    ((∀ r ∈ results, r.component ≠ EnvironmentComponent.kBIOSVirtualization) →
      ProcessVirtualizationResults results = results) ∧
    ((∀ pre vm post, results = pre ++ vm :: post →
        vm.component = EnvironmentComponent.kVirtualMachinePlatform →
        (∀ r ∈ post, r.component ≠ EnvironmentComponent.kVirtualMachinePlatform) →
        vm.status ≠ InstallationStatus.kSkipped) →
      ProcessVirtualizationResults results = results) := by
  refine ⟨(ProcessVirtualizationResults_frame results).1,
    ProcessVirtualizationResults_kinds results, (ProcessVirtualizationResults_frame results).2,
    ?_, ?_, ?_⟩
  · intro h
    unfold ProcessVirtualizationResults
    have := ProcessVirtualizationResults.scan_fst_of_no_vm results 0 (none, none) h
    split
    · rename_i hscan
      rw [hscan] at this
      simp at this
    · rfl
  · intro h
    unfold ProcessVirtualizationResults
    have := ProcessVirtualizationResults.scan_snd_of_no_bios results 0 (none, none) h
    split
    · rename_i hscan
      rw [hscan] at this
      simp at this
    · rfl
  · intro h
    rcases ProcessVirtualizationResults_cases results with hid | ⟨k, vm, new_vm, hk, hvm, hc, hs, -⟩
    · exact hid
    · exfalso
      obtain ⟨pre, x, post, h1, h2, h3⟩ := List.exists_last_of_exists
        (fun r : ComponentResult => r.component = EnvironmentComponent.kVirtualMachinePlatform)
        results ⟨vm, List.get?_mem hvm, hc⟩
      have hidx := ProcessVirtualizationResults.scan_fst x post h2 h3 pre 0 (none, none)
      rw [← h1, hk] at hidx
      simp only [Nat.zero_add, Option.some.injEq] at hidx
      have hx : results.get? k = some x := by
        rw [h1, hidx]
        exact List.get?_append_cons_length pre x post
      rw [hvm] at hx
      have hxe : vm = x := Option.some.inj hx
      exact h pre x post h1 h2 h3 (hxe ▸ hs)

end EnvironmentInstaller

namespace EnvironmentInstaller

/-- With a result callback, the check loop hands every result it appends to the callback. -/
theorem CheckEnvironment.walk_callbacks (inst : EnvironmentInstaller W)
    (progress_callback_ : ProgressCallback W) (component_callback : ComponentCheckCallback W)
    (hsome : component_callback.isSome = true) :
    ∀ (l : List EnvironmentComponent) (a r : Run W),
      (CheckEnvironment.walk inst progress_callback_ component_callback l a = Flow.next r ∨
        CheckEnvironment.walk inst progress_callback_ component_callback l a = Flow.ret r) →
      a.callbacks = a.result.component_results →
      r.callbacks = r.result.component_results := by
  intro l
  induction l with
  | nil =>
    intro a r h ha
    rcases h with h | h
    · simp only [CheckEnvironment.walk, Flow.next.injEq] at h
      subst h
      exact ha
    · simp [CheckEnvironment.walk] at h
  | cons t rest ih =>
    intro a r h ha
    cases hc : inst.components_ t with
    | none =>
      rw [CheckEnvironment.walk_cons_none _ _ _ _ _ _ hc] at h
      exact ih a r h ha
    | some component =>
      rw [CheckEnvironment.walk_cons_some _ _ _ _ _ _ _ hc] at h
      generalize ExecuteComponentOperation progress_callback_ component false component_callback
        a.state = x at h
      have hpush : (a.push t false component_callback x).callbacks =
          (a.push t false component_callback x).result.component_results := by
        simp [Run.push, hsome, ha]
      split_ifs at h
      · rcases h with h | h
        · simp at h
        · simp only [Flow.ret.injEq] at h
          subst h
          exact hpush
      · exact ih _ r h hpush

/-- A progress report leaves alone what the progress callback leaves alone. -/
theorem ReportProgress_observed {α : Type} (obs : Machine W → α)
    (progress_callback_ : ProgressCallback W)
    (hprogress : ∀ f, progress_callback_ = some f → ∀ step message percent m,
      obs (f step message percent m) = obs m)
    (step message : String) (progress_percent : Int) (s : State W) :
    obs (ReportProgress progress_callback_ step message progress_percent s).toMachine =
      obs s.toMachine := by
  cases progress_callback_ with
  | none => rfl
  | some f => exact hprogress f rfl step message progress_percent s.toMachine

/-- One check operation with a result callback, seen through an observation `obs` of the
machine that the progress callback and this check leave alone: the operation changes it by
the one call of the callback, on the result the operation returns. -/
theorem ExecuteComponentOperation_observed {α : Type} (obs : Machine W → α)
    (progress_callback_ : ProgressCallback W)
    (hprogress : ∀ f, progress_callback_ = some f → ∀ step message percent m,
      obs (f step message percent m) = obs m)
    (component : Component W) (callback : ComponentResult → Machine W → Machine W)
    (s : State W)
    (hcheck : obs (component.Check (ExecuteComponentOperation progress_callback_ component false
        (some callback) s).invoked_at).2.toMachine =
      obs (ExecuteComponentOperation progress_callback_ component false
        (some callback) s).invoked_at.toMachine) :
    ∃ m : Machine W,
      (ExecuteComponentOperation progress_callback_ component false (some callback)
        s).state.toMachine =
        callback (ExecuteComponentOperation progress_callback_ component false (some callback)
          s).result m ∧
      obs m = obs s.toMachine := by
  unfold ExecuteComponentOperation at hcheck ⊢
  simp only [Bool.false_eq_true, if_false] at hcheck ⊢
  refine ⟨_, rfl, ?_⟩
  rw [hcheck]
  unfold ReportComponentProgress
  exact ReportProgress_observed obs progress_callback_ hprogress _ _ _ s

/-- The check loop with a result callback, seen through an observation `obs` of the machine
that only the result callback changes: at the end the observation is the one at the start
changed by one call of the callback for every value of the list `callbacks`, in order. -/
theorem CheckEnvironment.walk_observed {α : Type} (obs : Machine W → α)
    (received : α → ComponentResult → α) (inst : EnvironmentInstaller W)
    (progress_callback_ : ProgressCallback W)
    (callback : ComponentResult → Machine W → Machine W)
    (hcallback : ∀ result m, obs (callback result m) = received (obs m) result)
    (hprogress : ∀ f, progress_callback_ = some f → ∀ step message percent m,
      obs (f step message percent m) = obs m)
    (start : α) :
    ∀ (l : List EnvironmentComponent) (a r : Run W),
      (CheckEnvironment.walk inst progress_callback_ (some callback) l a = Flow.next r ∨
        CheckEnvironment.walk inst progress_callback_ (some callback) l a = Flow.ret r) →
      obs a.state.toMachine = a.callbacks.foldl received start →
      (∀ op ∈ r.ops, ∀ component ∈ inst.components_ op.component_type,
        obs (component.Check op.invoked_at).2.toMachine = obs op.invoked_at.toMachine) →
      obs r.state.toMachine = r.callbacks.foldl received start := by
  intro l
  induction l with
  | nil =>
    intro a r h ha _
    rcases h with h | h
    · simp only [CheckEnvironment.walk, Flow.next.injEq] at h
      subst h
      exact ha
    · simp [CheckEnvironment.walk] at h
  | cons t rest ih =>
    intro a r h ha hr
    cases hc : inst.components_ t with
    | none =>
      rw [CheckEnvironment.walk_cons_none _ _ _ _ _ _ hc] at h
      exact ih a r h ha hr
    | some component =>
      have hsub : ∀ o ∈ (a.push t false (some callback) (ExecuteComponentOperation
          progress_callback_ component false (some callback) a.state)).ops, o ∈ r.ops := by
        rw [CheckEnvironment.walk_cons_some _ _ _ _ _ _ _ hc] at h
        obtain ⟨n1, r1⟩ := CheckEnvironment.walk_spec inst progress_callback_ (some callback)
          rest (a.push t false (some callback) (ExecuteComponentOperation
            progress_callback_ component false (some callback) a.state))
        intro o ho
        split_ifs at h
        · rcases h with h | h
          · simp at h
          · simp only [Flow.ret.injEq] at h
            subst h
            exact ho
        · rcases h with h | h
          · obtain ⟨new, e1, -⟩ := n1 r h
            rw [e1]
            exact List.mem_append_left _ ho
          · obtain ⟨pre, o', l1, l2, e1, -⟩ := r1 r h
            rw [e1, List.append_assoc]
            exact List.mem_append_left _ ho
      rw [CheckEnvironment.walk_cons_some _ _ _ _ _ _ _ hc] at h
      have hmem : (ExecuteComponentOperation progress_callback_ component false (some callback)
          a.state).record t false ∈ r.ops := hsub _ (by simp [Run.push])
      have hcheck := hr _ hmem component hc
      obtain ⟨m, hm, hobs⟩ := ExecuteComponentOperation_observed obs progress_callback_ hprogress
        component callback a.state hcheck
      generalize ExecuteComponentOperation progress_callback_ component false (some callback)
        a.state = x at hm h
      have hpush : obs (a.push t false (some callback) x).state.toMachine =
          (a.push t false (some callback) x).callbacks.foldl received start := by
        simp only [Run.push, Option.isSome_some, if_true, List.foldl_append, List.foldl_cons,
          List.foldl_nil]
        rw [hm, hcallback, hobs, ha]
      split_ifs at h
      · rcases h with h | h
        · simp at h
        · simp only [Flow.ret.injEq] at h
          subst h
          exact hpush
      · exact ih _ r h hpush hr

/-- C28: in every run of `CheckEnvironment` with a result callback, the callback is invoked
once per reported result, in result order.  The values handed to it (`callbacks`) are as many
as the returned results and of the same kinds position by position, and each equals the
returned entry at its position unless that entry is the Virtual Machine Platform one, which
post-processing may have rewritten after the callback saw it; the returned sequence is the
received one, or the received one post-processed.  And these are the calls the run makes:
whatever of the machine only the result callback changes (an observation `obs` that the
progress callback and the checks of the run leave alone, and that a call of the callback on
`result` takes from `x` to `received x result`) is at the end of the run what it was at the
start, changed by one call for every handed value, in order: no call more, none less, none on
another value. -/
theorem CheckEnvironment_callback_per_result (inst : EnvironmentInstaller W)
    (progress_callback_ : ProgressCallback W)
    (callback : ComponentResult → Machine W → Machine W) (s : State W) :
    (CheckEnvironment inst progress_callback_ (some callback) s).callbacks.length =
      (CheckEnvironment inst progress_callback_
        (some callback) s).result.component_results.length ∧
    (CheckEnvironment inst progress_callback_ (some callback) s).callbacks.map (·.component) =
      (CheckEnvironment inst progress_callback_
        (some callback) s).result.component_results.map (·.component) ∧
    (∀ i, (CheckEnvironment inst progress_callback_
          (some callback) s).result.component_results.get? i ≠
        (CheckEnvironment inst progress_callback_ (some callback) s).callbacks.get? i →
      ∃ r, (CheckEnvironment inst progress_callback_ (some callback) s).callbacks.get? i
          = some r ∧
        r.component = EnvironmentComponent.kVirtualMachinePlatform) ∧
    ((CheckEnvironment inst progress_callback_ (some callback) s).result.component_results =
        (CheckEnvironment inst progress_callback_ (some callback) s).callbacks ∨
      (CheckEnvironment inst progress_callback_ (some callback) s).result.component_results =
        ProcessVirtualizationResults
          (CheckEnvironment inst progress_callback_ (some callback) s).callbacks) ∧
    (∀ (α : Type) (obs : Machine W → α) (received : α → ComponentResult → α),
      (∀ result m, obs (callback result m) = received (obs m) result) →
      (∀ f, progress_callback_ = some f → ∀ step message percent m,
        obs (f step message percent m) = obs m) →
      (∀ op ∈ (CheckEnvironment inst progress_callback_ (some callback) s).ops,
        ∀ component ∈ inst.components_ op.component_type,
          obs (component.Check op.invoked_at).2.toMachine = obs op.invoked_at.toMachine) →
      obs (CheckEnvironment inst progress_callback_ (some callback) s).state.toMachine =
        (CheckEnvironment inst progress_callback_ (some callback) s).callbacks.foldl received
          (obs s.toMachine)) := by
  have key : ∀ (results callbacks : List ComponentResult),
      (results = callbacks ∨ results = ProcessVirtualizationResults callbacks) →
      callbacks.length = results.length ∧
      callbacks.map (·.component) = results.map (·.component) ∧
      (∀ i, results.get? i ≠ callbacks.get? i →
        ∃ r, callbacks.get? i = some r ∧
          r.component = EnvironmentComponent.kVirtualMachinePlatform) ∧
      (results = callbacks ∨ results = ProcessVirtualizationResults callbacks) := by
    intro results callbacks h
    rcases h with h | h
    · subst h
      exact ⟨rfl, rfl, fun i hi => absurd rfl hi, Or.inl rfl⟩
    · subst h
      exact ⟨(ProcessVirtualizationResults_frame callbacks).1.symm,
        (ProcessVirtualizationResults_kinds callbacks).symm,
        (ProcessVirtualizationResults_frame callbacks).2, Or.inr rfl⟩
  have hlist : (CheckEnvironment inst progress_callback_ (some callback) s).result.component_results =
        (CheckEnvironment inst progress_callback_ (some callback) s).callbacks ∨
      (CheckEnvironment inst progress_callback_ (some callback) s).result.component_results =
        ProcessVirtualizationResults
          (CheckEnvironment inst progress_callback_ (some callback) s).callbacks := by
    unfold CheckEnvironment
    by_cases hadmin : inst.CheckAdminPrivileges
        (ReportProgress progress_callback_ "check_environment" "Starting environment check..." 0 s)
        = true
    · simp only [hadmin, Bool.not_true, Bool.false_eq_true, if_false]
      have hwalk := CheckEnvironment.walk_callbacks inst progress_callback_ (some callback) rfl
        ComponentFactory.GetAllComponents
        ⟨⟨[], false, ""⟩,
          ReportProgress progress_callback_ "check_environment" "Starting environment check..." 0 s,
          [], []⟩
      cases hw : CheckEnvironment.walk inst progress_callback_ (some callback)
          ComponentFactory.GetAllComponents
          ⟨⟨[], false, ""⟩,
            ReportProgress progress_callback_ "check_environment" "Starting environment check..."
              0 s, [], []⟩ with
      | ret r =>
        exact Or.inl (hwalk r (Or.inr hw) rfl).symm
      | next r =>
        simp only
        rw [hwalk r (Or.inl hw) rfl]
        exact Or.inr rfl
    · simp only [Bool.not_eq_true] at hadmin
      simp [hadmin]
  obtain ⟨k1, k2, k3, k4⟩ := key _ _ hlist
  refine ⟨k1, k2, k3, k4, ?_⟩
  intro α obs received hcallback hprogress hchecks
  have hs0 := ReportProgress_observed obs progress_callback_ hprogress "check_environment"
    "Starting environment check..." 0 s
  unfold CheckEnvironment at hchecks ⊢
  by_cases hadmin : inst.CheckAdminPrivileges
      (ReportProgress progress_callback_ "check_environment" "Starting environment check..." 0 s)
      = true
  · simp only [hadmin, Bool.not_true, Bool.false_eq_true, if_false] at hchecks ⊢
    have hwalk := CheckEnvironment.walk_observed obs received inst progress_callback_ callback
      hcallback hprogress (obs s.toMachine) ComponentFactory.GetAllComponents
      ⟨⟨[], false, ""⟩,
        ReportProgress progress_callback_ "check_environment" "Starting environment check..." 0 s,
        [], []⟩
    cases hw : CheckEnvironment.walk inst progress_callback_ (some callback)
        ComponentFactory.GetAllComponents
        ⟨⟨[], false, ""⟩,
          ReportProgress progress_callback_ "check_environment" "Starting environment check..."
            0 s, [], []⟩ with
    | ret r =>
      rw [hw] at hchecks
      exact hwalk r (Or.inr hw) hs0 hchecks
    | next r =>
      rw [hw] at hchecks
      simp only at hchecks ⊢
      rw [ReportProgress_observed obs progress_callback_ hprogress]
      exact hwalk r (Or.inl hw) hs0 hchecks
  · simp only [Bool.not_eq_true] at hadmin
    simp only [hadmin, Bool.not_false, if_true, Option.isSome_some, List.foldl_cons,
      List.foldl_nil]
    rw [hcallback, hs0]

end EnvironmentInstaller

namespace EnvironmentInstaller

theorem ReportProgress_stop_requested (progress_callback_ : ProgressCallback W)
    (hprogress : ∀ f, progress_callback_ = some f → ∀ step message percent m,
      (f step message percent m).stop_requested_ = m.stop_requested_)
    (step message : String) (progress_percent : Int) (s : State W) :
    (ReportProgress progress_callback_ step message progress_percent s).stop_requested_ =
      s.stop_requested_ := by
  cases progress_callback_ with
  | none => rfl
  | some f => exact hprogress f rfl step message progress_percent s.toMachine

theorem ExecuteComponentOperation_invoked_at (progress_callback_ : ProgressCallback W)
    (hprogress : ∀ f, progress_callback_ = some f → ∀ step message percent m,
      (f step message percent m).stop_requested_ = m.stop_requested_)
    (component : Component W) (perform_installation : Bool) (callback : ComponentCheckCallback W)
    (s : State W) :
    (ExecuteComponentOperation progress_callback_ component perform_installation callback
      s).invoked_at.stop_requested_ = s.stop_requested_ := by
  unfold ExecuteComponentOperation ReportComponentProgress
  exact ReportProgress_stop_requested progress_callback_ hprogress _ _ _ s

/-- With a progress callback that leaves the stop flag alone, a phase loop entered with the
flag clear enters every operation with the flag clear, and is left at its end with the flag
clear. -/
theorem InstallEnvironment.phase_invoked_clear (inst : EnvironmentInstaller W)
    (progress_callback : ProgressCallback W)
    (hprogress : ∀ f, progress_callback = some f → ∀ step message percent m,
      (f step message percent m).stop_requested_ = m.stop_requested_)
    (perform_installation : Bool) (heading : String) :
    ∀ (l : List EnvironmentComponent) (a : Run W),
      a.state.stop_requested_ = false →
      (∀ o ∈ a.ops, o.invoked_at.stop_requested_ = false) →
      (∀ r, InstallEnvironment.phase inst progress_callback perform_installation heading l a
          = Flow.next r →
        (∀ o ∈ r.ops, o.invoked_at.stop_requested_ = false) ∧ r.state.stop_requested_ = false) ∧
      (∀ r, InstallEnvironment.phase inst progress_callback perform_installation heading l a
          = Flow.ret r →
        ∀ o ∈ r.ops, o.invoked_at.stop_requested_ = false) := by
  intro l
  induction l with
  | nil =>
    intro a hs ha
    refine ⟨?_, ?_⟩
    · intro r h
      simp only [InstallEnvironment.phase, Flow.next.injEq] at h
      subst h
      exact ⟨ha, hs⟩
    · intro r h
      simp [InstallEnvironment.phase] at h
  | cons t rest ih =>
    intro a hs ha
    cases hc : inst.components_ t with
    | none =>
      rw [InstallEnvironment.phase_cons_none _ _ _ _ _ _ _ hc]
      exact ih a hs ha
    | some component =>
      rw [InstallEnvironment.phase_cons_some _ _ _ _ _ _ _ _ hc]
      have hinv := ExecuteComponentOperation_invoked_at progress_callback hprogress component
        perform_installation none a.state
      rw [hs] at hinv
      generalize ExecuteComponentOperation progress_callback component perform_installation none
        a.state = x at hinv ⊢
      have hops : ∀ o ∈ (a.push t perform_installation none x).ops,
          o.invoked_at.stop_requested_ = false := by
        intro o ho
        simp only [Run.push, List.mem_append, List.mem_singleton] at ho
        rcases ho with ho | ho
        · exact ha o ho
        · rw [ho]
          exact hinv
      by_cases hf : x.result.status = InstallationStatus.kFailed
      · rw [if_pos hf]
        refine ⟨fun r h => by simp at h, ?_⟩
        intro r h
        simp only [Flow.ret.injEq] at h
        subst h
        exact hops
      · rw [if_neg hf]
        by_cases hstop : x.state.IsStopRequested = true
        · rw [if_pos hstop]
          refine ⟨fun r h => by simp at h, ?_⟩
          intro r h
          simp only [Flow.ret.injEq] at h
          subst h
          exact hops
        · rw [if_neg hstop]
          exact ih _ (by simpa [Run.push, State.IsStopRequested] using hstop) hops

/-- Every operation of `InstallEnvironment` is entered with the stop flag clear when the
progress callback leaves the flag alone. -/
theorem InstallEnvironment_invoked_clear (inst : EnvironmentInstaller W)
    (progress_callback : ProgressCallback W)
    (hprogress : ∀ f, progress_callback = some f → ∀ step message percent m,
      (f step message percent m).stop_requested_ = m.stop_requested_)
    (s : State W) :
    ∀ op ∈ (InstallEnvironment inst progress_callback s).ops,
      op.invoked_at.stop_requested_ = false := by
  unfold InstallEnvironment
  by_cases hadmin : inst.CheckAdminPrivileges (ReportProgress progress_callback "install_start"
      "Starting environment installation..." 0 s.ResetStop) = true
  · simp only [hadmin, Bool.not_true, Bool.false_eq_true, if_false]
    have hs0 : (ReportProgress progress_callback "install_start"
        "Starting environment installation..." 0 s.ResetStop).stop_requested_ = false := by
      rw [ReportProgress_stop_requested progress_callback hprogress]
      rfl
    generalize ReportProgress progress_callback "install_start"
      "Starting environment installation..." 0 s.ResetStop = s0 at hs0 ⊢
    obtain ⟨n1, r1⟩ := InstallEnvironment.phase_invoked_clear inst progress_callback hprogress
      false "System requirement not met: " ComponentFactory.GetSystemComponents
      ⟨⟨[], false, ""⟩, s0, [], []⟩ hs0 (by simp)
    cases hp1 : InstallEnvironment.phase inst progress_callback false
        "System requirement not met: " ComponentFactory.GetSystemComponents
        ⟨⟨[], false, ""⟩, s0, [], []⟩ with
    | ret r => exact r1 r hp1
    | next a1 =>
      obtain ⟨h1, h2⟩ := n1 a1 hp1
      simp only
      have hs1 : (ReportProgress progress_callback "phase2_start"
          "Phase 2: Installing Windows features..." 15 a1.state).stop_requested_ = false := by
        rw [ReportProgress_stop_requested progress_callback hprogress]
        exact h2
      generalize ReportProgress progress_callback "phase2_start"
        "Phase 2: Installing Windows features..." 15 a1.state = s1 at hs1 ⊢
      obtain ⟨n2, r2⟩ := InstallEnvironment.phase_invoked_clear inst progress_callback hprogress
        true "Windows feature installation failed: " ComponentFactory.GetWindowsFeatureComponents
        { a1 with state := s1 } hs1 h1
      cases hp2 : InstallEnvironment.phase inst progress_callback true
          "Windows feature installation failed: " ComponentFactory.GetWindowsFeatureComponents
          { a1 with state := s1 } with
      | ret r => exact r2 r hp2
      | next a2 =>
        obtain ⟨k1, k2⟩ := n2 a2 hp2
        simp only
        by_cases hrb : (ProcessRebootRequirements a2.result).reboot_required = true
        · simp only [hrb, if_true]
          exact k1
        · simp only [hrb, Bool.false_eq_true, if_false]
          have hs2 : (ReportProgress progress_callback "phase3_start"
              "Phase 3: Installing software components..." 60 a2.state).stop_requested_
              = false := by
            rw [ReportProgress_stop_requested progress_callback hprogress]
            exact k2
          generalize ReportProgress progress_callback "phase3_start"
            "Phase 3: Installing software components..." 60 a2.state = s2 at hs2 ⊢
          obtain ⟨n3, r3⟩ := InstallEnvironment.phase_invoked_clear inst progress_callback
            hprogress true "Software installation failed: "
            ComponentFactory.GetSoftwareComponents
            { a2 with result := ProcessRebootRequirements a2.result, state := s2 } hs2 k1
          cases hp3 : InstallEnvironment.phase inst progress_callback true
              "Software installation failed: " ComponentFactory.GetSoftwareComponents
              { a2 with result := ProcessRebootRequirements a2.result, state := s2 } with
          | ret r => exact r3 r hp3
          | next a3 => exact (n3 a3 hp3).1
  · simp only [Bool.not_eq_true] at hadmin
    simp [hadmin]

/-- With a progress callback that leaves the stop flag alone, and operations that return with
the flag as they were entered, the check loop enters every operation with the flag it was
entered with and leaves it so. -/
theorem CheckEnvironment.walk_stop_requested (inst : EnvironmentInstaller W)
    (progress_callback_ : ProgressCallback W)
    (hprogress : ∀ f, progress_callback_ = some f → ∀ step message percent m,
      (f step message percent m).stop_requested_ = m.stop_requested_)
    (component_callback : ComponentCheckCallback W) (flag : Bool) :
    ∀ (l : List EnvironmentComponent) (a r : Run W),
      (CheckEnvironment.walk inst progress_callback_ component_callback l a = Flow.next r ∨
        CheckEnvironment.walk inst progress_callback_ component_callback l a = Flow.ret r) →
      a.state.stop_requested_ = flag →
      (∀ o ∈ a.ops, o.invoked_at.stop_requested_ = flag) →
      (∀ o ∈ r.ops, o.returned_at.stop_requested_ = o.invoked_at.stop_requested_) →
      (∀ o ∈ r.ops, o.invoked_at.stop_requested_ = flag) ∧ r.state.stop_requested_ = flag := by
  intro l
  induction l with
  | nil =>
    intro a r h hs ha _
    rcases h with h | h
    · simp only [CheckEnvironment.walk, Flow.next.injEq] at h
      subst h
      exact ⟨ha, hs⟩
    · simp [CheckEnvironment.walk] at h
  | cons t rest ih =>
    intro a r h hs ha hr
    cases hc : inst.components_ t with
    | none =>
      rw [CheckEnvironment.walk_cons_none _ _ _ _ _ _ hc] at h
      exact ih a r h hs ha hr
    | some component =>
      have hsub : ∀ o ∈ (a.push t false component_callback (ExecuteComponentOperation
          progress_callback_ component false component_callback a.state)).ops, o ∈ r.ops := by
        rw [CheckEnvironment.walk_cons_some _ _ _ _ _ _ _ hc] at h
        obtain ⟨n1, r1⟩ := CheckEnvironment.walk_spec inst progress_callback_ component_callback
          rest (a.push t false component_callback (ExecuteComponentOperation
            progress_callback_ component false component_callback a.state))
        intro o ho
        split_ifs at h
        · rcases h with h | h
          · simp at h
          · simp only [Flow.ret.injEq] at h
            subst h
            exact ho
        · rcases h with h | h
          · obtain ⟨new, e1, -⟩ := n1 r h
            rw [e1]
            exact List.mem_append_left _ ho
          · obtain ⟨pre, o', l1, l2, e1, -⟩ := r1 r h
            rw [e1, List.append_assoc]
            exact List.mem_append_left _ ho
      rw [CheckEnvironment.walk_cons_some _ _ _ _ _ _ _ hc] at h
      have hinv := ExecuteComponentOperation_invoked_at progress_callback_ hprogress component
        false component_callback a.state
      rw [hs] at hinv
      generalize ExecuteComponentOperation progress_callback_ component false component_callback
        a.state = x at hinv hsub h
      have hmem : x.record t false ∈ r.ops := hsub _ (by simp [Run.push])
      have hret : x.state.stop_requested_ = flag := by
        have := hr _ hmem
        simp only [OpRun.record] at this
        rw [this]
        exact hinv
      have hops : ∀ o ∈ (a.push t false component_callback x).ops,
          o.invoked_at.stop_requested_ = flag := by
        intro o ho
        simp only [Run.push, List.mem_append, List.mem_singleton] at ho
        rcases ho with ho | ho
        · exact ha o ho
        · rw [ho]
          exact hinv
      split_ifs at h
      · rcases h with h | h
        · simp at h
        · simp only [Flow.ret.injEq] at h
          subst h
          exact ⟨hops, hret⟩
      · exact ih _ r h hret hops hr

/-- C29: `InstallEnvironment` clears the stop flag first, so its run does not depend on the
flag it finds: a `Stop()` issued before the call has no effect on it; and with a progress
callback that does not touch the flag, every operation of the run, the first one included, is
entered with the flag clear.  `CheckEnvironment` does not write the flag: when the callbacks
do not touch it and every check returns with the flag as it was entered, each check is
entered with the flag `CheckEnvironment` found and the flag is the same at the return. -/
theorem stop_flag_reset_by_install_only (inst : EnvironmentInstaller W)
    (progress_callback : ProgressCallback W) (component_callback : ComponentCheckCallback W)
    (s : State W)
    (hprogress : ∀ f, progress_callback = some f → ∀ step message percent m,
      (f step message percent m).stop_requested_ = m.stop_requested_)
    (hcallback : ∀ f, component_callback = some f → ∀ result m,
      (f result m).stop_requested_ = m.stop_requested_)
    (hchecks : ∀ op ∈ (CheckEnvironment inst progress_callback component_callback s).ops,
      op.returned_at.stop_requested_ = op.invoked_at.stop_requested_) :
    (∀ flag : Bool, InstallEnvironment inst progress_callback { s with stop_requested_ := flag }
      = InstallEnvironment inst progress_callback s) ∧
    (∀ op ∈ (InstallEnvironment inst progress_callback s).ops,
      op.invoked_at.stop_requested_ = false) ∧
    (∀ op ∈ (CheckEnvironment inst progress_callback component_callback s).ops,
      op.invoked_at.stop_requested_ = s.stop_requested_) ∧
    (CheckEnvironment inst progress_callback component_callback s).state.stop_requested_ =
      s.stop_requested_ := by
  refine ⟨fun flag => rfl, InstallEnvironment_invoked_clear inst progress_callback hprogress s,
    ?_⟩
  unfold CheckEnvironment at hchecks ⊢
  have hs0 := ReportProgress_stop_requested progress_callback hprogress "check_environment"
    "Starting environment check..." 0 s
  by_cases hadmin : inst.CheckAdminPrivileges (ReportProgress progress_callback
      "check_environment" "Starting environment check..." 0 s) = true
  · simp only [hadmin, Bool.not_true, Bool.false_eq_true, if_false] at hchecks ⊢
    have hwalk := CheckEnvironment.walk_stop_requested inst progress_callback hprogress
      component_callback s.stop_requested_ ComponentFactory.GetAllComponents
      ⟨⟨[], false, ""⟩,
        ReportProgress progress_callback "check_environment" "Starting environment check..." 0 s,
        [], []⟩
    cases hw : CheckEnvironment.walk inst progress_callback component_callback
        ComponentFactory.GetAllComponents
        ⟨⟨[], false, ""⟩,
          ReportProgress progress_callback "check_environment" "Starting environment check..."
            0 s, [], []⟩ with
    | ret r =>
      rw [hw] at hchecks
      exact hwalk r (Or.inr hw) hs0 (by simp) hchecks
    | next r =>
      rw [hw] at hchecks
      simp only at hchecks ⊢
      obtain ⟨h1, h2⟩ := hwalk r (Or.inl hw) hs0 (by simp) hchecks
      refine ⟨h1, ?_⟩
      rw [ReportProgress_stop_requested progress_callback hprogress]
      exact h2
  · simp only [Bool.not_eq_true] at hadmin
    simp only [hadmin, Bool.not_false, if_true]
    refine ⟨by simp, ?_⟩
    cases component_callback with
    | none => exact hs0
    | some f =>
      simp only
      rw [hcallback f rfl]
      exact hs0

/-- Witness for C29: the ready demonstration machine with the stop flag set before the call.
The install run is the one of the machine with the flag clear; the check run keeps the flag
set, and its probes are intercepted. -/
theorem stop_flag_reset_by_install_only_witness :
    InstallEnvironment (new Demo.sys Demo.ctx Demo.ext) none Demo.readyStopped =
      InstallEnvironment (new Demo.sys Demo.ctx Demo.ext) none Demo.ready ∧
    (CheckEnvironment (new Demo.sys Demo.ctx Demo.ext) none none
      Demo.readyStopped).state.stop_requested_ = true ∧
    (CheckEnvironment (new Demo.sys Demo.ctx Demo.ext) none none
      Demo.readyStopped).result.overall_message = "Some components need attention" ∧
    (CheckEnvironment (new Demo.sys Demo.ctx Demo.ext) none none
      Demo.readyStopped).state.log = [] :=
  ⟨((stop_flag_reset_by_install_only (new Demo.sys Demo.ctx Demo.ext) none none Demo.ready
      (fun f h => nomatch h) (fun f h => nomatch h) (by decide)).1 true),
    (stop_flag_reset_by_install_only (new Demo.sys Demo.ctx Demo.ext) none none
      Demo.readyStopped (fun f h => nomatch h) (fun f h => nomatch h) (by decide)).2.2.2,
    by decide, by decide⟩

end EnvironmentInstaller

open commands.ModelJoinCommand in
theorem EscapeForShell.loop_eq :
    ∀ (l escaped : List Char),
      EscapeForShell.loop l escaped =
        escaped ++ l.flatMap
          (fun c => if c = Char.ofNat 39 then
            [Char.ofNat 39, Char.ofNat 34, Char.ofNat 39, Char.ofNat 34, Char.ofNat 39]
          else [c]) := by
  have hq : "'\"'\"'".toList =
      [Char.ofNat 39, Char.ofNat 34, Char.ofNat 39, Char.ofNat 34, Char.ofNat 39] := by
    decide
  intro l
  induction l with
  | nil => intro escaped; simp [EscapeForShell.loop]
  | cons c rest ih =>
    intro escaped
    by_cases hc : c = Char.ofNat 39
    · simp only [EscapeForShell.loop, hc, if_true, ih, hq, List.flatMap_cons, List.append_assoc]
    · simp only [EscapeForShell.loop, hc, if_false, ih, List.flatMap_cons, List.append_assoc]

theorem posix.words.read_single_cons (c : Char) (rest : List Char) (word : Option (List Char))
    (done : List String) :
    posix.words.read (c :: rest) posix.Quoting.single word done =
      if c = Char.ofNat 39 then posix.words.read rest posix.Quoting.unquoted word done
      else posix.words.read rest posix.Quoting.single (some (word.getD [] ++ [c])) done := by
  cases rest <;> cases word <;> simp only [posix.words.read]

theorem posix.words.read_double_cons (c : Char) (rest : List Char) (word : Option (List Char))
    (done : List String) (h1 : c ≠ Char.ofNat 34) (h2 : c ≠ '\\') :
    posix.words.read (c :: rest) posix.Quoting.double word done =
      posix.words.read rest posix.Quoting.double (some (word.getD [] ++ [c])) done := by
  cases rest <;> cases word <;> simp only [posix.words.read, h1, h2, if_false]

theorem posix.words.read_double_close (rest : List Char) (word : Option (List Char))
    (done : List String) :
    posix.words.read (Char.ofNat 34 :: rest) posix.Quoting.double word done =
      posix.words.read rest posix.Quoting.unquoted word done := by
  cases rest <;> cases word <;> simp only [posix.words.read, if_true]

theorem posix.words.read_unquoted_single (rest : List Char) (word : Option (List Char))
    (done : List String) :
    posix.words.read (Char.ofNat 39 :: rest) posix.Quoting.unquoted word done =
      posix.words.read rest posix.Quoting.single (some (word.getD [])) done := by
  have e : ¬ (Char.ofNat 39 = '\\') := by decide
  cases rest <;> cases word <;> simp only [posix.words.read, e, if_false, if_true]

theorem posix.words.read_unquoted_double (rest : List Char) (word : Option (List Char))
    (done : List String) :
    posix.words.read (Char.ofNat 34 :: rest) posix.Quoting.unquoted word done =
      posix.words.read rest posix.Quoting.double (some (word.getD [])) done := by
  have e1 : ¬ (Char.ofNat 34 = '\\') := by decide
  have e2 : ¬ (Char.ofNat 34 = Char.ofNat 39) := by decide
  cases rest <;> cases word <;> simp only [posix.words.read, e1, e2, if_false, if_true]

theorem posix.words.read_unquoted_plain (c : Char) (rest : List Char)
    (word : Option (List Char)) (done : List String)
    (h : c ≠ '\\' ∧ c ≠ Char.ofNat 39 ∧ c ≠ Char.ofNat 34 ∧ c ≠ ' ' ∧ c ≠ '\t' ∧ c ≠ '\n') :
    posix.words.read (c :: rest) posix.Quoting.unquoted word done =
      posix.words.read rest posix.Quoting.unquoted (some (word.getD [] ++ [c])) done := by
  obtain ⟨h1, h2, h3, h4, h5, h6⟩ := h
  cases rest <;> cases word <;>
    simp only [posix.words.read, h1, h2, h3, h4, h5, h6, if_false, or_self]

/-- Inside single quotes the reader takes the escaped form of a text for the text. -/
theorem posix.words.read_escaped :
    ∀ (l w : List Char) (done : List String) (tail : List Char),
      posix.words.read
          (l.flatMap (fun c => if c = Char.ofNat 39 then
              [Char.ofNat 39, Char.ofNat 34, Char.ofNat 39, Char.ofNat 34, Char.ofNat 39]
            else [c]) ++ tail)
          posix.Quoting.single (some w) done =
        posix.words.read tail posix.Quoting.single (some (w ++ l)) done := by
  intro l
  induction l with
  | nil => intro w done tail; simp
  | cons c rest ih =>
    intro w done tail
    by_cases hc : c = Char.ofNat 39
    · subst hc
      have hlist : ([Char.ofNat 39] ++ rest).flatMap (fun c => if c = Char.ofNat 39 then
              [Char.ofNat 39, Char.ofNat 34, Char.ofNat 39, Char.ofNat 34, Char.ofNat 39]
            else [c]) ++ tail =
          Char.ofNat 39 :: Char.ofNat 34 :: Char.ofNat 39 :: Char.ofNat 34 :: Char.ofNat 39 ::
            (rest.flatMap (fun c => if c = Char.ofNat 39 then
              [Char.ofNat 39, Char.ofNat 34, Char.ofNat 39, Char.ofNat 34, Char.ofNat 39]
            else [c]) ++ tail) := by
        simp [List.flatMap_cons]
      have hlist2 : (Char.ofNat 39 :: rest) = [Char.ofNat 39] ++ rest := rfl
      rw [hlist2, hlist, posix.words.read_single_cons, if_pos rfl,
        posix.words.read_unquoted_double,
        posix.words.read_double_cons _ _ _ _ (by decide) (by decide),
        posix.words.read_double_close, posix.words.read_unquoted_single]
      simp only [Option.getD_some]
      rw [ih, List.append_assoc]
    · have hlist : (c :: rest).flatMap (fun c => if c = Char.ofNat 39 then
              [Char.ofNat 39, Char.ofNat 34, Char.ofNat 39, Char.ofNat 34, Char.ofNat 39]
            else [c]) ++ tail =
          c :: (rest.flatMap (fun c => if c = Char.ofNat 39 then
              [Char.ofNat 39, Char.ofNat 34, Char.ofNat 39, Char.ofNat 34, Char.ofNat 39]
            else [c]) ++ tail) := by
        simp [List.flatMap_cons, hc]
      rw [hlist, posix.words.read_single_cons, if_neg hc]
      simp only [Option.getD_some]
      rw [ih, List.append_assoc]
      rfl

/-- Outside quotes the reader takes a text without blanks, quotes and backslashes for
itself. -/
theorem posix.words.read_plain :
    ∀ (l w : List Char) (done : List String),
      (∀ c ∈ l, c ≠ '\\' ∧ c ≠ Char.ofNat 39 ∧ c ≠ Char.ofNat 34 ∧ c ≠ ' ' ∧ c ≠ '\t' ∧
        c ≠ '\n') →
      posix.words.read l posix.Quoting.unquoted (some w) done =
        some (done ++ [String.mk (w ++ l)]) := by
  intro l
  induction l with
  | nil => intro w done _; simp [posix.words.read]
  | cons c rest ih =>
    intro w done h
    rw [posix.words.read_unquoted_plain _ _ _ _ (h c (List.mem_cons_self _ _))]
    simp only [Option.getD_some]
    rw [ih _ _ (fun x hx => h x (List.mem_cons_of_mem _ hx)), List.append_assoc]
    rfl

open commands.ModelJoinCommand in
/-- C30 (divergence): read by the quoting rules of the POSIX shell, `EscapeForShell(a)` is the
single word `a` for every argument that contains one of the characters the method looks for
(it is then wrapped in single quotes), and for every non-empty argument that contains none of
them and no backslash.  The backslash is not among the characters looked for: "a\b" is
returned as it is and read as the word "ab"; and the empty argument is returned as the empty
text, which is read as no word at all.  So `parallax join -m C:\models\q` reaches the guest
command as `-m C:modelsq`. -/
theorem EscapeForShell_not_always_one_word :
    (∀ arg : String, (∃ c ∈ specialCharacters, c ∈ arg.toList) →
      posix.words (EscapeForShell arg) = some [arg]) ∧
    (∀ arg : String, (∀ c ∈ specialCharacters, c ∉ arg.toList) → '\\' ∉ arg.toList →
      arg ≠ "" → posix.words (EscapeForShell arg) = some [arg]) ∧
    EscapeForShell "a\\b" = "a\\b" ∧
    posix.words (EscapeForShell "a\\b") = some ["ab"] ∧
    EscapeForShell "" = "" ∧
    posix.words (EscapeForShell "") = some [] ∧
    posix.words (BuildJoinCommand ["-m", "C:\\models\\q"]) =
      some ["parallax", "join", "-m", "C:modelsq"] := by
  refine ⟨?_, ?_, by decide, by decide, by decide, by decide, by decide⟩
  · intro arg h
    have hcond : specialCharacters.any (fun c => decide (c ∈ arg.toList)) = true := by
      rw [List.any_eq_true]
      obtain ⟨c, hc, hin⟩ := h
      exact ⟨c, hc, by simpa using hin⟩
    have hq : "'".toList = [Char.ofNat 39] := by decide
    unfold EscapeForShell posix.words
    rw [if_pos hcond, hq, EscapeForShell.loop_eq]
    show posix.words.read ([Char.ofNat 39] ++ arg.toList.flatMap _ ++ [Char.ofNat 39])
      posix.Quoting.unquoted none [] = _
    rw [List.append_assoc, List.singleton_append, posix.words.read_unquoted_single,
      posix.words.read_escaped, posix.words.read_single_cons, if_pos rfl]
    simp [posix.words.read]
  · intro arg hnone hback hne
    have hcond : ¬ (specialCharacters.any (fun c => decide (c ∈ arg.toList)) = true) := by
      rw [List.any_eq_true]
      rintro ⟨c, hc, hin⟩
      exact hnone c hc (by simpa using hin)
    have hplain : ∀ c ∈ arg.toList, c ≠ '\\' ∧ c ≠ Char.ofNat 39 ∧ c ≠ Char.ofNat 34 ∧
        c ≠ ' ' ∧ c ≠ '\t' ∧ c ≠ '\n' := by
      intro c hc
      refine ⟨fun h => hback (h ▸ hc), fun h => hnone _ (by decide) (h ▸ hc),
        fun h => hnone _ (by decide) (h ▸ hc), fun h => hnone _ (by decide) (h ▸ hc),
        fun h => hnone _ (by decide) (h ▸ hc), fun h => hnone _ (by decide) (h ▸ hc)⟩
    unfold EscapeForShell posix.words
    rw [if_neg hcond]
    obtain ⟨data⟩ := arg
    cases data with
    | nil => exact absurd rfl hne
    | cons c rest =>
      show posix.words.read (c :: rest) posix.Quoting.unquoted none [] = _
      rw [posix.words.read_unquoted_plain _ _ _ _ (hplain c (List.mem_cons_self _ _)),
        posix.words.read_plain _ _ _ (fun x hx => hplain x (List.mem_cons_of_mem _ hx))]
      rfl

namespace EnvironmentInstaller

/-- Witness for C28: on the fresh demonstration machine with a callback that writes down what
it is handed, the machine holds at the end one entry per returned result, in result order,
with the messages of the values the callback received. -/
theorem CheckEnvironment_callback_per_result_witness :
    (CheckEnvironment (new Demo.sys Demo.ctx Demo.ext) none (some Demo.recordResult)
        Demo.fresh).state.world.files =
      (CheckEnvironment (new Demo.sys Demo.ctx Demo.ext) none (some Demo.recordResult)
        Demo.fresh).callbacks.foldl (fun files result => files ++ ["callback: " ++ result.message])
        Demo.fresh.world.files ∧
    (CheckEnvironment (new Demo.sys Demo.ctx Demo.ext) none (some Demo.recordResult)
        Demo.fresh).state.world.files.length = 15 ∧
    (CheckEnvironment (new Demo.sys Demo.ctx Demo.ext) none (some Demo.recordResult)
        Demo.fresh).result.component_results.length = 15 ∧
    (CheckEnvironment (new Demo.sys Demo.ctx Demo.ext) none (some Demo.recordResult)
        Demo.fresh).callbacks.length =
      (CheckEnvironment (new Demo.sys Demo.ctx Demo.ext) none (some Demo.recordResult)
        Demo.fresh).result.component_results.length :=
  ⟨(CheckEnvironment_callback_per_result (new Demo.sys Demo.ctx Demo.ext) none
      Demo.recordResult Demo.fresh).2.2.2.2 (List String) (fun m => m.world.files)
      (fun files result => files ++ ["callback: " ++ result.message])
      (fun _ _ => rfl) (fun f h => nomatch h) (by decide),
    by decide, by decide,
    (CheckEnvironment_callback_per_result (new Demo.sys Demo.ctx Demo.ext) none
      Demo.recordResult Demo.fresh).1⟩

end EnvironmentInstaller

end environment
